import Mathlib

/-!
TetrisNG: the simulation kernel and the coordinator, embedded in Lean.

A shallow embedding of `src/src/grid.cpp`, `src/src/block.cpp`, `src/src/blocks.cpp`,
`src/game.cpp`, `src/src/NetworkManager.cpp` and of the statements of `src/src/main.cpp`
and `src/ui_manager.cpp` that call the coordinator while a network game runs.

Modelling conventions.

* A C++ `int` is an `Int`.  The score, which a peer can set to any value over the wire,
  is kept in 32 bits: every addition to it wraps (`wrapInt32`).  The line count and the
  level start at 0 and 1 and grow by at most 4 and 1 per lock; their overflow is outside
  the model.
* `int grid[20][10]` is a list of rows, each a list of cells.  `Grid.WF` says that the
  list really is 20 x 10.  Reads and writes whose indices are loop counters bounded by
  `numRows` / `numColums` use `cellAt` / `setCell`.  The two writes whose index is
  computed from data (`LockBlock`, `MoveRowDown`) are checked: an index outside the
  array is undefined behaviour in C++, and the model returns `none` there.
* `std::map<int, std::vector<Position>> cells` with keys `0 .. n-1` is the list of its
  values; a lookup at a missing key gives the empty vector, as `operator[]` does.
* `std::mt19937` with `std::uniform_int_distribution<int>` is a parameter `Rng`: the
  distribution's algorithm is implementation defined, so the kernel is verified for
  every generator that honours the contract `0 <= draw <= hi`.
* `time(NULL)` is an explicit argument `now` of the operations that read the clock.
* Members used only for drawing (`colors`, `cellSize`, `movedTiles`, `useArrows`) are
  left out.
* `double` and `float` values are rationals.  The coordinator only stores and compares
  them, which is exact.  `GetSpeed` computes with them: there a `double` is an IEEE 754
  binary64 number, held as an integer count of units of `2^-56`, the decimal literals
  are the nearest such numbers, and a result is rounded to 53 significant bits, ties to
  even (`round53`).  A compiler may round the product and the difference each on its
  own or contract them into one fused operation with a single rounding; which it does
  is the parameter `fused`.
* The transport (ENet) is outside the model: the coordinator is a state record, the
  packets it sends are appended to its field `sent`, and the events that
  `enet_host_service` returns are arguments of `Update`.
-/

set_option maxRecDepth 100000

namespace TetrisNG

/-! ## Positions and blocks -/

/-- Modelled from the spec: `position.hpp` is not among the sources; every use
(`Position(r, c)`, `item.row`, `item.column`) treats it as a pair of ints. -/
structure Position where
  row : Int
  column : Int
deriving DecidableEq, Repr

/-- The class `Block` of `block.hpp`, without its drawing members. -/
structure Block where
  id : Int
  cells : List (List Position)
  rotationState : Int
  rowOffset : Int
  columnOffset : Int
deriving DecidableEq, Repr

namespace Block

/-- The method `Block::Move`. -/
def Move (b : Block) (rows columns : Int) : Block :=
  { b with rowOffset := b.rowOffset + rows, columnOffset := b.columnOffset + columns }

/-- The lookup `cells[rotationState]`: the empty vector at a missing key (the entry that
`operator[]` would create there is not modelled; `Rotate` and `UndoRotation` keep the
index of a constructed block among its keys). -/
def tilesAt (b : Block) : List Position :=
  if 0 ≤ b.rotationState then b.cells.getD b.rotationState.toNat [] else []

/-- The method `Block::GetCellPositions`. -/
def GetCellPositions (b : Block) : List Position :=
  b.tilesAt.map (fun item => Position.mk (item.row + b.rowOffset) (item.column + b.columnOffset))

/-- The method `Block::Rotate`. -/
def Rotate (b : Block) : Block :=
  let r := b.rotationState + 1
  { b with rotationState := if r = (b.cells.length : Int) then 0 else r }

/-- The method `Block::UndoRotation`. -/
def UndoRotation (b : Block) : Block :=
  let r := b.rotationState - 1
  { b with rotationState := if r = -1 then (b.cells.length : Int) - 1 else r }

/-- The state a `Block` subclass constructor starts from: `Block::Block()` followed by
the assignments of `id` and `cells`. -/
def fresh (id : Int) (cells : List (List Position)) : Block :=
  { id := id, cells := cells, rotationState := 0, rowOffset := 0, columnOffset := 0 }

end Block

/-- Shorthand for `Position(r, c)`. -/
def P (r c : Int) : Position := Position.mk r c

/-- The constructor `LBlock::LBlock`. -/
def LBlock : Block :=
  (Block.fresh 1
    [[P 0 2, P 1 0, P 1 1, P 1 2],
     [P 0 1, P 1 1, P 2 1, P 2 2],
     [P 1 0, P 1 1, P 1 2, P 2 0],
     [P 0 0, P 0 1, P 1 1, P 2 1]]).Move 0 3

/-- The constructor `JBlock::JBlock`. -/
def JBlock : Block :=
  (Block.fresh 2
    [[P 0 0, P 1 0, P 1 1, P 1 2],
     [P 0 1, P 0 2, P 1 1, P 2 1],
     [P 1 0, P 1 1, P 1 2, P 2 2],
     [P 0 1, P 1 1, P 2 0, P 2 1]]).Move 0 3

/-- The constructor `IBlock::IBlock`. -/
def IBlock : Block :=
  (Block.fresh 3
    [[P 1 0, P 1 1, P 1 2, P 1 3],
     [P 0 2, P 1 2, P 2 2, P 3 2],
     [P 2 0, P 2 1, P 2 2, P 2 3],
     [P 0 1, P 1 1, P 2 1, P 3 1]]).Move (-1) 3

/-- The constructor `OBlock::OBlock`. -/
def OBlock : Block :=
  (Block.fresh 4
    [[P 0 0, P 0 1, P 1 0, P 1 1],
     [P 0 0, P 0 1, P 1 0, P 1 1],
     [P 0 0, P 0 1, P 1 0, P 1 1],
     [P 0 0, P 0 1, P 1 0, P 1 1]]).Move 0 4

/-- The constructor `SBlock::SBlock`. -/
def SBlock : Block :=
  (Block.fresh 5
    [[P 0 1, P 0 2, P 1 0, P 1 1],
     [P 0 1, P 1 1, P 1 2, P 2 2],
     [P 1 1, P 1 2, P 2 0, P 2 1],
     [P 0 0, P 1 0, P 1 1, P 2 1]]).Move 0 3

/-- The constructor `TBlock::TBlock`. -/
def TBlock : Block :=
  (Block.fresh 6
    [[P 0 1, P 1 0, P 1 1, P 1 2],
     [P 0 1, P 1 1, P 1 2, P 2 1],
     [P 1 0, P 1 1, P 1 2, P 2 1],
     [P 0 1, P 1 0, P 1 1, P 2 1]]).Move 0 3

/-- The constructor `ZBlock::ZBlock`. -/
def ZBlock : Block :=
  (Block.fresh 7
    [[P 0 0, P 0 1, P 1 1, P 1 2],
     [P 0 2, P 1 1, P 1 2, P 2 1],
     [P 1 0, P 1 1, P 2 1, P 2 2],
     [P 0 1, P 1 0, P 1 1, P 2 0]]).Move 0 3

/-! ## The grid (`grid.cpp`) -/

/-- The member `int grid[20][10]`: a list of rows. -/
abbrev Grid := List (List Int)

/-- The member `numRows`, set to 20 by the constructor and never changed. -/
def numRows : Nat := 20

/-- The member `numColums`, set to 10 by the constructor and never changed. -/
def numColums : Nat := 10

/-- A grid of the declared shape: 20 rows of 10 cells. -/
def Grid.WF (g : Grid) : Prop := g.length = numRows ∧ ∀ r ∈ g, r.length = numColums

instance (g : Grid) : Decidable g.WF :=
  inferInstanceAs (Decidable (g.length = numRows ∧ ∀ r ∈ g, r.length = numColums))

/-- The read `grid[row][column]`. -/
def cellAt (g : Grid) (row column : Nat) : Int := (g.getD row []).getD column 0

/-- The write `grid[row][column] = v` at indices inside the array. -/
def setCell (g : Grid) (row column : Nat) (v : Int) : Grid :=
  g.set row ((g.getD row []).set column v)

/-- The write `grid[row][column] = v` at computed indices: `none` outside the array. -/
def writeCell (g : Grid) (row column : Int) (v : Int) : Option Grid :=
  if 0 ≤ row ∧ row < numRows ∧ 0 ≤ column ∧ column < numColums then
    some (setCell g row.toNat column.toNat v)
  else none

/-- The method `Grid::Initalize`: two nested loops writing 0. -/
def Initalize (g : Grid) : Grid :=
  (List.range numRows).foldl
    (fun g row => (List.range numColums).foldl (fun g column => setCell g row column 0) g) g

/-- The method `Grid::IsCellOutside`. -/
def IsCellOutside (row column : Int) : Bool :=
  if row ≥ 0 ∧ row < numRows ∧ column ≥ 0 ∧ column < numColums then false else true

/-- The method `Grid::IsCellEmpty`. -/
def IsCellEmpty (g : Grid) (row column : Int) : Bool :=
  if column < 0 ∨ column ≥ numColums then false
  else if row ≥ numRows then false
  else if row < 0 then true
  else cellAt g row.toNat column.toNat == 0

/-- The method `Grid::IsRowFull`: false at the first 0 cell of the row. -/
def IsRowFull (g : Grid) (row : Nat) : Bool :=
  (List.range numColums).all (fun column => cellAt g row column != 0)

/-- The method `Grid::ClearRow`. -/
def ClearRow (g : Grid) (row : Nat) : Grid :=
  (List.range numColums).foldl (fun g column => setCell g row column 0) g

/-- The method `Grid::MoveRowDown(row, numRows)`, its second parameter named `n` here;
the target row `row + n` is a computed index. -/
def MoveRowDown (g : Grid) (row n : Nat) : Option Grid :=
  (List.range numColums).foldlM
    (fun g (column : Nat) => do
      let g1 ← writeCell g ((row + n : Nat) : Int) (column : Int) (cellAt g row column)
      pure (setCell g1 row column 0)) g

/-- The loop of `Grid::ClearFullRows` with `rows` iterations left: it visits the rows
`rows - 1, ..., 0` carrying the counter `completed`. -/
def clearLoop : Nat → Grid → Nat → Option (Nat × Grid)
  | 0, g, completed => some (completed, g)
  | row + 1, g, completed =>
    if IsRowFull g row then clearLoop row (ClearRow g row) (completed + 1)
    else if completed > 0 then do
      let g1 ← MoveRowDown g row completed
      clearLoop row g1 completed
    else clearLoop row g completed

/-- The method `Grid::ClearFullRows`: the count of cleared rows and the new grid. -/
def ClearFullRows (g : Grid) : Option (Nat × Grid) := clearLoop numRows g 0

/-! ## The game (`game.cpp`) -/

/-- The random source of a `Game`: `std::mt19937 rng` together with the
`std::uniform_int_distribution<int>` drawn from it.  `seed v` is `rng.seed(v)` for a
32-bit value `v`; `draw s hi` is `dist(rng)` for `dist(0, hi)`, returning the index and
the advanced generator.  `draw_le` is the contract of the distribution. -/
structure Rng (σ : Type) where
  seed : Nat → σ
  draw : σ → Nat → Nat × σ
  draw_le : ∀ s hi, (draw s hi).1 ≤ hi

/-- The struct `InputState` of `game.hpp`. -/
structure InputState where
  left : Bool
  right : Bool
  down : Bool
  rotate : Bool
  reset : Bool
  currentScore : Int
deriving DecidableEq, Repr

/-- The class `Game` of `game.hpp`, without its drawing members; `σ` is the state of
the random generator. -/
structure Game (σ : Type) where
  grid : Grid
  blocks : List Block
  currentBlock : Block
  nextBlock : Block
  rng : σ
  gameOver : Bool
  score : Int
  level : Int
  totalLinesCleared : Int
deriving DecidableEq, Repr

/-- The method `Game::GetAllBlocks`. -/
def GetAllBlocks : List Block := [IBlock, JBlock, LBlock, OBlock, SBlock, TBlock, ZBlock]

/-- The value of `(unsigned int)x` for an `int` or `time_t` value `x`. -/
def toUInt32 (x : Int) : Nat := (x % 4294967296).toNat

/-- The value of `(int)s` for an `unsigned int` value `s`, as at the calls `Reset(s1)`. -/
def toInt32 (s : Nat) : Int :=
  if s % 4294967296 < 2147483648 then (s % 4294967296 : Nat) else (s % 4294967296 : Nat) - 4294967296

/-- The value a 32-bit `int` holds after an arithmetic operation whose exact result is
`x`: `x` itself when it lies in `-2^31 .. 2^31 - 1`.  Outside that range signed overflow
is undefined behaviour in C++; the model takes the two's-complement wrap-around, which is
what the compiled program computes. -/
def wrapInt32 (x : Int) : Int := (x + 2147483648) % 4294967296 - 2147483648

/-- A value in the range of a 32-bit `int`. -/
def IsInt32 (x : Int) : Prop := -2147483648 ≤ x ∧ x < 2147483648

instance (x : Int) : Decidable (IsInt32 x) :=
  inferInstanceAs (Decidable (-2147483648 ≤ x ∧ x < 2147483648))

variable {σ : Type}

/-- The method `Game::GetRandomBlock`.  The index is inside the bag by `Rng.draw_le`, so
the fallback of `getD` is never used. -/
def GetRandomBlock (R : Rng σ) (g : Game σ) : Block × Game σ :=
  let bag := if g.blocks.isEmpty then GetAllBlocks else g.blocks
  let d := R.draw g.rng (bag.length - 1)
  let randomIndex := d.1
  let block := bag.getD randomIndex (Block.fresh 0 [])
  (block, { g with blocks := bag.eraseIdx randomIndex, rng := d.2 })

/-- The method `Game::IsBlockOutside`. -/
def IsBlockOutside (block : Block) : Bool :=
  block.GetCellPositions.any (fun item => IsCellOutside item.row item.column)

/-- The method `Game::BlockFits`. -/
def BlockFits (grid : Grid) (block : Block) : Bool :=
  block.GetCellPositions.all (fun item => IsCellEmpty grid item.row item.column)

/-- The method `Game::UpdateScore`.  The member `score` is a 32-bit `int` that a peer can
set to any value over the wire, so its arithmetic is done in 32 bits (`wrapInt32`).  The
C++ quotient `totalLinesCleared / 10` truncates toward zero, which is `Int.tdiv`. -/
def UpdateScore (g : Game σ) (linesCleared moveDownPoints : Int) : Game σ :=
  let score1 :=
    if linesCleared = 1 then wrapInt32 (g.score + wrapInt32 (100 * g.level))
    else if linesCleared = 2 then wrapInt32 (g.score + wrapInt32 (300 * g.level))
    else if linesCleared = 3 then wrapInt32 (g.score + wrapInt32 (500 * g.level))
    else if linesCleared = 4 then wrapInt32 (g.score + wrapInt32 (800 * g.level))
    else g.score
  let total := g.totalLinesCleared + linesCleared
  { g with score := wrapInt32 (score1 + moveDownPoints),
           totalLinesCleared := total,
           level := 1 + Int.tdiv total 10 }

/-- The method `Game::Reset(seed)`; `now` is the value `time(NULL)` returns when the
sentinel `-1` asks for a clock seed. -/
def Reset (R : Rng σ) (g : Game σ) (seed : Int) (now : Int) : Game σ :=
  let g0 : Game σ :=
    { g with grid := Initalize g.grid,
             blocks := GetAllBlocks,
             rng := if seed ≠ -1 then R.seed (toUInt32 seed) else R.seed (toUInt32 now) }
  let (current, g1) := GetRandomBlock R g0
  let (next, g2) := GetRandomBlock R g1
  { g2 with currentBlock := current, nextBlock := next,
            score := 0, level := 1, totalLinesCleared := 0, gameOver := false }

/-- The first loop of `Game::LockBlock`: every tile at a row `>= 0` is written with the
block id (`none` when that write leaves the array), every other tile sets `gameOver`. -/
def lockTiles (id : Int) : List Position → Grid → Bool → Option (Grid × Bool)
  | [], grid, gameOver => some (grid, gameOver)
  | item :: tiles, grid, gameOver =>
    if item.row ≥ 0 then do
      let grid1 ← writeCell grid item.row item.column id
      lockTiles id tiles grid1 gameOver
    else lockTiles id tiles grid true

/-- The method `Game::LockBlock`. -/
def LockBlock (R : Rng σ) (g : Game σ) : Option (Game σ) := do
  let (grid1, over1) ← lockTiles g.currentBlock.id g.currentBlock.GetCellPositions g.grid g.gameOver
  let g1 : Game σ := { g with grid := grid1, gameOver := over1 }
  if !g1.gameOver then
    let g2 : Game σ := { g1 with currentBlock := g1.nextBlock }
    let g3 : Game σ := if !BlockFits g2.grid g2.currentBlock then { g2 with gameOver := true } else g2
    let (next, g4) := GetRandomBlock R g3
    let g5 : Game σ := { g4 with nextBlock := next }
    let (rowsCleared, grid2) ← ClearFullRows g5.grid
    pure (UpdateScore { g5 with grid := grid2 } rowsCleared 0)
  else pure g1

/-- The method `Game::MoveBlockLeft`. -/
def MoveBlockLeft (g : Game σ) : Game σ :=
  if !g.gameOver then
    let g1 : Game σ := { g with currentBlock := g.currentBlock.Move 0 (-1) }
    if IsBlockOutside g1.currentBlock || !BlockFits g1.grid g1.currentBlock then
      { g1 with currentBlock := g1.currentBlock.Move 0 1 }
    else g1
  else g

/-- The method `Game::MoveBlockRight`. -/
def MoveBlockRight (g : Game σ) : Game σ :=
  if !g.gameOver then
    let g1 : Game σ := { g with currentBlock := g.currentBlock.Move 0 1 }
    if IsBlockOutside g1.currentBlock || !BlockFits g1.grid g1.currentBlock then
      { g1 with currentBlock := g1.currentBlock.Move 0 (-1) }
    else g1
  else g

/-- The method `Game::MoveBlockDown`: the returned flag and the new state. -/
def MoveBlockDown (R : Rng σ) (g : Game σ) : Option (Bool × Game σ) :=
  if !g.gameOver then
    let g1 : Game σ := { g with currentBlock := g.currentBlock.Move 1 0 }
    if IsBlockOutside g1.currentBlock || !BlockFits g1.grid g1.currentBlock then do
      let g2 : Game σ := { g1 with currentBlock := g1.currentBlock.Move (-1) 0 }
      let g3 ← LockBlock R g2
      pure (false, g3)
    else pure (true, g1)
  else pure (false, g)

/-- The method `Game::RotateBlock`. -/
def RotateBlock (g : Game σ) : Game σ :=
  if !g.gameOver then
    let g1 : Game σ := { g with currentBlock := g.currentBlock.Rotate }
    if IsBlockOutside g1.currentBlock || !BlockFits g1.grid g1.currentBlock then
      { g1 with currentBlock := g1.currentBlock.UndoRotation }
    else g1
  else g

/-- The method `Game::HandleInput`; `now` is what `time(NULL)` returns if the call
reaches `Reset()`. -/
def HandleInput (R : Rng σ) (g : Game σ) (input : InputState) (now : Int) : Option (Game σ) :=
  if g.gameOver then
    pure (if input.reset then Reset R g (-1) now else g)
  else do
    let g1 := if input.left then MoveBlockLeft g else g
    let g2 := if input.right then MoveBlockRight g1 else g1
    let g3 := if input.rotate then RotateBlock g2 else g2
    if input.down then
      let (moved, g4) ← MoveBlockDown R g3
      pure (if moved then UpdateScore g4 0 1 else g4)
    else pure g3

/-- The number of binary digits of `n`, computed with at most `fuel` halvings. -/
def bitLength : Nat → Nat → Nat
  | 0, _ => 0
  | fuel + 1, n => if n = 0 then 0 else bitLength fuel (n / 2) + 1

/-- The rounding of one `double` operation on an exact result of `N` units: the nearest
number with at most 53 significant bits, the one with the even last bit at a tie.  (The
exponent range of `double` is not reached by the values `GetSpeed` computes.) -/
def round53 (N : Int) : Int :=
  let a := N.natAbs
  let k := bitLength a a
  if k ≤ 53 then N
  else
    let s := k - 53
    let q := a / 2 ^ s
    let r := a % 2 ^ s
    let m := if 2 * r < 2 ^ s then q else if 2 ^ s < 2 * r then q + 1
      else if q % 2 = 0 then q else q + 1
    if 0 ≤ N then ((m * 2 ^ s : Nat) : Int) else -((m * 2 ^ s : Nat) : Int)

/-- The literal `0.05` as a `double`, in units of `2^-56`. -/
def lit005 : Int := 3602879701896397

/-- The literal `0.8` as a `double`, in units of `2^-56`. -/
def lit08 : Int := 57646075230342352

/-- The literal `0.07` as a `double`, in units of `2^-56`. -/
def lit007 : Int := 5044031582654956

/-- The value of `fmax(0.05, 0.8 - ((level - 1) * 0.07))` in units of `2^-56`: the
integer `level - 1` is converted exactly, the product is rounded (unless the compiler
fuses it with the subtraction), the difference is rounded, and `fmax` picks the larger
of two numbers. -/
def speedUnits (fused : Bool) (level : Int) : Int :=
  let product := (level - 1) * lit007
  max lit005 (round53 (lit08 - (if fused then product else round53 product)))

/-- The method `Game::GetSpeed`, `(double)fmax(0.05, 0.8 - ((level - 1) * 0.07))`: the
`double` it returns, as a rational. -/
def GetSpeed (fused : Bool) (g : Game σ) : ℚ :=
  (speedUnits fused g.level : ℚ) / 2 ^ 56

/-- The values of `speedUnits` at the levels 1 to 11; the two ways of rounding differ at
level 10 only. -/
def speedTable (fused : Bool) : List Int :=
  [57646075230342352, 52602043647687392, 47558012065032440, 42513980482377488,
   37469948899722528, 32425917317067572, 27381885734412616, 22337854151757660,
   17293822569102704, if fused then 12249790986447748 else 12249790986447744,
   7205759403792792]

/-- The method `Grid::IsCellEmpty` with its array read checked: `none` if the read
`grid[row][column]` is reached with an index outside the array. -/
def IsCellEmptyChecked (g : Grid) (row column : Int) : Option Bool :=
  if column < 0 ∨ column ≥ numColums then some false
  else if row ≥ numRows then some false
  else if row < 0 then some true
  else if 0 ≤ row ∧ row < numRows ∧ 0 ≤ column ∧ column < numColums then
    some (cellAt g row.toNat column.toNat == 0)
  else none

/-! ## The coordinator (`NetworkManager.hpp`, `NetworkManager.cpp`) -/

/-- The enum `PacketType`. -/
inductive PacketType where
  | PACKET_INPUT
  | PACKET_SEED
  | PACKET_TICK
  | PACKET_RESTART_REQ
  | PACKET_RESTART_RES
  | PACKET_PAUSE_REQ
  | PACKET_PAUSE_RES
  | PACKET_RESUME_REQ
  | PACKET_RESUME_RES
  | PACKET_QUIT
  | PACKET_NEW_GAME
deriving DecidableEq, Repr

/-- The enum `NetworkRole`. -/
inductive NetworkRole where
  | NONE
  | SERVER
  | CLIENT
deriving DecidableEq, Repr

/-- A packet, in one of the four layouts the senders build: the type tag followed by an
`InputState`, by two `unsigned int` seeds, by nothing, or by a `bool`. -/
inductive Packet where
  | input (type : PacketType) (data : InputState)
  | seed (type : PacketType) (s1 s2 : Nat)
  | bare (type : PacketType)
  | response (type : PacketType) (a : Bool)
deriving DecidableEq, Repr

/-- The type tag at the start of a packet, `*(PacketType*)event.packet->data`. -/
def Packet.type : Packet → PacketType
  | Packet.input type _ => type
  | Packet.seed type _ _ => type
  | Packet.bare type => type
  | Packet.response type _ => type

/-- The class `NetworkManager`.  The pointers `host` and `peer` are modelled by whether
they are non-null; `sent` lists the packets handed to `enet_peer_send`, oldest first. -/
structure NetworkManager where
  restartRequestReceived : Bool
  restartRequestPending : Bool
  pauseRequestReceived : Bool
  pauseRequestPending : Bool
  resumeRequestReceived : Bool
  resumeRequestPending : Bool
  opponentQuit : Bool
  remoteStartedNewGame : Bool
  role : NetworkRole
  isConnected : Bool
  host : Bool
  peer : Bool
  sent : List Packet
deriving DecidableEq, Repr

namespace NetworkManager

/-- The two calls `enet_packet_create` and `enet_peer_send` of every sender. -/
def send (n : NetworkManager) (p : Packet) : NetworkManager :=
  { n with sent := n.sent ++ [p] }

/-- The method `NetworkManager::SendInput`. -/
def SendInput (n : NetworkManager) (input : InputState) : NetworkManager :=
  if !n.peer then n else n.send (Packet.input PacketType.PACKET_INPUT input)

/-- The method `NetworkManager::SendSeed`. -/
def SendSeed (n : NetworkManager) (seedHost seedClient : Nat) : NetworkManager :=
  if !n.peer then n else n.send (Packet.seed PacketType.PACKET_SEED seedHost seedClient)

/-- The method `NetworkManager::SendTick`. -/
def SendTick (n : NetworkManager) : NetworkManager :=
  if !n.peer || n.role != NetworkRole.SERVER then n
  else n.send (Packet.bare PacketType.PACKET_TICK)

/-- The method `NetworkManager::SendRequest`. -/
def SendRequest (n : NetworkManager) (type : PacketType) : NetworkManager :=
  if !n.peer then n
  else
    let n1 := n.send (Packet.bare type)
    let n2 := if type = PacketType.PACKET_RESTART_REQ then
      { n1 with restartRequestPending := true } else n1
    let n3 := if type = PacketType.PACKET_PAUSE_REQ then
      { n2 with pauseRequestPending := true } else n2
    if type = PacketType.PACKET_RESUME_REQ then
      { n3 with resumeRequestPending := true } else n3

/-- The method `NetworkManager::SendResponse`. -/
def SendResponse (n : NetworkManager) (type : PacketType) (accepted : Bool) : NetworkManager :=
  if !n.peer then n else n.send (Packet.response type accepted)

/-- The method `NetworkManager::SendQuit`. -/
def SendQuit (n : NetworkManager) : NetworkManager :=
  if !n.peer then n else n.send (Packet.bare PacketType.PACKET_QUIT)

/-- The method `NetworkManager::SendNewGameSignal`. -/
def SendNewGameSignal (n : NetworkManager) : NetworkManager :=
  if !n.peer then n else n.send (Packet.bare PacketType.PACKET_NEW_GAME)

/-- The method `NetworkManager::Stop`. -/
def Stop (n : NetworkManager) : NetworkManager :=
  { n with host := false, peer := false, isConnected := false, role := NetworkRole.NONE,
           restartRequestReceived := false, restartRequestPending := false,
           pauseRequestReceived := false, pauseRequestPending := false,
           resumeRequestReceived := false, resumeRequestPending := false,
           opponentQuit := false, remoteStartedNewGame := false }

end NetworkManager

/-- The coordinator together with the objects `Update` works on by reference: the two
kernels, `isPausedGame`, `countdownTimer` (a `float`, whose values are rationals), and
the static `Utils::lastUpdateTime`. -/
structure Session (σ : Type) where
  net : NetworkManager
  localGame : Game σ
  remoteGame : Game σ
  isPausedGame : Bool
  countdownTimer : ℚ
  lastUpdateTime : ℚ
deriving DecidableEq

/-- What the environment shows while one event is handled: `time k` is the value of
`time(NULL)` at the `k`-th place that reads it (0: the seed `s1`; 1: inside the `Reset`
or `HandleInput` of the first kernel; 2: inside the `Reset` of the second), `getTime`
the value of `GetTime()`. -/
structure Env where
  time : Nat → Int
  getTime : ℚ

/-- An event returned by `enet_host_service`. -/
inductive Event where
  | connect
  | receive (packet : Packet)
  | disconnect
deriving DecidableEq, Repr

/-- The helper `ResetSyncState`; `Utils::EventTriggered(0, true)` stores `GetTime()` in
`lastUpdateTime`. -/
def ResetSyncState (s : Session σ) (env : Env) : Session σ :=
  { s with isPausedGame := false, countdownTimer := 35 / 10, lastUpdateTime := env.getTime }

/-- The four statements that `Update` runs as the server, on a connection and on an
accepted restart: draw the seeds from the clock, send them, reset both kernels. -/
def serverSeeds (R : Rng σ) (useSameSeeds : Bool) (s : Session σ) (env : Env) : Session σ :=
  let s1 := toUInt32 (env.time 0)
  let s2 := if useSameSeeds then s1 else (s1 + 9999) % 4294967296
  { s with net := s.net.SendSeed s1 s2,
           localGame := Reset R s.localGame (toInt32 s1) (env.time 1),
           remoteGame := Reset R s.remoteGame (toInt32 s2) (env.time 2) }

/-- The case `PACKET_INPUT` of `Update`, on the mirror kernel: apply the input, take the
score from the record, recompute the level. -/
def recvInput (R : Rng σ) (g : Game σ) (d : InputState) (now : Int) : Option (Game σ) := do
  let g1 ← HandleInput R g d now
  pure { g1 with score := d.currentScore, level := 1 + Int.tdiv g1.totalLinesCleared 10 }

/-- The branch `ENET_EVENT_TYPE_RECEIVE` of `Update`: the `switch` on the type tag.
`none` where a case reads a payload that the packet does not have, or where a kernel
call is undefined. -/
def handlePacket (R : Rng σ) (useSameSeeds : Bool) (s : Session σ) (p : Packet) (env : Env) :
    Option (Session σ) :=
  match p.type with
  | PacketType.PACKET_INPUT =>
    match p with
    | Packet.input _ d => do
      let g1 ← recvInput R s.remoteGame d (env.time 1)
      pure { s with remoteGame := g1 }
    | _ => none
  | PacketType.PACKET_SEED =>
    match p with
    | Packet.seed _ s1 s2 =>
      some (ResetSyncState
        { s with localGame := Reset R s.localGame (toInt32 s2) (env.time 1),
                 remoteGame := Reset R s.remoteGame (toInt32 s1) (env.time 2) } env)
    | _ => none
  | PacketType.PACKET_TICK =>
    if s.net.role = NetworkRole.CLIENT ∧ s.countdownTimer ≤ 0 then do
      let r1 ← MoveBlockDown R s.localGame
      let r2 ← MoveBlockDown R s.remoteGame
      pure { s with localGame := r1.2, remoteGame := r2.2 }
    else some s
  | PacketType.PACKET_RESTART_REQ =>
    some { s with net := { s.net with restartRequestReceived := true } }
  | PacketType.PACKET_PAUSE_REQ =>
    some { s with net := { s.net with pauseRequestReceived := true } }
  | PacketType.PACKET_RESUME_REQ =>
    some { s with net := { s.net with resumeRequestReceived := true } }
  | PacketType.PACKET_QUIT =>
    some { s with net := { s.net with opponentQuit := true } }
  | PacketType.PACKET_NEW_GAME =>
    some { s with net := { s.net with remoteStartedNewGame := true } }
  | PacketType.PACKET_RESTART_RES =>
    match p with
    | Packet.response _ a =>
      let s1 : Session σ := { s with net := { s.net with restartRequestPending := false } }
      if a then
        let s2 : Session σ :=
          if s1.net.role = NetworkRole.SERVER then serverSeeds R useSameSeeds s1 env
          else { s1 with localGame := Reset R s1.localGame (-1) (env.time 1),
                         remoteGame := Reset R s1.remoteGame (-1) (env.time 2) }
        some (ResetSyncState s2 env)
      else some s1
    | _ => none
  | PacketType.PACKET_PAUSE_RES =>
    match p with
    | Packet.response _ a =>
      let s1 : Session σ := { s with net := { s.net with pauseRequestPending := false } }
      some (if a then { s1 with isPausedGame := true } else s1)
    | _ => none
  | PacketType.PACKET_RESUME_RES =>
    match p with
    | Packet.response _ a =>
      let s1 : Session σ := { s with net := { s.net with resumeRequestPending := false } }
      some (if a then ResetSyncState s1 env else s1)
    | _ => none

/-- The body of the loop of `Update` for one event. -/
def handleEvent (R : Rng σ) (useSameSeeds : Bool) (s : Session σ) (event : Event) (env : Env) :
    Option (Session σ) :=
  match event with
  | Event.connect =>
    let s1 : Session σ :=
      { s with net := { s.net with peer := true, isConnected := true, opponentQuit := false } }
    if s1.net.role = NetworkRole.SERVER then
      some (ResetSyncState (serverSeeds R useSameSeeds s1 env) env)
    else some s1
  | Event.receive p => handlePacket R useSameSeeds s p env
  | Event.disconnect =>
    let n1 : NetworkManager := { s.net with isConnected := false, peer := false }
    some { s with net := if n1.role = NetworkRole.SERVER then { n1 with opponentQuit := true }
                         else n1 }

/-- The method `NetworkManager::Update`, on the events that `enet_host_service` returns
during the call, each with what the environment shows while it is handled. -/
def Update (R : Rng σ) (useSameSeeds : Bool) (s : Session σ) (events : List (Event × Env)) :
    Option (Session σ) :=
  if !s.net.host then some s
  else events.foldlM (fun s1 e => handleEvent R useSameSeeds s1 e.1 e.2) s

/-! ## The answer to a request of the peer (`main.cpp`, online branch) -/

/-- The statements `main` runs when YES is chosen while a request of the peer is shown:
send the accepting Response (with the new seeds when a restart is accepted by the
server, and setting `isPaused` otherwise), rearm the countdown, clear the three received
flags. -/
def confirmYes (R : Rng σ) (useSameSeeds : Bool) (s : Session σ) (env : Env) : Session σ :=
  let s1 : Session σ :=
    if s.net.restartRequestReceived then
      let sa : Session σ :=
        { s with net := s.net.SendResponse PacketType.PACKET_RESTART_RES true }
      if sa.net.role = NetworkRole.SERVER then serverSeeds R useSameSeeds sa env else sa
    else
      let res := s.net.resumeRequestReceived
      { s with net := s.net.SendResponse
                 (if res then PacketType.PACKET_RESUME_RES else PacketType.PACKET_PAUSE_RES) true,
               isPausedGame := !res }
  { s1 with countdownTimer := 35 / 10,
            net := { s1.net with restartRequestReceived := false,
                                 pauseRequestReceived := false,
                                 resumeRequestReceived := false } }

/-- The statements `main` runs when NO is chosen while a request of the peer is shown:
send the rejecting Response, clear the three received flags. -/
def confirmNo (s : Session σ) : Session σ :=
  let n1 := s.net.SendResponse
    (if s.net.restartRequestReceived then PacketType.PACKET_RESTART_RES
     else if s.net.resumeRequestReceived then PacketType.PACKET_RESUME_RES
     else PacketType.PACKET_PAUSE_RES) false
  { s with net := { n1 with restartRequestReceived := false,
                            pauseRequestReceived := false,
                            resumeRequestReceived := false } }

/-! ## Definitions used to state the properties -/

/-- The row of ten zeros. -/
def zeroRow : List Int := List.replicate numColums 0

/-- What one iteration of the loop of `MoveRowDown` does to the source row `x` and the
target row `y`. -/
def moveStep (p : List Int × List Int) (column : Nat) : List Int × List Int :=
  (p.1.set column 0, p.2.set column (p.1.getD column 0))

/-- A row of ten cells all equal to `v`. -/
def constRow (v : Int) : List Int := List.replicate numColums v

/-- A sample grid: full rows 10 and 19, a single block in row 15, zeros elsewhere. -/
def sampleGrid : Grid :=
  List.replicate 10 zeroRow ++ [constRow 1] ++ List.replicate 4 zeroRow
    ++ [[2, 0, 0, 0, 0, 0, 0, 0, 0, 0]] ++ List.replicate 3 zeroRow ++ [constRow 3]

/-- The grid `ClearFullRows` makes of `sampleGrid`: the block of row 15 is in row 16. -/
def sampleGridCleared : Grid :=
  List.replicate 16 zeroRow ++ [[2, 0, 0, 0, 0, 0, 0, 0, 0, 0]] ++ List.replicate 3 zeroRow

/-- The blocks returned by `n` consecutive calls of `GetRandomBlock`, and the state
after them. -/
def drawBlocks (R : Rng σ) : Nat → Game σ → List Block × Game σ
  | 0, g => ([], g)
  | n + 1, g =>
    let (block, g1) := GetRandomBlock R g
    let (rest, g2) := drawBlocks R n g1
    (block :: rest, g2)

/-- The bag `GetRandomBlock` draws from: the member `blocks`, refilled when empty. -/
def bagOf (g : Game σ) : List Block := if g.blocks.isEmpty then GetAllBlocks else g.blocks

/-- A sample generator honouring the contract of `Rng`: its state is a 32-bit number,
a draw is the state modulo the size of the range, and the state advances by a linear
congruence. -/
def sampleRng : Rng Nat where
  seed := fun v => v
  draw := fun s hi => (s % (hi + 1), (s * 1103515245 + 12345) % 4294967296)
  draw_le := fun s hi => Nat.le_of_lt_succ (Nat.mod_lt s (Nat.succ_pos hi))

/-- A sample state: a game that ended, columns 4 and 5 stacked to the top under the
T block that could not spawn, with points on the board and an empty bag. -/
def sampleOver : Game Nat :=
  { grid := List.replicate 20 [0, 0, 0, 0, 7, 7, 0, 0, 0, 0], blocks := [],
    currentBlock := TBlock,
    nextBlock := OBlock, rng := 5, gameOver := true, score := 1200, level := 3,
    totalLinesCleared := 21 }

/-- Tiles whose writes stay inside the array: every tile at a row `>= 0` is at a row
`< 20` and a column in `0 .. 9`. -/
def tilesWritable (tiles : List Position) : Prop :=
  ∀ t ∈ tiles, 0 ≤ t.row → t.row < numRows ∧ 0 ≤ t.column ∧ t.column < numColums

instance (tiles : List Position) : Decidable (tilesWritable tiles) :=
  inferInstanceAs (Decidable (∀ t ∈ tiles,
    0 ≤ t.row → t.row < numRows ∧ 0 ≤ t.column ∧ t.column < numColums))

/-- A sample state whose active piece reaches above the grid: an upright I block with
its top cell at row -1, over an empty grid. -/
def sampleOverflow : Game Nat :=
  { grid := List.replicate 20 zeroRow, blocks := [JBlock, LBlock],
    currentBlock := { IBlock with rotationState := 1 },
    nextBlock := TBlock, rng := 5, gameOver := false, score := 40, level := 2,
    totalLinesCleared := 10 }

/-- A sample state about to lock: column 4 is stacked from row 1 down, row 19 lacks only
columns 0 and 1, and the active O block rests on the floor in columns 0 and 1; the next
piece is an L block, whose spawn cells include (1, 4). -/
def sampleLock : Game Nat :=
  { grid := zeroRow :: List.replicate 18 [0, 0, 0, 0, 7, 0, 0, 0, 0, 0]
      ++ [[0, 0, 1, 1, 7, 1, 1, 1, 1, 1]],
    blocks := [IBlock, JBlock],
    currentBlock := { OBlock with rowOffset := 18, columnOffset := 0 },
    nextBlock := LBlock, rng := 5, gameOver := false, score := 0, level := 1,
    totalLinesCleared := 0 }

/-- An input record with only the reset request set. -/
def resetInput : InputState :=
  { left := false, right := false, down := false, rotate := false, reset := true,
    currentScore := 0 }

/-- An input record with nothing set. -/
def idleInput : InputState :=
  { left := false, right := false, down := false, rotate := false, reset := false,
    currentScore := 0 }

/-- A call of the kernel interface: `HandleInput(input)` or `MoveBlockDown()`. -/
inductive Call where
  | applyInput (input : InputState)
  | tick
deriving DecidableEq, Repr

/-- One call on a state; `now` is what the clock shows during the call. -/
def step (R : Rng σ) (g : Game σ) (c : Call) (now : Int) : Option (Game σ) :=
  match c with
  | Call.applyInput input => HandleInput R g input now
  | Call.tick => (MoveBlockDown R g).map (fun p => p.2)

/-- The state after each call of a sequence of calls, each paired with the clock
reading during it; `none` from a call on that is undefined. -/
def trace (R : Rng σ) : Option (Game σ) → List (Call × Int) → List (Option (Game σ))
  | _, [] => []
  | s, (c, now) :: rest =>
    let s1 := s.bind (fun g => step R g c now)
    s1 :: trace R s1 rest

/-- Two instances make the same call: the same operation with the same argument, and
the same clock reading unless the call is one that cannot read the clock (a tick, or an
input record without the reset request). -/
def sameCall (a b : Call × Int) : Prop :=
  a.1 = b.1 ∧ (a.2 = b.2 ∨ ∀ input, a.1 = Call.applyInput input → input.reset = false)

/-- The invariant that keeps every call defined: the grid is 20 x 10, the next piece and
the blocks in the bag are blocks of `GetAllBlocks`, and the active piece has a
rotation index `>= 0` and all its cells inside the grid. -/
def Inv (g : Game σ) : Prop :=
  g.grid.WF ∧ g.nextBlock ∈ GetAllBlocks ∧ (∀ b ∈ g.blocks, b ∈ GetAllBlocks)
    ∧ 0 ≤ g.currentBlock.rotationState ∧ IsBlockOutside g.currentBlock = false

/-- All cells of a block are inside the grid and on cells holding 0. -/
def cellsFree (grid : Grid) (b : Block) : Prop :=
  ∀ t ∈ b.GetCellPositions,
    0 ≤ t.row ∧ t.row < numRows ∧ 0 ≤ t.column ∧ t.column < numColums
      ∧ cellAt grid t.row.toNat t.column.toNat = 0

instance (grid : Grid) (b : Block) : Decidable (cellsFree grid b) :=
  inferInstanceAs (Decidable (∀ t ∈ b.GetCellPositions,
    0 ≤ t.row ∧ t.row < numRows ∧ 0 ≤ t.column ∧ t.column < numColums
      ∧ cellAt grid t.row.toNat t.column.toNat = 0))

/-- A sample state in play: an empty grid and a T block at its spawn position. -/
def samplePlay : Game Nat :=
  { grid := List.replicate 20 zeroRow, blocks := [IBlock, JBlock],
    currentBlock := TBlock, nextBlock := LBlock, rng := 5, gameOver := false,
    score := 10, level := 1, totalLinesCleared := 0 }

/-- An input record with only move-left set. -/
def leftInput : InputState :=
  { left := true, right := false, down := false, rotate := false, reset := false,
    currentScore := 0 }

/-- An input record with only move-right set. -/
def rightInput : InputState :=
  { left := false, right := true, down := false, rotate := false, reset := false,
    currentScore := 0 }

/-- An input record with only soft-drop set. -/
def downInput : InputState :=
  { left := false, right := false, down := true, rotate := false, reset := false,
    currentScore := 0 }

/-- The points `UpdateScore` adds for `n` cleared rows at level `level`. -/
def lineScore (n : Nat) (level : Int) : Int :=
  if n = 1 then 100 * level
  else if n = 2 then 300 * level
  else if n = 3 then 500 * level
  else if n = 4 then 800 * level
  else 0

/-- A sample state in play whose T block stands upright (rotation 1) against the left
wall: the next rotation would reach column -1. -/
def sampleWall : Game Nat :=
  { samplePlay with
    currentBlock := { TBlock with rotationState := 1, rowOffset := 5, columnOffset := -1 } }

/-- The kernel states reachable from a `Reset` by `HandleInput`, by `MoveBlockDown`, and
by the coordinator applying an inbound Input message to the kernel (`recvInput`). -/
inductive Reachable (R : Rng σ) : Game σ → Prop where
  | reset (g : Game σ) (seed now : Int) (h : g.grid.WF) : Reachable R (Reset R g seed now)
  | input (g g1 : Game σ) (input : InputState) (now : Int) (h : Reachable R g)
      (e : HandleInput R g input now = some g1) : Reachable R g1
  | tick (g g1 : Game σ) (b : Bool) (h : Reachable R g)
      (e : MoveBlockDown R g = some (b, g1)) : Reachable R g1
  | remoteInput (g g1 : Game σ) (d : InputState) (now : Int) (h : Reachable R g)
      (e : recvInput R g d now = some g1) : Reachable R g1

/-- The level law, with the quotient as the code computes it, on a line count that is
not negative. -/
def LevelLaw (g : Game σ) : Prop :=
  0 ≤ g.totalLinesCleared ∧ g.level = 1 + Int.tdiv g.totalLinesCleared 10

/-- A sample coordinator: a connected client that waits for the answer to its restart
request and has a pause request of the peer to answer. -/
def sampleNet : NetworkManager :=
  { restartRequestReceived := false, restartRequestPending := true,
    pauseRequestReceived := true, pauseRequestPending := false,
    resumeRequestReceived := false, resumeRequestPending := false,
    opponentQuit := false, remoteStartedNewGame := false,
    role := NetworkRole.CLIENT, isConnected := true, host := true, peer := true, sent := [] }

/-- A sample coordinator without a peer: a server that listens, nobody connected. -/
def sampleNetAlone : NetworkManager :=
  { restartRequestReceived := false, restartRequestPending := false,
    pauseRequestReceived := false, pauseRequestPending := false,
    resumeRequestReceived := false, resumeRequestPending := false,
    opponentQuit := false, remoteStartedNewGame := false,
    role := NetworkRole.SERVER, isConnected := false, host := true, peer := false, sent := [] }

/-- A sample session of the client `sampleNet`, both kernels in the state `samplePlay`,
paused, the countdown elapsed. -/
def sampleSession : Session Nat :=
  { net := sampleNet, localGame := samplePlay, remoteGame := samplePlay,
    isPausedGame := true, countdownTimer := 0, lastUpdateTime := 0 }

/-- The session `sampleSession` seen from a server. -/
def sampleServer : Session Nat :=
  { sampleSession with net := { sampleNet with role := NetworkRole.SERVER } }

/-- A sample environment: the clock shows 1000, `GetTime()` returns 12. -/
def sampleEnv : Env :=
  { time := fun _ => 1000, getTime := 12 }

/-- The side `n` of the `n x n` box in which the kind with the given id turns: 4 for the
I block (id 3), 2 for the O block (id 4), 3 for the others. -/
def boxSize (id : Int) : Int := if id = 3 then 4 else if id = 4 then 2 else 3

/-- The quarter turn clockwise of a cell in an `n x n` box: `(r, c)` goes to
`(c, n - 1 - r)`. -/
def turn (n : Int) (p : Position) : Position := Position.mk p.column (n - 1 - p.row)

/-- The pieces drawn after `Reset`, in order: the two pieces `Reset` itself draws (the
current and the next piece), then the blocks that `n` further calls of `GetRandomBlock`
return. -/
def piecesDrawn (R : Rng σ) (g : Game σ) (seed now : Int) (n : Nat) : List Block :=
  (Reset R g seed now).currentBlock :: (Reset R g seed now).nextBlock
    :: (drawBlocks R n (Reset R g seed now)).1

/-- The state after the first three statements of `HandleInput` in a game that is on:
the moves to the left and to the right and the rotation that the record asks for. -/
def movesOf (g : Game σ) (input : InputState) : Game σ :=
  let g1 := if input.left then MoveBlockLeft g else g
  let g2 := if input.right then MoveBlockRight g1 else g1
  if input.rotate then RotateBlock g2 else g2

/-- What the moves and the rotation leave as it was: every member other than the
position and the rotation index of the active piece. -/
def Frame (g g1 : Game σ) : Prop :=
  g1.grid = g.grid ∧ g1.blocks = g.blocks ∧ g1.nextBlock = g.nextBlock ∧ g1.rng = g.rng
    ∧ g1.gameOver = g.gameOver ∧ g1.score = g.score ∧ g1.level = g.level
    ∧ g1.totalLinesCleared = g.totalLinesCleared
    ∧ g1.currentBlock.id = g.currentBlock.id ∧ g1.currentBlock.cells = g.currentBlock.cells

/-- A property of kernel states that the elementary steps keep: `Reset` establishes it,
an accepted move or rotation keeps it, a lock keeps it, and it does not depend on the
score and the level. -/
def Kept (R : Rng σ) (Q : Game σ → Prop) : Prop :=
  (∀ (g : Game σ) (seed now : Int), g.grid.WF → Q (Reset R g seed now))
  ∧ (∀ (g : Game σ) (b : Block), Inv g → Q g → g.gameOver = false → cellsFree g.grid b →
      (b = g.currentBlock.Move 0 (-1) ∨ b = g.currentBlock.Move 0 1
        ∨ b = g.currentBlock.Move 1 0 ∨ b = g.currentBlock.Rotate) →
      Q { g with currentBlock := b })
  ∧ (∀ g g1 : Game σ, Inv g → Q g → g.gameOver = false → LockBlock R g = some g1 → Q g1)
  ∧ (∀ (g : Game σ) (s l : Int), Q g → Q { g with score := s, level := l })

/-- A piece of the catalog: its id and its table of cells are those of one of the
seven blocks, and its rotation index is below 4. -/
def Catalogued (b : Block) : Prop :=
  (∃ k ∈ GetAllBlocks, b.id = k.id ∧ b.cells = k.cells) ∧ b.rotationState < 4

/-- A grid in which every row has a cell holding 0 and every cell holds a value in
`0 .. 7`. -/
def GridOk (grid : Grid) : Prop := ∀ row ∈ grid, 0 ∈ row ∧ ∀ v ∈ row, 0 ≤ v ∧ v ≤ 7

/-- The invariant of the pieces and of the cell values: the active piece is a piece of
the catalog, no row of the grid is full, and every cell holds 0 or a kind id. -/
def Sound (g : Game σ) : Prop := Catalogued g.currentBlock ∧ GridOk g.grid

/-- An input record with only rotate set. -/
def rotateInput : InputState :=
  { left := false, right := false, down := false, rotate := true, reset := false,
    currentScore := 0 }

/-- A sequence of calls written by runs: each call with the number of times it is made
in a row, all at clock reading 0. -/
def playOf (l : List (Call × Nat)) : List (Call × Int) :=
  l.flatMap (fun p => List.replicate p.2 (p.1, 0))

/-- A game of 273 calls on the pieces that follow `Reset(35)` with the generator
`sampleRng`: an I block is laid in row 19, columns 4 .. 7; fifteen pieces are stacked
in the columns 0 .. 3 up to row 3; a J block is locked upright on top of them, with its
cell (0, 3) over the empty cell (1, 3); an L block dropped into the columns 8 and 9
completes row 19. -/
def overlapPlay : List (Call × Int) := playOf
  [(Call.applyInput rightInput, 1), (Call.tick, 20), (Call.applyInput leftInput, 3),
   (Call.tick, 19), (Call.applyInput leftInput, 4), (Call.tick, 17),
   (Call.applyInput rotateInput, 1), (Call.applyInput leftInput, 2), (Call.tick, 18),
   (Call.applyInput leftInput, 2), (Call.tick, 16), (Call.applyInput rotateInput, 2),
   (Call.applyInput leftInput, 2), (Call.tick, 14), (Call.applyInput leftInput, 2),
   (Call.tick, 13), (Call.applyInput rotateInput, 1), (Call.applyInput leftInput, 4),
   (Call.tick, 13), (Call.applyInput rotateInput, 1), (Call.applyInput leftInput, 4),
   (Call.tick, 10), (Call.applyInput rotateInput, 1), (Call.applyInput leftInput, 2),
   (Call.tick, 11), (Call.applyInput leftInput, 3), (Call.tick, 10),
   (Call.applyInput rotateInput, 1), (Call.applyInput leftInput, 2), (Call.tick, 8),
   (Call.applyInput rotateInput, 3), (Call.applyInput leftInput, 1), (Call.tick, 7),
   (Call.applyInput rotateInput, 1), (Call.applyInput leftInput, 5), (Call.tick, 6),
   (Call.applyInput rotateInput, 1), (Call.applyInput leftInput, 3), (Call.tick, 5),
   (Call.applyInput leftInput, 3), (Call.tick, 4), (Call.applyInput rotateInput, 1),
   (Call.applyInput leftInput, 2), (Call.tick, 1), (Call.applyInput rotateInput, 1),
   (Call.applyInput rightInput, 4), (Call.tick, 18)]

/-! ## The statements of the online loop (`main.cpp`, `ui_manager.cpp`) -/

/-- The method `NetworkManager::StartClient`: the returned flag and the coordinator
after the call.  `hostOk` and `peerOk` tell whether `enet_host_create` and
`enet_host_connect` return a non-null pointer. -/
def NetworkManager.StartClient (n : NetworkManager) (hostOk peerOk : Bool) :
    Bool × NetworkManager :=
  if !hostOk then (false, { n with host := false })
  else if peerOk then
    (true, { n with host := true, peer := true, role := NetworkRole.CLIENT,
                    opponentQuit := false })
  else (false, { n with host := true, peer := false })

/-- The statements of `main.cpp` and `ui_manager.cpp` that run while the state is
`ONLINE_PLAYING` and call a method of the coordinator or write one of its members, each
with the arguments given there.  What the environment supplies is an argument: the
events of the frame, the keys read, the clock, and for the gravity timer the value of
the local variable `anyReqActive` (computed from the flags earlier in the frame), the
flag that `Utils::EventTriggered` returns and the time it leaves in `lastUpdateTime`.
The last case stands for every other statement of the loop: those write the kernels,
`isPaused`, `countdownTimer` and the timer, and leave the coordinator alone.
`SendNewGameSignal` has no caller, and `StartServer` runs in the menu only. -/
inductive OnlineCall (σ : Type) where
  /-- The call `net.Update(gameP1, gameP2, isPaused, countdownTimer, useSameSeeds)`. -/
  | update (events : List (Event × Env))
  /-- The retry `net.StartClient(lastConnectedIP, 1234)` of a disconnected client. -/
  | reconnect (hostOk peerOk : Bool)
  /-- The key P and the pause button: `SendRequest(PACKET_RESUME_REQ)` if `isPaused`,
  else `SendRequest(PACKET_PAUSE_REQ)`. -/
  | pauseKey
  /-- The key R and the restart buttons: `SendRequest(PACKET_RESTART_REQ)`. -/
  | restartKey
  /-- The resume button of the pause overlay: `SendRequest(PACKET_RESUME_REQ)`. -/
  | resumeButton
  /-- The two statements `net.SendInput(localIn); gameP1.HandleInput(localIn);`. -/
  | input (left right down rotate : Bool) (now : Int)
  /-- The gravity timer of the server. -/
  | gravity (anyReqActive triggered : Bool) (time : ℚ)
  /-- The answer YES to a request of the peer. -/
  | yes (env : Env)
  /-- The answer NO to a request of the peer. -/
  | no
  /-- The key R after the peer started a new game. -/
  | joinNewGame (env : Env)
  /-- Leaving for the menu: `net.SendQuit(); net.Stop();`. -/
  | quit
  /-- Leaving for the menu while waiting for a player: `net.Stop();`. -/
  | stop
  /-- Statements that assign the kernels, `isPaused`, `countdownTimer` and the timer. -/
  | other (localGame remoteGame : Game σ) (isPaused : Bool) (countdownTimer : ℚ)
      (lastUpdateTime : ℚ)

/-- One statement of `OnlineCall`, run in the session `s`. -/
def runOnlineCall (R : Rng σ) (useSameSeeds : Bool) (s : Session σ) :
    OnlineCall σ → Option (Session σ)
  | OnlineCall.update events => Update R useSameSeeds s events
  | OnlineCall.reconnect hostOk peerOk =>
    if !s.net.isConnected && s.net.role == NetworkRole.CLIENT && !s.net.opponentQuit then
      some { s with net := (s.net.StartClient hostOk peerOk).2 }
    else some s
  | OnlineCall.pauseKey =>
    some { s with net := if s.isPausedGame then s.net.SendRequest PacketType.PACKET_RESUME_REQ
                         else s.net.SendRequest PacketType.PACKET_PAUSE_REQ }
  | OnlineCall.restartKey =>
    some { s with net := s.net.SendRequest PacketType.PACKET_RESTART_REQ }
  | OnlineCall.resumeButton =>
    some { s with net := s.net.SendRequest PacketType.PACKET_RESUME_REQ }
  | OnlineCall.input left right down rotate now => do
    let localIn : InputState :=
      { left := left, right := right, down := down, rotate := rotate, reset := false,
        currentScore := s.localGame.score }
    let g1 ← HandleInput R s.localGame localIn now
    pure { s with net := s.net.SendInput localIn, localGame := g1 }
  | OnlineCall.gravity anyReqActive triggered time =>
    if s.net.role == NetworkRole.SERVER && !s.isPausedGame && !anyReqActive
        && decide (s.countdownTimer ≤ 0) && !s.localGame.gameOver then
      if triggered then do
        let r1 ← MoveBlockDown R s.localGame
        let r2 ← MoveBlockDown R s.remoteGame
        pure { s with localGame := r1.2, remoteGame := r2.2, net := s.net.SendTick,
                      lastUpdateTime := time }
      else some { s with lastUpdateTime := time }
    else some s
  | OnlineCall.yes env => some (confirmYes R useSameSeeds s env)
  | OnlineCall.no => some (confirmNo s)
  | OnlineCall.joinNewGame env =>
    some { s with net := { s.net with remoteStartedNewGame := false },
                  localGame := Reset R s.localGame (-1) (env.time 1),
                  remoteGame := Reset R s.remoteGame (-1) (env.time 2) }
  | OnlineCall.quit => some { s with net := s.net.SendQuit.Stop }
  | OnlineCall.stop => some { s with net := s.net.Stop }
  | OnlineCall.other localGame remoteGame isPaused countdownTimer lastUpdateTime =>
    some { s with localGame := localGame, remoteGame := remoteGame, isPausedGame := isPaused,
                  countdownTimer := countdownTimer, lastUpdateTime := lastUpdateTime }

/-- A sequence of statements of `OnlineCall`, run from the session `s`. -/
def runOnlineCalls (R : Rng σ) (useSameSeeds : Bool) (s : Session σ)
    (calls : List (OnlineCall σ)) : Option (Session σ) :=
  calls.foldlM (runOnlineCall R useSameSeeds) s

/-- The session `s1` comes from `s` without a tick sent: it is not a server, and what it
has sent is what `s` had sent followed by packets none of which has the tag
`PACKET_TICK`. -/
def NoTickSent (s s1 : Session σ) : Prop :=
  s1.net.role ≠ NetworkRole.SERVER
    ∧ ∃ added : List Packet, s1.net.sent = s.net.sent ++ added
        ∧ ∀ p ∈ added, p.type ≠ PacketType.PACKET_TICK

/-- The frames played by the client `sampleSession`: a frame with an inbound tick, the
key P, a move to the left, the gravity timer, the answer YES to the pause request shown,
the pause flag and the countdown written by the loop, the gravity timer again, and
leaving for the menu. -/
def sampleCalls : List (OnlineCall Nat) :=
  [OnlineCall.update [(Event.receive (Packet.bare PacketType.PACKET_TICK), sampleEnv)],
   OnlineCall.pauseKey,
   OnlineCall.input true false false false 1000,
   OnlineCall.gravity false true 13,
   OnlineCall.yes sampleEnv,
   OnlineCall.other samplePlay samplePlay false 0 13,
   OnlineCall.gravity false true 14,
   OnlineCall.quit]

/-- The piece that a call locks when it locks: the active piece, for `HandleInput` after
the moves and the rotation that the record asks for. -/
def lockedPiece (g : Game σ) : Call → Block
  | Call.applyInput input => (movesOf g input).currentBlock
  | Call.tick => g.currentBlock

/-! ## Lists: auxiliary facts -/

theorem getD_append_length {α : Type} (A B : List α) (x d : α) :
    (A ++ x :: B).getD A.length d = x := by
  induction A with
  | nil => rfl
  | cons a A ih => simpa using ih

theorem set_append_length {α : Type} (A B : List α) (x y : α) :
    (A ++ x :: B).set A.length y = A ++ y :: B := by
  rw [List.set_append_right _ _ (Nat.le_refl _)]
  simp

theorem foldl_set_range {α : Type} (a : α) :
    ∀ (n : Nat) (l : List α), n ≤ l.length →
      (List.range n).foldl (fun l i => l.set i a) l = List.replicate n a ++ l.drop n := by
  intro n
  induction n with
  | zero => intro l _; simp
  | succ n ih =>
    intro l h
    have hn : n < l.length := h
    rw [List.range_succ, List.foldl_append, ih l (Nat.le_of_lt hn)]
    simp only [List.foldl_cons, List.foldl_nil]
    have hd := List.drop_eq_getElem_cons hn
    rw [List.set_append_right _ _ (by simp)]
    simp only [List.length_replicate, Nat.sub_self, List.replicate_succ', List.append_assoc,
      List.singleton_append]
    rw [hd]
    rfl

theorem length_ten (r : List Int) (h : r.length = 10) :
    ∃ a0 a1 a2 a3 a4 a5 a6 a7 a8 a9, r = [a0, a1, a2, a3, a4, a5, a6, a7, a8, a9] := by
  rcases r with _ | ⟨a0, _ | ⟨a1, _ | ⟨a2, _ | ⟨a3, _ | ⟨a4, _ | ⟨a5, _ | ⟨a6, _ | ⟨a7, _ |
    ⟨a8, _ | ⟨a9, _ | ⟨a10, l⟩⟩⟩⟩⟩⟩⟩⟩⟩⟩⟩ <;> simp at h
  exact ⟨a0, a1, a2, a3, a4, a5, a6, a7, a8, a9, rfl⟩

/-! ## The grid: cells and rows -/

theorem cellAt_row (A B : Grid) (x : List Int) (c : Nat) :
    cellAt (A ++ x :: B) A.length c = x.getD c 0 := by
  unfold cellAt
  rw [getD_append_length]

theorem setCell_row (A B : Grid) (x : List Int) (c : Nat) (v : Int) :
    setCell (A ++ x :: B) A.length c v = A ++ x.set c v :: B := by
  unfold setCell
  rw [getD_append_length, set_append_length]

theorem IsRowFull_row (A B : Grid) (x : List Int) (hx : x.length = numColums) :
    IsRowFull (A ++ x :: B) A.length = decide (0 ∉ x) := by
  obtain ⟨a0, a1, a2, a3, a4, a5, a6, a7, a8, a9, rfl⟩ := length_ten x hx
  unfold IsRowFull
  simp only [cellAt_row]
  simp [numColums, List.range_succ, eq_comm, bne, BEq.beq]

theorem foldl_setCell_row (A B : Grid) (v : Int) (cs : List Nat) :
    ∀ x : List Int, cs.foldl (fun g c => setCell g A.length c v) (A ++ x :: B)
      = A ++ cs.foldl (fun r c => r.set c v) x :: B := by
  induction cs with
  | nil => intro x; rfl
  | cons c cs ih => intro x; simp only [List.foldl_cons, setCell_row, ih]

theorem ClearRow_row (A B : Grid) (x : List Int) (hx : x.length = numColums) :
    ClearRow (A ++ x :: B) A.length = A ++ zeroRow :: B := by
  unfold ClearRow
  rw [foldl_setCell_row, foldl_set_range 0 numColums x (by omega)]
  simp [zeroRow, ← hx]

theorem writeCell_row (A B : Grid) (x : List Int) (c : Nat) (v : Int)
    (hr : A.length < numRows) (hc : c < numColums) :
    writeCell (A ++ x :: B) (A.length : Nat) (c : Nat) v = some (A ++ x.set c v :: B) := by
  unfold writeCell
  have h1 : ((A.length : Nat) : Int) < (numRows : Nat) := by exact_mod_cast hr
  have h2 : ((c : Nat) : Int) < (numColums : Nat) := by exact_mod_cast hc
  rw [if_pos ⟨Int.natCast_nonneg _, h1, Int.natCast_nonneg _, h2⟩]
  simp only [Int.toNat_ofNat, setCell_row]

theorem moveStep_rows (A Z B : Grid) (x y : List Int) (c : Nat)
    (hr : A.length + Z.length + 1 < numRows) (hc : c < numColums) :
    (do
      let g1 ← writeCell (A ++ x :: (Z ++ y :: B)) ((A.length + (Z.length + 1) : Nat) : Int)
        (c : Int) (cellAt (A ++ x :: (Z ++ y :: B)) A.length c)
      pure (setCell g1 A.length c 0))
    = some (A ++ (moveStep (x, y) c).1 :: (Z ++ (moveStep (x, y) c).2 :: B)) := by
  have hlen : A.length + (Z.length + 1) = (A ++ x :: Z).length := by simp
  have hg : A ++ x :: (Z ++ y :: B) = (A ++ x :: Z) ++ y :: B := by simp
  rw [cellAt_row]
  rw [hlen, hg, writeCell_row _ _ _ _ _ (by rw [← hlen]; omega) hc]
  simp only [List.append_assoc, List.cons_append, Option.some_bind, Option.bind_eq_bind,
    setCell_row, moveStep, Option.pure_def]

theorem foldlM_moveStep_rows (A Z B : Grid) (hr : A.length + Z.length + 1 < numRows)
    (cs : List Nat) (hcs : ∀ c ∈ cs, c < numColums) :
    ∀ x y : List Int,
      cs.foldlM
        (fun g (column : Nat) => do
          let g1 ← writeCell g ((A.length + (Z.length + 1) : Nat) : Int) (column : Int)
            (cellAt g A.length column)
          pure (setCell g1 A.length column 0)) (A ++ x :: (Z ++ y :: B))
      = some (A ++ (cs.foldl moveStep (x, y)).1 :: (Z ++ (cs.foldl moveStep (x, y)).2 :: B)) := by
  induction cs with
  | nil => intro x y; rfl
  | cons c cs ih =>
    intro x y
    rw [List.foldlM_cons, moveStep_rows A Z B x y c hr (hcs c (List.mem_cons_self _ _))]
    simp only [Option.some_bind, Option.bind_eq_bind, List.foldl_cons]
    exact ih (fun c hc => hcs c (List.mem_cons_of_mem _ hc)) _ _

theorem foldl_moveStep_ten (x y : List Int) (hx : x.length = numColums)
    (hy : y.length = numColums) :
    (List.range numColums).foldl moveStep (x, y) = (zeroRow, x) := by
  obtain ⟨a0, a1, a2, a3, a4, a5, a6, a7, a8, a9, rfl⟩ := length_ten x hx
  obtain ⟨b0, b1, b2, b3, b4, b5, b6, b7, b8, b9, rfl⟩ := length_ten y hy
  rfl

theorem MoveRowDown_rows (A Z B : Grid) (x y : List Int) (hx : x.length = numColums)
    (hy : y.length = numColums) (hr : A.length + Z.length + 1 < numRows) :
    MoveRowDown (A ++ x :: (Z ++ y :: B)) A.length (Z.length + 1)
      = some (A ++ zeroRow :: (Z ++ x :: B)) := by
  unfold MoveRowDown
  rw [foldlM_moveStep_rows A Z B hr _ (fun c hc => List.mem_range.mp hc),
    foldl_moveStep_ten x y hx hy]

theorem zeroRow_length : zeroRow.length = numColums := by simp [zeroRow]

/-- The loop invariant of `ClearFullRows`: with the rows `A` still to visit, `c` zero
rows below them and the kept rows `F` at the bottom, the loop ends with the non-full
rows of `A` stacked on `F` under as many zero rows as were cleared. -/
theorem clearLoop_rows (A : Grid) :
    ∀ (c : Nat) (F : Grid), (∀ r ∈ A, r.length = numColums) →
      A.length + c + F.length = numRows →
      clearLoop A.length (A ++ List.replicate c zeroRow ++ F) c
        = some (c + A.countP (fun r => decide (0 ∉ r)),
            List.replicate (c + A.countP (fun r => decide (0 ∉ r))) zeroRow
              ++ A.filter (fun r => decide (0 ∈ r)) ++ F) := by
  induction A using List.reverseRecOn with
  | nil => intro c F _ _; simp [clearLoop]
  | append_singleton A x ih =>
    intro c F hA hlen
    have hx : x.length = numColums := hA x (by simp)
    have hA1 : ∀ r ∈ A, r.length = numColums := fun r hr => hA r (by simp [hr])
    simp only [List.length_append, List.length_singleton] at hlen
    have hg : A ++ [x] ++ List.replicate c zeroRow ++ F
        = A ++ x :: (List.replicate c zeroRow ++ F) := by simp
    rw [List.length_append, List.length_singleton, hg, clearLoop, IsRowFull_row _ _ _ hx]
    by_cases hfull : 0 ∈ x
    · -- the row is not full
      rw [if_neg (by simpa using hfull)]
      have hcount : (A ++ [x]).countP (fun r => decide (0 ∉ r))
          = A.countP (fun r => decide (0 ∉ r)) := by simp [List.countP_append, hfull]
      have hfilter : (A ++ [x]).filter (fun r => decide (0 ∈ r))
          = A.filter (fun r => decide (0 ∈ r)) ++ [x] := by simp [List.filter_append, hfull]
      rw [hcount, hfilter]
      cases c with
      | zero =>
        rw [if_neg (by omega)]
        have := ih 0 (x :: F) hA1 (by simp; omega)
        simpa using this
      | succ c =>
        rw [if_pos (by omega)]
        have hz : List.replicate (c + 1) zeroRow ++ F
            = List.replicate c zeroRow ++ zeroRow :: F := by
          simp [List.replicate_succ']
        have hmove := MoveRowDown_rows A (List.replicate c zeroRow) F x zeroRow hx
          zeroRow_length (by simp; omega)
        rw [List.length_replicate] at hmove
        rw [hz, hmove]
        simp only [Option.some_bind, Option.bind_eq_bind]
        have hz2 : A ++ zeroRow :: (List.replicate c zeroRow ++ x :: F)
            = A ++ List.replicate (c + 1) zeroRow ++ x :: F := by
          simp [List.replicate_succ]
        rw [hz2, ih (c + 1) (x :: F) hA1 (by simp; omega)]
        simp
    · -- the row is full
      rw [if_pos (by simpa using hfull), ClearRow_row _ _ _ hx]
      have hcount : (A ++ [x]).countP (fun r => decide (0 ∉ r))
          = A.countP (fun r => decide (0 ∉ r)) + 1 := by simp [List.countP_append, hfull]
      have hfilter : (A ++ [x]).filter (fun r => decide (0 ∈ r))
          = A.filter (fun r => decide (0 ∈ r)) := by simp [List.filter_append, hfull]
      rw [hcount, hfilter]
      have := ih (c + 1) F hA1 (by omega)
      have hz : A ++ zeroRow :: (List.replicate c zeroRow ++ F)
          = A ++ List.replicate (c + 1) zeroRow ++ F := by
        simp [List.replicate_succ]
      have e : c + 1 + A.countP (fun r => decide (0 ∉ r))
          = c + (A.countP (fun r => decide (0 ∉ r)) + 1) := by omega
      rw [hz, this, e]

theorem countP_full_add_length_filter (l : Grid) :
    l.countP (fun r => decide (0 ∉ r)) + (l.filter (fun r => decide (0 ∈ r))).length
      = l.length := by
  induction l with
  | nil => rfl
  | cons x l ih =>
    by_cases hx : 0 ∈ x
    · simp [List.countP_cons, List.filter_cons, hx] at ih ⊢; omega
    · simp [List.countP_cons, List.filter_cons, hx] at ih ⊢; omega

/-- The grid `ClearFullRows` leaves: as many zero rows as `g` has full rows, then the
rows of `g` that are not full. -/
theorem ClearFullRows_eq (g : Grid) (h : g.WF) :
    ClearFullRows g
      = some (g.countP (fun r => decide (0 ∉ r)),
          List.replicate (g.countP (fun r => decide (0 ∉ r))) zeroRow
            ++ g.filter (fun r => decide (0 ∈ r))) := by
  have := clearLoop_rows g 0 [] h.2 (by simpa using h.1)
  unfold ClearFullRows
  rw [← h.1]
  simpa using this

theorem compacted_WF_length (g : Grid) :
    (List.replicate (g.countP (fun r => decide (0 ∉ r))) zeroRow
      ++ g.filter (fun r => decide (0 ∈ r))).length = g.length := by
  rw [List.length_append, List.length_replicate, countP_full_add_length_filter]

theorem compacted_WF (g : Grid) (h : g.WF) :
    Grid.WF (List.replicate (g.countP (fun r => decide (0 ∉ r))) zeroRow
      ++ g.filter (fun r => decide (0 ∈ r))) := by
  constructor
  · rw [List.length_append, List.length_replicate, countP_full_add_length_filter, h.1]
  · intro r hr
    rcases List.mem_append.mp hr with hr | hr
    · rw [(List.mem_replicate.mp hr).2]; exact zeroRow_length
    · exact h.2 r (List.mem_filter.mp hr).1

theorem compacted_drop (g : Grid) (i : Nat) (hi : ∀ r ∈ g.drop i, 0 ∈ r) :
    (List.replicate (g.countP (fun r => decide (0 ∉ r))) zeroRow
      ++ g.filter (fun r => decide (0 ∈ r))).drop i = g.drop i := by
  by_cases hle : i ≤ g.length
  · have hsplit : g = g.take i ++ g.drop i := (List.take_append_drop i g).symm
    have hkeep : (g.drop i).filter (fun r => decide (0 ∈ r)) = g.drop i :=
      List.filter_eq_self.mpr (fun r hr => by simpa using hi r hr)
    have hnone : (g.drop i).countP (fun r => decide (0 ∉ r)) = 0 :=
      List.countP_eq_zero.mpr (fun r hr => by simpa using hi r hr)
    have hcount : g.countP (fun r => decide (0 ∉ r))
        = (g.take i).countP (fun r => decide (0 ∉ r)) := by
      conv_lhs => rw [hsplit]
      rw [List.countP_append, hnone, Nat.add_zero]
    have hfilter : g.filter (fun r => decide (0 ∈ r))
        = (g.take i).filter (fun r => decide (0 ∈ r)) ++ g.drop i := by
      conv_lhs => rw [hsplit]
      rw [List.filter_append, hkeep]
    rw [hcount, hfilter, ← List.append_assoc]
    apply List.drop_left'
    rw [List.length_append, List.length_replicate, countP_full_add_length_filter,
      List.length_take]
    omega
  · have hlen := (compacted_WF_length g)
    rw [List.drop_eq_nil_of_le (by omega), List.drop_eq_nil_of_le (by omega)]

theorem compacted_getD_split (A B : Grid) (x : List Int) (hx : 0 ∈ x) :
    (List.replicate ((A ++ x :: B).countP (fun r => decide (0 ∉ r))) zeroRow
        ++ (A ++ x :: B).filter (fun r => decide (0 ∈ r))).getD
      (A.length + B.countP (fun r => decide (0 ∉ r))) [] = x := by
  have hcount : (A ++ x :: B).countP (fun r => decide (0 ∉ r))
      = A.countP (fun r => decide (0 ∉ r)) + B.countP (fun r => decide (0 ∉ r)) := by
    simp [List.countP_append, List.countP_cons, hx]
  have hfilter : (A ++ x :: B).filter (fun r => decide (0 ∈ r))
      = A.filter (fun r => decide (0 ∈ r)) ++ x :: B.filter (fun r => decide (0 ∈ r)) := by
    simp [List.filter_append, List.filter_cons, hx]
  have hlen : (List.replicate (A.countP (fun r => decide (0 ∉ r))
        + B.countP (fun r => decide (0 ∉ r))) zeroRow
      ++ A.filter (fun r => decide (0 ∈ r))).length
      = A.length + B.countP (fun r => decide (0 ∉ r)) := by
    have h1 := countP_full_add_length_filter A
    rw [List.length_append, List.length_replicate]
    omega
  rw [hcount, hfilter, ← List.append_assoc, ← hlen, getD_append_length]

theorem getD_eq_getElem_of_lt (g : Grid) (i : Nat) (hi : i < g.length) :
    g.getD i [] = g[i] := by
  simp [List.getD_eq_getElem?_getD, hi]

theorem compacted_getD (g : Grid) (i : Nat) (hi : i < g.length) (hnf : 0 ∈ g.getD i []) :
    (List.replicate (g.countP (fun r => decide (0 ∉ r))) zeroRow
        ++ g.filter (fun r => decide (0 ∈ r))).getD
      (i + (g.drop (i + 1)).countP (fun r => decide (0 ∉ r))) [] = g.getD i [] := by
  have hsplit : g.take i ++ g.getD i [] :: g.drop (i + 1) = g := by
    rw [getD_eq_getElem_of_lt g i hi, ← List.drop_eq_getElem_cons hi, List.take_append_drop]
  have key := compacted_getD_split (g.take i) (g.drop (i + 1)) (g.getD i []) hnf
  rw [hsplit, List.length_take, Nat.min_eq_left (Nat.le_of_lt hi)] at key
  exact key

/-! ## Line clearing (C3, C4) -/

/-- C3 (line-clear compaction).  For every 20 x 10 grid `g`, `ClearFullRows` returns the
number `k` of full rows of `g` (rows without a 0 cell) and leaves the grid made of `k`
all-zero rows followed by the non-full rows of `g` in their original order; the result
is again 20 x 10, and from any row `i` on below which (inclusive) no row of `g` is full,
the rows are unchanged. -/
theorem ClearFullRows_compaction (g : Grid) (h : g.WF) :
    ∃ g1 : Grid,
      ClearFullRows g = some (g.countP (fun r => decide (0 ∉ r)), g1)
      ∧ g1 = List.replicate (g.countP (fun r => decide (0 ∉ r))) (List.replicate 10 0)
              ++ g.filter (fun r => decide (0 ∈ r))
      ∧ g1.WF
      ∧ ∀ i, (∀ r ∈ g.drop i, 0 ∈ r) → g1.drop i = g.drop i :=
  ⟨_, ClearFullRows_eq g h, rfl, compacted_WF g h, fun i hi => compacted_drop g i hi⟩

/-- C3 at `sampleGrid`. -/
theorem ClearFullRows_compaction_witness :
    sampleGrid.WF ∧
    ∃ g1 : Grid,
      ClearFullRows sampleGrid = some (sampleGrid.countP (fun r => decide (0 ∉ r)), g1)
      ∧ g1 = List.replicate (sampleGrid.countP (fun r => decide (0 ∉ r))) (List.replicate 10 0)
              ++ sampleGrid.filter (fun r => decide (0 ∈ r))
      ∧ g1.WF
      ∧ ∀ i, (∀ r ∈ sampleGrid.drop i, 0 ∈ r) → g1.drop i = sampleGrid.drop i :=
  ⟨by decide, ClearFullRows_compaction sampleGrid (by decide)⟩

/-- C4 as stated fails.  In `sampleGrid` rows 10 and 19 are full, so one pass clears
`k = 2` rows.  Row 15 is not full and lies above the full row 19, yet it does not end
up `2` rows lower (row 17 of the result is not the old row 15): it ends up `1` row lower.
Row 15 also lies below the full row 10, yet it is not unchanged. -/
theorem rows_shift_by_total_counterexample :
    sampleGrid.WF
    ∧ ClearFullRows sampleGrid = some (2, sampleGridCleared)
    ∧ 0 ∉ sampleGrid.getD 19 [] ∧ 0 ∉ sampleGrid.getD 10 [] ∧ 0 ∈ sampleGrid.getD 15 []
    ∧ sampleGridCleared.getD (15 + 2) [] ≠ sampleGrid.getD 15 []
    ∧ sampleGridCleared.getD (15 + 1) [] = sampleGrid.getD 15 []
    ∧ sampleGridCleared.getD 15 [] ≠ sampleGrid.getD 15 [] := by
  decide

/-- C4 (amended).  For every 20 x 10 grid, after one `ClearFullRows` pass that clears `k`
rows, every non-full row `i` sits lower by exactly the number of full rows that were
below it; this is `k` when no row above `i` is full, and `0` (the row is unchanged)
when no row below `i` is full. -/
theorem ClearFullRows_row_shift (g : Grid) (h : g.WF) :
    ∃ (k : Nat) (g1 : Grid),
      ClearFullRows g = some (k, g1)
      ∧ k = g.countP (fun r => decide (0 ∉ r))
      ∧ (∀ i, i < numRows → 0 ∈ g.getD i [] →
          g1.getD (i + (g.drop (i + 1)).countP (fun r => decide (0 ∉ r))) [] = g.getD i [])
      ∧ (∀ i, i < numRows → (∀ r ∈ g.take (i + 1), 0 ∈ r) → g1.getD (i + k) [] = g.getD i [])
      ∧ (∀ i, i < numRows → (∀ r ∈ g.drop i, 0 ∈ r) → g1.getD i [] = g.getD i []) := by
  refine ⟨_, _, ClearFullRows_eq g h, rfl, ?_, ?_, ?_⟩
  · intro i hi hnf
    exact compacted_getD g i (by rw [h.1]; exact hi) hnf
  · intro i hi habove
    have hlt : i < g.length := by rw [h.1]; exact hi
    have hmem : g.getD i [] ∈ g.take (i + 1) := by
      rw [getD_eq_getElem_of_lt g i hlt, List.take_succ, List.getElem?_eq_getElem hlt]
      exact List.mem_append_right _ (List.mem_singleton_self _)
    have hsplit : g.countP (fun r => decide (0 ∉ r))
        = (g.take (i + 1)).countP (fun r => decide (0 ∉ r))
          + (g.drop (i + 1)).countP (fun r => decide (0 ∉ r)) := by
      conv_lhs => rw [← List.take_append_drop (i + 1) g]
      rw [List.countP_append]
    have hzero : (g.take (i + 1)).countP (fun r => decide (0 ∉ r)) = 0 :=
      List.countP_eq_zero.mpr (fun r hr => by simpa using habove r hr)
    have key := compacted_getD g i hlt (habove _ hmem)
    have e : (g.drop (i + 1)).countP (fun r => decide (0 ∉ r))
        = g.countP (fun r => decide (0 ∉ r)) := by omega
    rw [e] at key
    exact key
  · intro i hi hbelow
    have hlt : i < g.length := by rw [h.1]; exact hi
    have hmem : g.getD i [] ∈ g.drop i := by
      rw [getD_eq_getElem_of_lt g i hlt, List.drop_eq_getElem_cons hlt]
      exact List.mem_cons_self _ _
    have hzero : (g.drop (i + 1)).countP (fun r => decide (0 ∉ r)) = 0 :=
      List.countP_eq_zero.mpr (fun r hr => by
        have : r ∈ g.drop i := by
          rw [List.drop_eq_getElem_cons hlt]; exact List.mem_cons_of_mem _ hr
        simpa using hbelow r this)
    have := compacted_getD g i hlt (hbelow _ hmem)
    rwa [hzero, Nat.add_zero] at this

/-- C4 (amended) at `sampleGrid`. -/
theorem ClearFullRows_row_shift_witness :
    sampleGrid.WF ∧
    ∃ (k : Nat) (g1 : Grid),
      ClearFullRows sampleGrid = some (k, g1)
      ∧ k = sampleGrid.countP (fun r => decide (0 ∉ r))
      ∧ (∀ i, i < numRows → 0 ∈ sampleGrid.getD i [] →
          g1.getD (i + (sampleGrid.drop (i + 1)).countP (fun r => decide (0 ∉ r))) []
            = sampleGrid.getD i [])
      ∧ (∀ i, i < numRows → (∀ r ∈ sampleGrid.take (i + 1), 0 ∈ r) →
          g1.getD (i + k) [] = sampleGrid.getD i [])
      ∧ (∀ i, i < numRows → (∀ r ∈ sampleGrid.drop i, 0 ∈ r) →
          g1.getD i [] = sampleGrid.getD i []) :=
  ⟨by decide, ClearFullRows_row_shift sampleGrid (by decide)⟩

/-! ## The bag (C2, C7) -/

theorem perm_getD_eraseIdx {α : Type} (d : α) :
    ∀ (l : List α) (i : Nat), i < l.length → (l.getD i d :: l.eraseIdx i).Perm l := by
  intro l
  induction l with
  | nil => intro i h; simp at h
  | cons a l ih =>
    intro i h
    cases i with
    | zero => simp
    | succ i =>
      have h1 : i < l.length := by simpa using h
      have := ih i h1
      simp only [List.getD_cons_succ, List.eraseIdx_cons_succ]
      exact (List.Perm.swap a (l.getD i d) (l.eraseIdx i)).trans (List.Perm.cons a this)

theorem bagOf_ne_nil (g : Game σ) : bagOf g ≠ [] := by
  unfold bagOf
  cases hb : g.blocks with
  | nil => simp [GetAllBlocks]
  | cons b bs => simp

theorem bagOf_of_ne_nil (g : Game σ) (h : g.blocks ≠ []) : bagOf g = g.blocks := by
  unfold bagOf
  cases hb : g.blocks with
  | nil => exact absurd hb h
  | cons b bs => simp

theorem GetRandomBlock_index_lt (R : Rng σ) (g : Game σ) :
    (R.draw g.rng ((bagOf g).length - 1)).1 < (bagOf g).length := by
  have h1 := R.draw_le g.rng ((bagOf g).length - 1)
  have h2 : 0 < (bagOf g).length := List.length_pos.mpr (bagOf_ne_nil g)
  omega

theorem GetRandomBlock_perm (R : Rng σ) (g : Game σ) :
    ((GetRandomBlock R g).1 :: (GetRandomBlock R g).2.blocks).Perm (bagOf g) :=
  perm_getD_eraseIdx _ (bagOf g) _ (GetRandomBlock_index_lt R g)

theorem GetRandomBlock_length (R : Rng σ) (g : Game σ) :
    (GetRandomBlock R g).2.blocks.length + 1 = (bagOf g).length := by
  have := (GetRandomBlock_perm R g).length_eq
  simpa using this

theorem drawBlocks_perm (R : Rng σ) :
    ∀ (n : Nat) (g : Game σ), (bagOf g).length = n + 1 →
      (drawBlocks R (n + 1) g).1.Perm (bagOf g) ∧ (drawBlocks R (n + 1) g).2.blocks = [] := by
  intro n
  induction n with
  | zero =>
    intro g hg
    have hlen := GetRandomBlock_length R g
    have hnil : (GetRandomBlock R g).2.blocks = [] := List.length_eq_zero.mp (by omega)
    have hp := GetRandomBlock_perm R g
    rw [hnil] at hp
    exact ⟨hp, hnil⟩
  | succ n ih =>
    intro g hg
    have hlen := GetRandomBlock_length R g
    have hne : (GetRandomBlock R g).2.blocks ≠ [] := by
      intro h; rw [h] at hlen; simp at hlen; omega
    have hbag := bagOf_of_ne_nil _ hne
    have := ih (GetRandomBlock R g).2 (by rw [hbag]; omega)
    rw [hbag] at this
    refine ⟨?_, this.2⟩
    exact (List.Perm.cons _ this.1).trans (GetRandomBlock_perm R g)

theorem Reset_grid (R : Rng σ) (g : Game σ) (seed now : Int) :
    (Reset R g seed now).grid = Initalize g.grid := by
  simp only [Reset, GetRandomBlock]

/-- The pieces and the bag after `Reset`: two draws from a state with a full bag. -/
theorem Reset_pieces (R : Rng σ) (g : Game σ) (seed now : Int) :
    ∃ g0 : Game σ, g0.blocks = GetAllBlocks ∧
      (Reset R g seed now).currentBlock = (GetRandomBlock R g0).1 ∧
      (Reset R g seed now).nextBlock = (GetRandomBlock R (GetRandomBlock R g0).2).1 ∧
      (Reset R g seed now).blocks = (GetRandomBlock R (GetRandomBlock R g0).2).2.blocks :=
  ⟨{ g with grid := Initalize g.grid, blocks := GetAllBlocks,
            rng := if seed ≠ -1 then R.seed (toUInt32 seed) else R.seed (toUInt32 now) },
    rfl, rfl, rfl, rfl⟩

theorem Reset_perm (R : Rng σ) (g : Game σ) (seed now : Int) :
    ((Reset R g seed now).currentBlock :: (Reset R g seed now).nextBlock
      :: (Reset R g seed now).blocks).Perm GetAllBlocks
    ∧ (Reset R g seed now).blocks.length = 5 := by
  obtain ⟨g0, hg0, hc, hn, hb⟩ := Reset_pieces R g seed now
  rw [hc, hn, hb]
  have hbag0 : bagOf g0 = GetAllBlocks := by rw [bagOf, hg0]; rfl
  have hp0 := GetRandomBlock_perm R g0
  have hl0 := GetRandomBlock_length R g0
  rw [hbag0] at hp0 hl0
  have hne : (GetRandomBlock R g0).2.blocks ≠ [] := by
    intro h; rw [h] at hl0; simp [GetAllBlocks] at hl0
  have hbag1 := bagOf_of_ne_nil _ hne
  have hp1 := GetRandomBlock_perm R (GetRandomBlock R g0).2
  have hl1 := GetRandomBlock_length R (GetRandomBlock R g0).2
  rw [hbag1] at hp1 hl1
  refine ⟨(List.Perm.cons _ hp1).trans hp0, ?_⟩
  have : GetAllBlocks.length = 7 := rfl
  omega

theorem Initalize_rows (g : Grid) (h : g.WF) :
    ∀ n, n ≤ numRows →
      (List.range n).foldl ClearRow g = List.replicate n zeroRow ++ g.drop n := by
  intro n
  induction n with
  | zero => intro _; simp
  | succ n ih =>
    intro hn
    have hlt : n < g.length := by rw [h.1]; omega
    rw [List.range_succ, List.foldl_append, ih (by omega), List.drop_eq_getElem_cons hlt]
    simp only [List.foldl_cons, List.foldl_nil]
    have hrow := ClearRow_row (List.replicate n zeroRow) (g.drop (n + 1)) g[n]
      (h.2 _ (List.getElem_mem _))
    rw [List.length_replicate] at hrow
    rw [hrow]
    simp [List.replicate_succ']

theorem Initalize_eq (g : Grid) (h : g.WF) :
    Initalize g = List.replicate numRows zeroRow := by
  have h1 : Initalize g = (List.range numRows).foldl ClearRow g := rfl
  rw [h1, Initalize_rows g h numRows (Nat.le_refl _), List.drop_eq_nil_of_le (by rw [h.1])]
  simp

/-- C2 (bag fairness).  Whatever the generator yields: seven consecutive draws of
`GetRandomBlock` that start at a bag boundary (the bag is exhausted, so that the next
draw refills it, or has just been refilled) give the seven blocks of `GetAllBlocks` in
some order, so each kind id 1..7 exactly once, and leave the bag exhausted again; and
after any `Reset` the two pieces it draws and the next five draws are such a round. -/
theorem bag_fairness (R : Rng σ) (g : Game σ) :
    ((g.blocks = [] ∨ g.blocks = GetAllBlocks) →
      (drawBlocks R 7 g).1.Perm GetAllBlocks
      ∧ ((drawBlocks R 7 g).1.map Block.id).Perm [1, 2, 3, 4, 5, 6, 7]
      ∧ (drawBlocks R 7 g).2.blocks = [])
    ∧ ∀ seed now : Int,
      ((Reset R g seed now).currentBlock :: (Reset R g seed now).nextBlock
          :: (drawBlocks R 5 (Reset R g seed now)).1).Perm GetAllBlocks
      ∧ (((Reset R g seed now).currentBlock :: (Reset R g seed now).nextBlock
          :: (drawBlocks R 5 (Reset R g seed now)).1).map Block.id).Perm [1, 2, 3, 4, 5, 6, 7]
      ∧ (drawBlocks R 5 (Reset R g seed now)).2.blocks = [] := by
  have hids : (GetAllBlocks.map Block.id).Perm [1, 2, 3, 4, 5, 6, 7] := by decide
  constructor
  · intro h
    have hbag : bagOf g = GetAllBlocks := by
      rcases h with h | h <;> rw [bagOf, h] <;> rfl
    have := drawBlocks_perm R 6 g (by rw [hbag]; rfl)
    rw [hbag] at this
    exact ⟨this.1, (this.1.map Block.id).trans hids, this.2⟩
  · intro seed now
    obtain ⟨hp, hl⟩ := Reset_perm R g seed now
    have hne : (Reset R g seed now).blocks ≠ [] := by
      intro h; rw [h] at hl; simp at hl
    have hbag := bagOf_of_ne_nil _ hne
    have := drawBlocks_perm R 4 (Reset R g seed now) (by rw [hbag]; omega)
    rw [hbag] at this
    have hall := ((List.Perm.cons _ (List.Perm.cons _ this.1)).trans hp)
    exact ⟨hall, (hall.map Block.id).trans hids, this.2⟩

/-- C2 at `sampleOver`, whose bag is exhausted, with the generator `sampleRng`. -/
theorem bag_fairness_witness :
    (sampleOver.blocks = [] ∨ sampleOver.blocks = GetAllBlocks)
    ∧ (drawBlocks sampleRng 7 sampleOver).1.Perm GetAllBlocks
    ∧ ((drawBlocks sampleRng 7 sampleOver).1.map Block.id).Perm [1, 2, 3, 4, 5, 6, 7]
    ∧ (drawBlocks sampleRng 7 sampleOver).2.blocks = [] :=
  ⟨Or.inl rfl, (bag_fairness sampleRng sampleOver).1 (Or.inl rfl)⟩

/-- C7 (Reset postcondition).  For every prior state and every seed (the clock seed
`-1` included), after `Reset` every grid cell is 0, the score is 0, the level 1, the
line count 0, the game-over flag false; the current and next pieces are two blocks of
different kinds from `GetAllBlocks`, and the bag holds exactly the five other blocks. -/
theorem Reset_postcondition (R : Rng σ) (g : Game σ) (seed now : Int) (h : g.grid.WF) :
    (Reset R g seed now).grid = List.replicate 20 (List.replicate 10 0)
    ∧ (Reset R g seed now).score = 0
    ∧ (Reset R g seed now).level = 1
    ∧ (Reset R g seed now).totalLinesCleared = 0
    ∧ (Reset R g seed now).gameOver = false
    ∧ (Reset R g seed now).currentBlock ∈ GetAllBlocks
    ∧ (Reset R g seed now).nextBlock ∈ GetAllBlocks
    ∧ (Reset R g seed now).currentBlock.id ≠ (Reset R g seed now).nextBlock.id
    ∧ ((Reset R g seed now).currentBlock :: (Reset R g seed now).nextBlock
        :: (Reset R g seed now).blocks).Perm GetAllBlocks
    ∧ (Reset R g seed now).blocks.length = 5 := by
  obtain ⟨hp, hl⟩ := Reset_perm R g seed now
  have hnodup : ((Reset R g seed now).currentBlock :: (Reset R g seed now).nextBlock
      :: (Reset R g seed now).blocks).map Block.id |>.Nodup :=
    ((hp.map Block.id).nodup_iff).mpr (by decide)
  refine ⟨?_, rfl, rfl, rfl, rfl, ?_, ?_, ?_, hp, hl⟩
  · rw [Reset_grid, Initalize_eq _ h]; rfl
  · exact hp.subset (List.mem_cons_self _ _)
  · exact hp.subset (List.mem_cons_of_mem _ (List.mem_cons_self _ _))
  · intro heq
    simp only [List.map_cons, List.nodup_cons, List.mem_cons] at hnodup
    exact hnodup.1 (Or.inl heq)

/-- C7 at `sampleOver` (a game-over state) with the clock seed. -/
theorem Reset_postcondition_witness :
    sampleOver.grid.WF
    ∧ (Reset sampleRng sampleOver (-1) 1000).grid = List.replicate 20 (List.replicate 10 0)
    ∧ (Reset sampleRng sampleOver (-1) 1000).gameOver = false
    ∧ (Reset sampleRng sampleOver (-1) 1000).blocks.length = 5 :=
  have h := Reset_postcondition sampleRng sampleOver (-1) 1000 (by decide)
  ⟨by decide, h.1, h.2.2.2.2.1, h.2.2.2.2.2.2.2.2.2⟩

/-! ## Cells: reading after writing -/


theorem setCell_WF (g : Grid) (h : g.WF) (r c : Nat) (v : Int) : (setCell g r c v).WF := by
  unfold setCell
  by_cases hr : r < g.length
  · constructor
    · rw [List.length_set]; exact h.1
    · intro x hx
      rcases List.mem_or_eq_of_mem_set hx with hx | hx
      · exact h.2 x hx
      · rw [hx, List.length_set, getD_eq_getElem_of_lt g r hr]
        exact h.2 _ (List.getElem_mem _)
  · rw [List.set_eq_of_length_le (by omega)]
    exact h

theorem cellAt_setCell (g : Grid) (h : g.WF) (r c : Nat) (v : Int) (hr : r < numRows)
    (hc : c < numColums) (r1 c1 : Nat) :
    cellAt (setCell g r c v) r1 c1 = if r1 = r ∧ c1 = c then v else cellAt g r1 c1 := by
  have hlt : r < g.length := by rw [h.1]; exact hr
  have hrow : (g.getD r []).length = numColums := by
    rw [getD_eq_getElem_of_lt g r hlt]; exact h.2 _ (List.getElem_mem _)
  unfold cellAt setCell
  simp only [List.getD_eq_getElem?_getD, List.getElem?_set]
  by_cases h1 : r1 = r
  · subst h1
    simp only [hlt, if_true, true_and, Option.getD_some, List.getElem?_set]
    by_cases h2 : c1 = c
    · subst h2
      have : c1 < (g[r1]?.getD []).length := by
        rw [← List.getD_eq_getElem?_getD, hrow]; exact hc
      simp [this]
    · simp [h2, Ne.symm h2]
  · simp [h1, Ne.symm h1]

/-! ## Locking -/


theorem lockTiles_spec (id : Int) :
    ∀ (tiles : List Position) (grid : Grid) (over : Bool), grid.WF → tilesWritable tiles →
      ∃ grid1 : Grid,
        lockTiles id tiles grid over
          = some (grid1, over || tiles.any (fun t => decide (t.row < 0)))
        ∧ grid1.WF
        ∧ ∀ r c : Nat, r < numRows → c < numColums →
            cellAt grid1 r c
              = if ∃ t ∈ tiles, t.row = (r : Int) ∧ t.column = (c : Int) then id
                else cellAt grid r c := by
  intro tiles
  induction tiles with
  | nil => intro grid over h _; exact ⟨grid, by simp [lockTiles], h, by simp⟩
  | cons t ts ih =>
    intro grid over h hw
    have hts : tilesWritable ts := fun u hu => hw u (List.mem_cons_of_mem _ hu)
    by_cases hrow : 0 ≤ t.row
    · obtain ⟨h1, h2, h3⟩ := hw t (List.mem_cons_self _ _) hrow
      have hwrite : writeCell grid t.row t.column id
          = some (setCell grid t.row.toNat t.column.toNat id) := by
        unfold writeCell; rw [if_pos ⟨hrow, h1, h2, h3⟩]
      obtain ⟨grid1, e1, wf1, c1⟩ := ih (setCell grid t.row.toNat t.column.toNat id) over
        (setCell_WF _ h _ _ _) hts
      refine ⟨grid1, ?_, wf1, ?_⟩
      · rw [lockTiles, if_pos (by omega), hwrite]
        simp only [Option.some_bind, Option.bind_eq_bind, e1, List.any_cons]
        have : decide (t.row < 0) = false := by simpa using hrow
        rw [this, Bool.false_or]
      · intro r c hr hc
        rw [c1 r c hr hc, cellAt_setCell grid h _ _ _ (by unfold numRows at *; omega)
          (by unfold numColums at *; omega)]
        by_cases hex : ∃ u ∈ ts, u.row = (r : Int) ∧ u.column = (c : Int)
        · obtain ⟨u, hu, hu2⟩ := hex
          rw [if_pos ⟨u, hu, hu2⟩, if_pos ⟨u, List.mem_cons_of_mem _ hu, hu2⟩]
        · rw [if_neg hex]
          by_cases hhit : r = t.row.toNat ∧ c = t.column.toNat
          · rw [if_pos hhit, if_pos ⟨t, List.mem_cons_self _ _, by omega, by omega⟩]
          · rw [if_neg hhit, if_neg]
            rintro ⟨u, hu, hu2⟩
            rcases List.mem_cons.mp hu with hu | hu
            · subst hu; exact hhit ⟨by omega, by omega⟩
            · exact hex ⟨u, hu, hu2⟩
    · obtain ⟨grid1, e1, wf1, c1⟩ := ih grid true h hts
      refine ⟨grid1, ?_, wf1, ?_⟩
      · rw [lockTiles, if_neg (by omega), e1]
        have : decide (t.row < 0) = true := by simpa using hrow
        simp [List.any_cons, this]
      · intro r c hr hc
        rw [c1 r c hr hc]
        by_cases hex : ∃ u ∈ ts, u.row = (r : Int) ∧ u.column = (c : Int)
        · obtain ⟨u, hu, hu2⟩ := hex
          rw [if_pos ⟨u, hu, hu2⟩, if_pos ⟨u, List.mem_cons_of_mem _ hu, hu2⟩]
        · rw [if_neg hex, if_neg]
          rintro ⟨u, hu, hu2⟩
          rcases List.mem_cons.mp hu with hu | hu
          · subst hu; omega
          · exact hex ⟨u, hu, hu2⟩

theorem LockBlock_overflow (R : Rng σ) (g : Game σ) (grid1 : Grid)
    (h : lockTiles g.currentBlock.id g.currentBlock.GetCellPositions g.grid g.gameOver
      = some (grid1, true)) :
    LockBlock R g = some { g with grid := grid1, gameOver := true } := by
  simp [LockBlock, h]

theorem LockBlock_promote (R : Rng σ) (g : Game σ) (grid1 grid2 : Grid) (k : Nat)
    (h : lockTiles g.currentBlock.id g.currentBlock.GetCellPositions g.grid g.gameOver
      = some (grid1, false))
    (hc : ClearFullRows grid1 = some (k, grid2)) :
    LockBlock R g = some (UpdateScore
      { g with grid := grid2, currentBlock := g.nextBlock,
               gameOver := !BlockFits grid1 g.nextBlock,
               nextBlock := (GetRandomBlock R g).1,
               blocks := (GetRandomBlock R g).2.blocks,
               rng := (GetRandomBlock R g).2.rng } k 0) := by
  simp only [LockBlock, h, Option.some_bind, Option.bind_eq_bind, Bool.not_false, if_true]
  cases hf : BlockFits grid1 g.nextBlock <;>
    simp [GetRandomBlock, hc]

theorem lockTiles_above (id : Int) :
    ∀ (tiles : List Position) (grid : Grid) (over : Bool), (∀ t ∈ tiles, t.row < 0) →
      lockTiles id tiles grid over = some (grid, over || !tiles.isEmpty) := by
  intro tiles
  induction tiles with
  | nil => intro grid over _; simp [lockTiles]
  | cons t ts ih =>
    intro grid over h
    have ht := h t (List.mem_cons_self _ _)
    rw [lockTiles, if_neg (by omega), ih grid true (fun u hu => h u (List.mem_cons_of_mem _ hu))]
    simp

/-! ## Scoring and locking (C5, C6, C10) -/

theorem wrapInt32_of_IsInt32 (x : Int) (h : IsInt32 x) : wrapInt32 x = x := by
  obtain ⟨h1, h2⟩ := h
  unfold wrapInt32
  omega

theorem IsInt32_wrapInt32 (x : Int) : IsInt32 (wrapInt32 x) := by
  unfold wrapInt32 IsInt32
  omega

theorem wrapInt32_add_wrapInt32 (a b : Int) :
    wrapInt32 (a + wrapInt32 b) = wrapInt32 (a + b) := by
  unfold wrapInt32
  omega

theorem wrapInt32_wrapInt32 (a : Int) : wrapInt32 (wrapInt32 a) = wrapInt32 a := by
  unfold wrapInt32
  omega

/-- The score after `UpdateScore(n, 0)`: the old score plus the entry of the score table,
in 32-bit arithmetic. -/
theorem UpdateScore_score (g : Game σ) (n : Nat) :
    (UpdateScore g n 0).score = wrapInt32 (g.score + lineScore n g.level) := by
  simp only [UpdateScore, lineScore, add_zero]
  have e1 : ((n : Int) = 1) ↔ n = 1 := by omega
  have e2 : ((n : Int) = 2) ↔ n = 2 := by omega
  have e3 : ((n : Int) = 3) ↔ n = 3 := by omega
  have e4 : ((n : Int) = 4) ↔ n = 4 := by omega
  simp only [e1, e2, e3, e4]
  split
  · rw [wrapInt32_wrapInt32, wrapInt32_add_wrapInt32]
  · split
    · rw [wrapInt32_wrapInt32, wrapInt32_add_wrapInt32]
    · split
      · rw [wrapInt32_wrapInt32, wrapInt32_add_wrapInt32]
      · split
        · rw [wrapInt32_wrapInt32, wrapInt32_add_wrapInt32]
        · rw [add_zero]

theorem UpdateScore_drop (g : Game σ) :
    UpdateScore g 0 1
      = { g with score := wrapInt32 (g.score + 1),
                 level := 1 + Int.tdiv g.totalLinesCleared 10 } := by
  cases g
  simp [UpdateScore]

/-- C5 as stated fails where the sum leaves the range of `int`.  The state is
`sampleLock` with the score 2147483600, a value a peer can report, at level 1; its lock
clears one row, and the score afterwards is -2147483596, not 2147483700. -/
theorem score_overflow_counterexample :
    (({ sampleLock with score := 2147483600 } : Game Nat).level,
      ({ sampleLock with score := 2147483600 } : Game Nat).totalLinesCleared) = (1, 0)
    ∧ (LockBlock sampleRng { sampleLock with score := 2147483600 }).map
        (fun g => (g.totalLinesCleared, g.score)) = some (1, -2147483596) := by
  decide

/-- C5 (amended).  For every state whose score is a value of `int` and whose lock stays
inside the array, with `n` the number of rows the lock clears (the result of its
`ClearFullRows` call, or 0 when the piece reached above the grid and nothing is
cleared): the lock adds 0 points for `n = 0`, and exactly `100 * L`, `300 * L`,
`500 * L`, `800 * L` points for `n = 1, 2, 3, 4`, where `L` is the level before the lock,
provided the new score is a value of `int` as well. -/
theorem score_law (R : Rng σ) (g : Game σ) (hwf : g.grid.WF)
    (hw : tilesWritable g.currentBlock.GetCellPositions) (hs : IsInt32 g.score) :
    ∃ (n : Nat) (grid1 : Grid) (over1 : Bool) (g1 : Game σ),
      lockTiles g.currentBlock.id g.currentBlock.GetCellPositions g.grid g.gameOver
        = some (grid1, over1)
      ∧ LockBlock R g = some g1
      ∧ (over1 = true → n = 0 ∧ g1.grid = grid1)
      ∧ (over1 = false → ClearFullRows grid1 = some (n, g1.grid))
      ∧ (n = 0 → g1.score = g.score)
      ∧ (n = 1 → IsInt32 (g.score + 100 * g.level) → g1.score = g.score + 100 * g.level)
      ∧ (n = 2 → IsInt32 (g.score + 300 * g.level) → g1.score = g.score + 300 * g.level)
      ∧ (n = 3 → IsInt32 (g.score + 500 * g.level) → g1.score = g.score + 500 * g.level)
      ∧ (n = 4 → IsInt32 (g.score + 800 * g.level) → g1.score = g.score + 800 * g.level) := by
  obtain ⟨grid1, e1, wf1, -⟩ := lockTiles_spec g.currentBlock.id
    g.currentBlock.GetCellPositions g.grid g.gameOver hwf hw
  cases hov : (g.gameOver || g.currentBlock.GetCellPositions.any (fun t => decide (t.row < 0)))
  · rw [hov] at e1
    have hc := ClearFullRows_eq grid1 wf1
    refine ⟨grid1.countP (fun r => decide (0 ∉ r)), grid1, false, _, e1,
      LockBlock_promote R g grid1 _ _ e1 hc, by simp, ?_, ?_, ?_, ?_, ?_, ?_⟩
    · intro _; exact hc
    · intro hn
      rw [UpdateScore_score, hn]
      simpa [lineScore] using wrapInt32_of_IsInt32 _ hs
    · intro hn hr
      rw [UpdateScore_score, hn]
      exact wrapInt32_of_IsInt32 _ hr
    · intro hn hr
      rw [UpdateScore_score, hn]
      exact wrapInt32_of_IsInt32 _ hr
    · intro hn hr
      rw [UpdateScore_score, hn]
      exact wrapInt32_of_IsInt32 _ hr
    · intro hn hr
      rw [UpdateScore_score, hn]
      exact wrapInt32_of_IsInt32 _ hr
  · rw [hov] at e1
    refine ⟨0, grid1, true, _, e1, LockBlock_overflow R g grid1 e1, by simp, by simp,
      by simp, by simp, by simp, by simp, by simp⟩

/-- C5 (amended) at `sampleLock`, whose lock clears one row at level 1 from the score 0. -/
theorem score_law_witness :
    sampleLock.grid.WF ∧ tilesWritable sampleLock.currentBlock.GetCellPositions
    ∧ IsInt32 sampleLock.score ∧ IsInt32 (sampleLock.score + 100 * sampleLock.level) ∧
    ∃ (n : Nat) (grid1 : Grid) (over1 : Bool) (g1 : Game Nat),
      lockTiles sampleLock.currentBlock.id sampleLock.currentBlock.GetCellPositions
          sampleLock.grid sampleLock.gameOver = some (grid1, over1)
      ∧ LockBlock sampleRng sampleLock = some g1
      ∧ (over1 = true → n = 0 ∧ g1.grid = grid1)
      ∧ (over1 = false → ClearFullRows grid1 = some (n, g1.grid))
      ∧ (n = 0 → g1.score = sampleLock.score)
      ∧ (n = 1 → g1.score = sampleLock.score + 100 * sampleLock.level) :=
  have hr : IsInt32 (sampleLock.score + 100 * sampleLock.level) := by decide
  match score_law sampleRng sampleLock (by decide) (by decide) (by decide) with
  | ⟨n, grid1, over1, g1, a, b, c, d, e, f, _⟩ =>
    ⟨by decide, by decide, by decide, hr, n, grid1, over1, g1, a, b, c, d, e,
      fun hn => f hn hr⟩

/-- C6 as stated fails.  The active piece of `sampleOverflow` has a cell at row -1 (and
three at rows 0, 1, 2, column 5, all empty before).  `LockBlock` sets the game-over flag
but also writes the kind id 3 into those three cells. -/
theorem overflow_lock_counterexample :
    sampleOverflow.currentBlock.GetCellPositions = [P (-1) 5, P 0 5, P 1 5, P 2 5]
    ∧ (cellAt sampleOverflow.grid 0 5, cellAt sampleOverflow.grid 1 5,
        cellAt sampleOverflow.grid 2 5) = (0, 0, 0)
    ∧ (LockBlock sampleRng sampleOverflow).map
        (fun g => (g.gameOver, cellAt g.grid 0 5, cellAt g.grid 1 5, cellAt g.grid 2 5))
      = some (true, 3, 3, 3) := by
  decide

/-- C6 (amended).  For every state in which the active piece has at least one cell at a
row `< 0` (its other cells inside the grid), `LockBlock` sets the game-over flag, writes
the kind id into the cells of the piece at rows `>= 0` and leaves every other grid cell
unchanged; pieces, bag, generator, score, level and line count are unchanged.  When all
cells of the piece are at rows `< 0` the grid is unchanged. -/
theorem LockBlock_overflow_effect (R : Rng σ) (g : Game σ) (hwf : g.grid.WF)
    (hw : tilesWritable g.currentBlock.GetCellPositions)
    (hneg : ∃ t ∈ g.currentBlock.GetCellPositions, t.row < 0) :
    ∃ grid1 : Grid,
      LockBlock R g = some { g with grid := grid1, gameOver := true }
      ∧ grid1.WF
      ∧ (∀ r c : Nat, r < numRows → c < numColums →
          cellAt grid1 r c
            = if ∃ t ∈ g.currentBlock.GetCellPositions, t.row = (r : Int) ∧ t.column = (c : Int)
              then g.currentBlock.id else cellAt g.grid r c)
      ∧ ((∀ t ∈ g.currentBlock.GetCellPositions, t.row < 0) → grid1 = g.grid) := by
  obtain ⟨grid1, e1, wf1, c1⟩ := lockTiles_spec g.currentBlock.id
    g.currentBlock.GetCellPositions g.grid g.gameOver hwf hw
  have hany : g.currentBlock.GetCellPositions.any (fun t => decide (t.row < 0)) = true := by
    obtain ⟨t, ht, hlt⟩ := hneg
    exact List.any_eq_true.mpr ⟨t, ht, by simpa using hlt⟩
  rw [hany, Bool.or_true] at e1
  refine ⟨grid1, LockBlock_overflow R g grid1 e1, wf1, c1, ?_⟩
  intro hall
  have e2 := lockTiles_above g.currentBlock.id g.currentBlock.GetCellPositions g.grid
    g.gameOver hall
  rw [e1] at e2
  injection e2 with e2
  exact congrArg Prod.fst e2

/-- C6 (amended) at `sampleOverflow`. -/
theorem LockBlock_overflow_effect_witness :
    sampleOverflow.grid.WF ∧ tilesWritable sampleOverflow.currentBlock.GetCellPositions
    ∧ (∃ t ∈ sampleOverflow.currentBlock.GetCellPositions, t.row < 0)
    ∧ ∃ grid1 : Grid,
      LockBlock sampleRng sampleOverflow
        = some { sampleOverflow with grid := grid1, gameOver := true }
      ∧ grid1.WF
      ∧ (∀ r c : Nat, r < numRows → c < numColums →
          cellAt grid1 r c
            = if ∃ t ∈ sampleOverflow.currentBlock.GetCellPositions,
                  t.row = (r : Int) ∧ t.column = (c : Int)
              then sampleOverflow.currentBlock.id else cellAt sampleOverflow.grid r c)
      ∧ ((∀ t ∈ sampleOverflow.currentBlock.GetCellPositions, t.row < 0) →
          grid1 = sampleOverflow.grid) :=
  ⟨by decide, by decide, by decide,
    LockBlock_overflow_effect sampleRng sampleOverflow (by decide) (by decide) (by decide)⟩

/-- What a lock does when the active piece is inside the grid and the game is on. -/
theorem LockBlock_inside (R : Rng σ) (g : Game σ) (hwf : g.grid.WF)
    (hover : g.gameOver = false)
    (hin : ∀ t ∈ g.currentBlock.GetCellPositions,
      0 ≤ t.row ∧ t.row < numRows ∧ 0 ≤ t.column ∧ t.column < numColums) :
    ∃ (grid1 : Grid) (g1 : Game σ),
      LockBlock R g = some g1
      ∧ grid1.WF
      ∧ (∀ r c : Nat, r < numRows → c < numColums →
          cellAt grid1 r c
            = if ∃ t ∈ g.currentBlock.GetCellPositions, t.row = (r : Int) ∧ t.column = (c : Int)
              then g.currentBlock.id else cellAt g.grid r c)
      ∧ g1.currentBlock = g.nextBlock
      ∧ g1.nextBlock = (GetRandomBlock R g).1
      ∧ g1.blocks = (GetRandomBlock R g).2.blocks
      ∧ g1.rng = (GetRandomBlock R g).2.rng
      ∧ g1.gameOver = !BlockFits grid1 g.nextBlock
      ∧ ClearFullRows grid1 = some (grid1.countP (fun r => decide (0 ∉ r)), g1.grid)
      ∧ g1.grid = List.replicate (grid1.countP (fun r => decide (0 ∉ r))) (List.replicate 10 0)
                    ++ grid1.filter (fun r => decide (0 ∈ r))
      ∧ g1.score = (UpdateScore g (grid1.countP (fun r => decide (0 ∉ r))) 0).score
      ∧ g1.totalLinesCleared
          = g.totalLinesCleared + grid1.countP (fun r => decide (0 ∉ r))
      ∧ g1.level
          = 1 + Int.tdiv (g.totalLinesCleared + grid1.countP (fun r => decide (0 ∉ r))) 10 := by
  have hw : tilesWritable g.currentBlock.GetCellPositions :=
    fun t ht _ => (hin t ht).2
  obtain ⟨grid1, e1, wf1, c1⟩ := lockTiles_spec g.currentBlock.id
    g.currentBlock.GetCellPositions g.grid g.gameOver hwf hw
  have hany : g.currentBlock.GetCellPositions.any (fun t => decide (t.row < 0)) = false := by
    rw [List.any_eq_false]
    intro t ht
    have := (hin t ht).1
    simpa using this
  have hov : (g.gameOver || g.currentBlock.GetCellPositions.any (fun t => decide (t.row < 0)))
      = false := by rw [hover, hany]; rfl
  rw [hov] at e1
  have hc := ClearFullRows_eq grid1 wf1
  exact ⟨grid1, _, LockBlock_promote R g grid1 _ _ e1 hc, wf1, c1, rfl, rfl, rfl, rfl, rfl,
    hc, rfl, rfl, rfl, rfl⟩

/-- C10 as stated fails.  In `sampleLock` the O block locks with all cells inside the
grid and completes row 19; the promoted L block overlaps the occupied cell (1, 4), so
the game-over flag is set, and yet the full row is cleared (the line count goes from 0
to 1 and row 19 then holds the former row 18) and the score goes from 0 to 100. -/
theorem lock_overlap_counterexample :
    sampleLock.gameOver = false
    ∧ sampleLock.currentBlock.GetCellPositions = [P 18 0, P 18 1, P 19 0, P 19 1]
    ∧ (sampleLock.score, sampleLock.totalLinesCleared) = (0, 0)
    ∧ P 1 4 ∈ sampleLock.nextBlock.GetCellPositions
    ∧ cellAt sampleLock.grid 1 4 = 7
    ∧ (LockBlock sampleRng sampleLock).map
        (fun g => (g.gameOver, g.score, g.totalLinesCleared)) = some (true, 100, 1)
    ∧ (LockBlock sampleRng sampleLock).map (fun g => g.grid.getD 19 [])
      = some [4, 4, 0, 0, 7, 0, 0, 0, 0, 0] := by
  decide

/-- C10 (amended).  When the active piece, all its cells inside the grid, locks in a
state that is not game-over: its cells are written with its kind id (every other cell
unchanged); the next piece becomes the active piece and a new next piece is drawn from
the bag; the game-over flag is set exactly when the promoted piece overlaps an occupied
cell of the written grid; and in either case the full rows of the written grid are
cleared and compacted and score, line count and level are updated from the number of
rows cleared. -/
theorem LockBlock_postcondition (R : Rng σ) (g : Game σ) (hwf : g.grid.WF)
    (hover : g.gameOver = false)
    (hin : ∀ t ∈ g.currentBlock.GetCellPositions,
      0 ≤ t.row ∧ t.row < numRows ∧ 0 ≤ t.column ∧ t.column < numColums) :
    ∃ (grid1 : Grid) (g1 : Game σ),
      LockBlock R g = some g1
      ∧ grid1.WF
      ∧ (∀ r c : Nat, r < numRows → c < numColums →
          cellAt grid1 r c
            = if ∃ t ∈ g.currentBlock.GetCellPositions, t.row = (r : Int) ∧ t.column = (c : Int)
              then g.currentBlock.id else cellAt g.grid r c)
      ∧ g1.currentBlock = g.nextBlock
      ∧ g1.nextBlock = (GetRandomBlock R g).1
      ∧ g1.blocks = (GetRandomBlock R g).2.blocks
      ∧ g1.rng = (GetRandomBlock R g).2.rng
      ∧ g1.gameOver = !BlockFits grid1 g.nextBlock
      ∧ ClearFullRows grid1 = some (grid1.countP (fun r => decide (0 ∉ r)), g1.grid)
      ∧ g1.grid = List.replicate (grid1.countP (fun r => decide (0 ∉ r))) (List.replicate 10 0)
                    ++ grid1.filter (fun r => decide (0 ∈ r))
      ∧ g1.score = (UpdateScore g (grid1.countP (fun r => decide (0 ∉ r))) 0).score
      ∧ g1.totalLinesCleared
          = g.totalLinesCleared + grid1.countP (fun r => decide (0 ∉ r))
      ∧ g1.level
          = 1 + Int.tdiv (g.totalLinesCleared + grid1.countP (fun r => decide (0 ∉ r))) 10 :=
  LockBlock_inside R g hwf hover hin

/-- C10 (amended) at `sampleLock`. -/
theorem LockBlock_postcondition_witness :
    sampleLock.grid.WF ∧ sampleLock.gameOver = false
    ∧ (∀ t ∈ sampleLock.currentBlock.GetCellPositions,
        0 ≤ t.row ∧ t.row < numRows ∧ 0 ≤ t.column ∧ t.column < numColums)
    ∧ ∃ (grid1 : Grid) (g1 : Game Nat),
      LockBlock sampleRng sampleLock = some g1
      ∧ grid1.WF
      ∧ g1.currentBlock = sampleLock.nextBlock
      ∧ g1.gameOver = !BlockFits grid1 sampleLock.nextBlock
      ∧ ClearFullRows grid1 = some (grid1.countP (fun r => decide (0 ∉ r)), g1.grid) :=
  have h := LockBlock_postcondition sampleRng sampleLock (by decide) (by decide) (by decide)
  ⟨by decide, by decide, by decide,
    h.elim fun grid1 h1 => h1.elim fun g1 h2 =>
      ⟨grid1, g1, h2.1, h2.2.1, h2.2.2.2.1, h2.2.2.2.2.2.2.2.1, h2.2.2.2.2.2.2.2.2.1⟩⟩

/-! ## Inputs (C8) -/

theorem Move_undo (b : Block) : (b.Move 1 0).Move (-1) 0 = b := by
  cases b
  simp [Block.Move]

/-- A lock in a state that is not game-over either ends the game or shrinks or refills
the bag: the state it returns differs from the old one in the flag or in the bag. -/
theorem LockBlock_changes (R : Rng σ) (g g1 : Game σ)
    (h : LockBlock R g = some g1) :
    g1.gameOver = true ∨ g1.blocks ≠ g.blocks := by
  cases h1 : lockTiles g.currentBlock.id g.currentBlock.GetCellPositions g.grid g.gameOver with
  | none => simp [LockBlock, h1] at h
  | some p =>
    obtain ⟨grid1, over1⟩ := p
    cases over1 with
    | true =>
      rw [LockBlock_overflow R g grid1 h1] at h
      injection h with h
      left; rw [← h]
    | false =>
      cases h2 : ClearFullRows grid1 with
      | none =>
        simp only [LockBlock, h1, Option.some_bind, Option.bind_eq_bind, Bool.not_false,
          if_true] at h
        cases hf : BlockFits grid1 g.nextBlock <;> simp [GetRandomBlock, hf, h2] at h
      | some q =>
        obtain ⟨k, grid2⟩ := q
        rw [LockBlock_promote R g grid1 grid2 k h1 h2] at h
        injection h with h
        right
        rw [← h]
        show (GetRandomBlock R g).2.blocks ≠ g.blocks
        intro heq
        have hlen := GetRandomBlock_length R g
        rw [heq] at hlen
        by_cases hnil : g.blocks = []
        · rw [bagOf, hnil] at hlen; simp [GetAllBlocks] at hlen
        · rw [bagOf_of_ne_nil g hnil] at hlen; omega

theorem HandleInput_over (R : Rng σ) (g : Game σ) (input : InputState) (now : Int)
    (h : g.gameOver = true) :
    (input.reset = false → HandleInput R g input now = some g)
    ∧ (input.reset = true → HandleInput R g input now = some (Reset R g (-1) now)) := by
  constructor <;> intro hr <;> simp [HandleInput, h, hr]

theorem MoveBlockDown_moved (R : Rng σ) (g : Game σ) (h1 : g.gameOver = false)
    (h2 : IsBlockOutside (g.currentBlock.Move 1 0) = false)
    (h3 : BlockFits g.grid (g.currentBlock.Move 1 0) = true) :
    MoveBlockDown R g = some (true, { g with currentBlock := g.currentBlock.Move 1 0 }) := by
  simp [MoveBlockDown, h1, h2, h3]

theorem MoveBlockDown_locks (R : Rng σ) (g : Game σ) (h1 : g.gameOver = false)
    (h2 : IsBlockOutside (g.currentBlock.Move 1 0) = true
      ∨ BlockFits g.grid (g.currentBlock.Move 1 0) = false) :
    MoveBlockDown R g = (LockBlock R g).map (fun g1 => (false, g1)) := by
  have hcond : (IsBlockOutside (g.currentBlock.Move 1 0)
      || !BlockFits g.grid (g.currentBlock.Move 1 0)) = true := by
    rcases h2 with h2 | h2 <;> simp [h2]
  obtain ⟨grid, blocks, cur, next, rng, over, score, level, total⟩ := g
  simp only at h1 hcond
  subst h1
  simp only [MoveBlockDown, Bool.not_false, if_true, hcond, Move_undo]
  cases LockBlock R _ <;> rfl

theorem MoveBlockDown_over (R : Rng σ) (g : Game σ) (h1 : g.gameOver = true) :
    MoveBlockDown R g = some (false, g) := by
  simp [MoveBlockDown, h1]

/-- C8 as stated fails.  `sampleOver` is a game-over state with score 1200 at level 3;
an input record with the reset request set restarts the game: afterwards the flag is
false, the score 0, the level 1 and the grid empty. -/
theorem gameOver_input_counterexample :
    sampleOver.gameOver = true
    ∧ (sampleOver.score, sampleOver.level, cellAt sampleOver.grid 0 4) = (1200, 3, 7)
    ∧ (HandleInput sampleRng sampleOver resetInput 1000).map
        (fun g => (g.gameOver, g.score, g.level, cellAt g.grid 0 4)) = some (false, 0, 1, 0) := by
  decide

/-- C8 (amended).  For every state with `gameOver = true`: an input record without the
reset request leaves the state (grid, pieces, bag, generator, score, level, line count,
flag) unchanged, whatever its other fields; an input record with the reset request
performs `Reset()`, seeded from the clock. -/
theorem HandleInput_gameOver (R : Rng σ) (g : Game σ) (input : InputState) (now : Int)
    (h : g.gameOver = true) :
    (input.reset = false → HandleInput R g input now = some g)
    ∧ (input.reset = true → HandleInput R g input now = some (Reset R g (-1) now)) :=
  HandleInput_over R g input now h

/-- C8 (amended) at `sampleOver`. -/
theorem HandleInput_gameOver_witness :
    sampleOver.gameOver = true
    ∧ HandleInput sampleRng sampleOver idleInput 1000 = some sampleOver
    ∧ HandleInput sampleRng sampleOver resetInput 1000
        = some (Reset sampleRng sampleOver (-1) 1000) :=
  ⟨rfl, (HandleInput_gameOver sampleRng sampleOver idleInput 1000 rfl).1 rfl,
    (HandleInput_gameOver sampleRng sampleOver resetInput 1000 rfl).2 rfl⟩

/-! ## Every call from a reset state is defined -/

theorem IsCellOutside_false (row column : Int) (h : IsCellOutside row column = false) :
    0 ≤ row ∧ row < numRows ∧ 0 ≤ column ∧ column < numColums := by
  unfold IsCellOutside at h
  split at h
  · rename_i hc; exact ⟨hc.1, hc.2.1, hc.2.2.1, hc.2.2.2⟩
  · cases h

theorem IsBlockOutside_false (b : Block) (h : IsBlockOutside b = false) :
    ∀ t ∈ b.GetCellPositions,
      0 ≤ t.row ∧ t.row < numRows ∧ 0 ≤ t.column ∧ t.column < numColums := by
  intro t ht
  unfold IsBlockOutside at h
  rw [List.any_eq_false] at h
  exact IsCellOutside_false _ _ (by simpa using h t ht)

theorem spawn_inside : ∀ b ∈ GetAllBlocks, 0 ≤ b.rotationState ∧ IsBlockOutside b = false := by
  decide

theorem GetRandomBlock_mem (R : Rng σ) (g : Game σ) (h : ∀ b ∈ g.blocks, b ∈ GetAllBlocks) :
    (GetRandomBlock R g).1 ∈ GetAllBlocks
    ∧ ∀ b ∈ (GetRandomBlock R g).2.blocks, b ∈ GetAllBlocks := by
  have hbag : ∀ b ∈ bagOf g, b ∈ GetAllBlocks := by
    intro b hb
    by_cases hnil : g.blocks = []
    · rw [bagOf, hnil] at hb; exact hb
    · rw [bagOf_of_ne_nil g hnil] at hb; exact h b hb
  have hp := GetRandomBlock_perm R g
  exact ⟨hbag _ (hp.subset (List.mem_cons_self _ _)),
    fun b hb => hbag _ (hp.subset (List.mem_cons_of_mem _ hb))⟩

theorem Inv_Reset (R : Rng σ) (g : Game σ) (seed now : Int) (h : g.grid.WF) :
    Inv (Reset R g seed now) := by
  obtain ⟨hp, -⟩ := Reset_perm R g seed now
  have hcur := hp.subset (List.mem_cons_self _ _)
  have hnext := hp.subset (List.mem_cons_of_mem _ (List.mem_cons_self _ _))
  refine ⟨?_, hnext, ?_, (spawn_inside _ hcur).1, (spawn_inside _ hcur).2⟩
  · rw [Reset_grid, Initalize_eq _ h]; decide
  · intro b hb
    exact hp.subset (List.mem_cons_of_mem _ (List.mem_cons_of_mem _ hb))

theorem Move_tiles_undo (b : Block) (r c : Int) : (b.Move r c).Move (-r) (-c) = b := by
  cases b
  simp [Block.Move]

theorem Rotate_undo (b : Block) (h : 0 ≤ b.rotationState) : b.Rotate.UndoRotation = b := by
  obtain ⟨id, cells, rot, ro, co⟩ := b
  simp only at h
  simp only [Block.Rotate, Block.UndoRotation]
  congr 1
  split <;> split <;> omega

theorem Rotate_nonneg (b : Block) (h : 0 ≤ b.rotationState) : 0 ≤ b.Rotate.rotationState := by
  simp only [Block.Rotate]
  split <;> omega

theorem Inv_MoveBlockLeft (g : Game σ) (h : Inv g) : Inv (MoveBlockLeft g) := by
  obtain ⟨h1, h2, h3, h4, h5⟩ := h
  unfold MoveBlockLeft
  split
  · simp only
    split
    · have := Move_tiles_undo g.currentBlock 0 (-1)
      simp only [neg_zero, neg_neg] at this
      rw [this]
      exact ⟨h1, h2, h3, h4, h5⟩
    · rename_i hc
      simp only [Bool.or_eq_true, not_or, Bool.not_eq_true, Bool.not_eq_true'] at hc
      exact ⟨h1, h2, h3, h4, hc.1⟩
  · exact ⟨h1, h2, h3, h4, h5⟩

theorem Inv_MoveBlockRight (g : Game σ) (h : Inv g) : Inv (MoveBlockRight g) := by
  obtain ⟨h1, h2, h3, h4, h5⟩ := h
  unfold MoveBlockRight
  split
  · simp only
    split
    · have := Move_tiles_undo g.currentBlock 0 1
      simp only [neg_zero] at this
      rw [this]
      exact ⟨h1, h2, h3, h4, h5⟩
    · rename_i hc
      simp only [Bool.or_eq_true, not_or, Bool.not_eq_true, Bool.not_eq_true'] at hc
      exact ⟨h1, h2, h3, h4, hc.1⟩
  · exact ⟨h1, h2, h3, h4, h5⟩

theorem Inv_RotateBlock (g : Game σ) (h : Inv g) : Inv (RotateBlock g) := by
  obtain ⟨h1, h2, h3, h4, h5⟩ := h
  unfold RotateBlock
  split
  · simp only
    split
    · rw [Rotate_undo _ h4]
      exact ⟨h1, h2, h3, h4, h5⟩
    · rename_i hc
      simp only [Bool.or_eq_true, not_or, Bool.not_eq_true, Bool.not_eq_true'] at hc
      exact ⟨h1, h2, h3, Rotate_nonneg _ h4, hc.1⟩
  · exact ⟨h1, h2, h3, h4, h5⟩

theorem Inv_UpdateScore (g : Game σ) (a b : Int) (h : Inv g) : Inv (UpdateScore g a b) := h

theorem Inv_LockBlock (R : Rng σ) (g : Game σ) (h : Inv g) (hover : g.gameOver = false) :
    ∃ g1, LockBlock R g = some g1 ∧ Inv g1 := by
  obtain ⟨h1, h2, h3, h4, h5⟩ := h
  obtain ⟨grid1, g1, e, wf1, -, hcur, hnext, hblocks, -, -, -, hgrid, -, -, -⟩ :=
    LockBlock_inside R g h1 hover (IsBlockOutside_false _ h5)
  refine ⟨g1, e, ?_, ?_, ?_, ?_, ?_⟩
  · rw [hgrid]; exact compacted_WF grid1 wf1
  · rw [hnext]; exact (GetRandomBlock_mem R g h3).1
  · rw [hblocks]; exact (GetRandomBlock_mem R g h3).2
  · rw [hcur]; exact (spawn_inside _ h2).1
  · rw [hcur]; exact (spawn_inside _ h2).2

theorem Inv_MoveBlockDown (R : Rng σ) (g : Game σ) (h : Inv g) :
    ∃ (b : Bool) (g1 : Game σ), MoveBlockDown R g = some (b, g1) ∧ Inv g1 := by
  have hmoved := MoveBlockDown_moved R g
  have hlock := MoveBlockDown_locks R g
  have hover := MoveBlockDown_over R g
  rcases Bool.eq_false_or_eq_true g.gameOver with hg | hg
  · exact ⟨false, g, hover hg, h⟩
  · by_cases hout : IsBlockOutside (g.currentBlock.Move 1 0) = true
    · obtain ⟨g1, e, hinv⟩ := Inv_LockBlock R g h hg
      exact ⟨false, g1, by rw [hlock hg (Or.inl hout), e]; rfl, hinv⟩
    · have hout1 : IsBlockOutside (g.currentBlock.Move 1 0) = false := by simpa using hout
      by_cases hfit : BlockFits g.grid (g.currentBlock.Move 1 0) = true
      · refine ⟨true, _, hmoved hg hout1 hfit, h.1, h.2.1, h.2.2.1, ?_, hout1⟩
        exact h.2.2.2.1
      · obtain ⟨g1, e, hinv⟩ := Inv_LockBlock R g h hg
        exact ⟨false, g1, by rw [hlock hg (Or.inr (by simpa using hfit)), e]; rfl, hinv⟩

theorem Inv_HandleInput (R : Rng σ) (g : Game σ) (input : InputState) (now : Int)
    (h : Inv g) : ∃ g1, HandleInput R g input now = some g1 ∧ Inv g1 := by
  rcases Bool.eq_false_or_eq_true g.gameOver with hg | hg
  · obtain ⟨hno, hre⟩ := HandleInput_over R g input now hg
    rcases Bool.eq_false_or_eq_true input.reset with hr | hr
    · exact ⟨_, hre hr, Inv_Reset R g (-1) now h.1⟩
    · exact ⟨g, hno hr, h⟩
  · have h1 : Inv (if input.left then MoveBlockLeft g else g) := by
      split
      · exact Inv_MoveBlockLeft g h
      · exact h
    have h2 : Inv (if input.right then MoveBlockRight (if input.left then MoveBlockLeft g else g)
        else (if input.left then MoveBlockLeft g else g)) := by
      split
      · exact Inv_MoveBlockRight _ h1
      · exact h1
    have h3 : Inv (if input.rotate then RotateBlock
          (if input.right then MoveBlockRight (if input.left then MoveBlockLeft g else g)
            else (if input.left then MoveBlockLeft g else g))
        else (if input.right then MoveBlockRight (if input.left then MoveBlockLeft g else g)
            else (if input.left then MoveBlockLeft g else g))) := by
      split
      · exact Inv_RotateBlock _ h2
      · exact h2
    rcases Bool.eq_false_or_eq_true input.down with hd | hd
    · obtain ⟨b, g1, e, hinv⟩ := Inv_MoveBlockDown R _ h3
      refine ⟨if b then UpdateScore g1 0 1 else g1, ?_, ?_⟩
      · simp only [HandleInput, hg, hd, if_true, Bool.false_eq_true, if_false, e,
          Option.some_bind, Option.bind_eq_bind, Option.pure_def]
      · split
        · exact Inv_UpdateScore _ _ _ hinv
        · exact hinv
    · exact ⟨_, by simp [HandleInput, hg, hd], h3⟩

theorem Inv_step (R : Rng σ) (g : Game σ) (c : Call) (now : Int) (h : Inv g) :
    ∃ g1, step R g c now = some g1 ∧ Inv g1 := by
  cases c with
  | applyInput input => exact Inv_HandleInput R g input now h
  | tick =>
    obtain ⟨b, g1, e, hinv⟩ := Inv_MoveBlockDown R g h
    exact ⟨g1, by simp [step, e], hinv⟩

theorem trace_defined (R : Rng σ) :
    ∀ (calls : List (Call × Int)) (g : Game σ), Inv g →
      ∃ states : List (Game σ), trace R (some g) calls = states.map some
        ∧ states.length = calls.length ∧ ∀ g1 ∈ states, Inv g1 := by
  intro calls
  induction calls with
  | nil => intro g _; exact ⟨[], rfl, rfl, by simp⟩
  | cons a rest ih =>
    intro g h
    obtain ⟨c, now⟩ := a
    obtain ⟨g1, e, hinv⟩ := Inv_step R g c now h
    obtain ⟨states, es, hl, hs⟩ := ih g1 hinv
    refine ⟨g1 :: states, ?_, by simp [hl], ?_⟩
    · simp only [trace, Option.some_bind, Option.bind_eq_bind, e, es, List.map_cons]
    · intro g2 hg2
      rcases List.mem_cons.mp hg2 with hg2 | hg2
      · rw [hg2]; exact hinv
      · exact hs g2 hg2

theorem toInt32_ne_sentinel (s : Nat) (hs : s < 4294967296) (hne : s ≠ 4294967295) :
    toInt32 s ≠ -1 := by
  unfold toInt32
  rw [Nat.mod_eq_of_lt hs]
  split <;> omega

/-- With a seed other than the sentinel, `Reset` forgets the state it starts from. -/
theorem Reset_forgets (R : Rng σ) (g1 g2 : Game σ) (h1 : g1.grid.WF) (h2 : g2.grid.WF)
    (seed t1 t2 : Int) (hs : seed ≠ -1) :
    Reset R g1 seed t1 = Reset R g2 seed t2 := by
  simp only [Reset, GetRandomBlock, Initalize_eq _ h1, Initalize_eq _ h2, hs, ne_eq,
    not_false_eq_true, if_true]

theorem step_clock (R : Rng σ) (g : Game σ) (c : Call) (t1 t2 : Int)
    (h : t1 = t2 ∨ ∀ input, c = Call.applyInput input → input.reset = false) :
    step R g c t1 = step R g c t2 := by
  rcases h with h | h
  · rw [h]
  · cases c with
    | tick => rfl
    | applyInput input =>
      have hr := h input rfl
      simp [step, HandleInput, hr]

theorem trace_sameCall (R : Rng σ) :
    ∀ (calls1 calls2 : List (Call × Int)), List.Forall₂ sameCall calls1 calls2 →
      ∀ s : Option (Game σ), trace R s calls1 = trace R s calls2 := by
  intro calls1
  induction calls1 with
  | nil =>
    intro calls2 h s
    rw [List.forall₂_nil_left_iff.mp h]
  | cons a l1 ih =>
    intro calls2 h s
    obtain ⟨b, l2, hab, hrest, rfl⟩ := List.forall₂_cons_left_iff.mp h
    obtain ⟨c1, t1⟩ := a
    obtain ⟨c2, t2⟩ := b
    obtain ⟨hc, ht⟩ := hab
    simp only at hc ht
    subst hc
    have hstep : (s.bind fun g => step R g c1 t1) = (s.bind fun g => step R g c1 t2) := by
      cases s with
      | none => rfl
      | some g => exact step_clock R g c1 t1 t2 ht
    simp only [trace, hstep, ih l2 hrest]

/-! ## Gravity (C9) -/

/-- C9 as stated fails.  In the game-over state `sampleOver`, `MoveBlockDown` returns
false and leaves the state as it was: the active piece is not locked (a lock would
have written the piece into the grid). -/
theorem tick_gameOver_counterexample :
    sampleOver.gameOver = true
    ∧ MoveBlockDown sampleRng sampleOver = some (false, sampleOver)
    ∧ LockBlock sampleRng sampleOver ≠ some sampleOver := by
  decide

/-- C9 (amended).  For every state, `MoveBlockDown` returns true exactly when the
state it leaves is the old one with the active piece one row lower.  In a state that
is not game-over it returns true when the piece one row lower is inside the grid on
empty cells, and otherwise returns false after locking the piece where it was (the
result is that of `LockBlock`).  In a game-over state it returns false and changes
nothing: no piece is locked.  In every state that satisfies `Inv`, as all states after a
`Reset` do, the call returns. -/
theorem MoveBlockDown_spec (R : Rng σ) (g : Game σ) :
    (Inv g → ∃ (b : Bool) (g1 : Game σ), MoveBlockDown R g = some (b, g1) ∧ Inv g1)
    ∧ (∀ (b : Bool) (g1 : Game σ), MoveBlockDown R g = some (b, g1) →
      (b = true ↔ g1 = { g with currentBlock := g.currentBlock.Move 1 0 }))
    ∧ (g.gameOver = false →
        IsBlockOutside (g.currentBlock.Move 1 0) = false →
        BlockFits g.grid (g.currentBlock.Move 1 0) = true →
        MoveBlockDown R g = some (true, { g with currentBlock := g.currentBlock.Move 1 0 }))
    ∧ (g.gameOver = false →
        (IsBlockOutside (g.currentBlock.Move 1 0) = true
          ∨ BlockFits g.grid (g.currentBlock.Move 1 0) = false) →
        MoveBlockDown R g = (LockBlock R g).map (fun g1 => (false, g1)))
    ∧ (g.gameOver = true → MoveBlockDown R g = some (false, g)) := by
  have hmoved := MoveBlockDown_moved R g
  have hlock := MoveBlockDown_locks R g
  have hover := MoveBlockDown_over R g
  have hne : g ≠ { g with currentBlock := g.currentBlock.Move 1 0 } := by
    intro h
    have := congrArg (fun s => s.currentBlock.rowOffset) h
    simp [Block.Move] at this
  refine ⟨Inv_MoveBlockDown R g, ?_, hmoved, hlock, hover⟩
  intro b g1 h
  rcases Bool.eq_false_or_eq_true g.gameOver with hg | hg
  · rw [hover hg] at h
    injection h with h
    injection h with hb hs
    rw [← hb, ← hs]
    exact ⟨fun hft => absurd hft (by decide), fun heq => absurd heq hne⟩
  · by_cases hfit : IsBlockOutside (g.currentBlock.Move 1 0) = false
        ∧ BlockFits g.grid (g.currentBlock.Move 1 0) = true
    · rw [hmoved hg hfit.1 hfit.2] at h
      injection h with h
      injection h with hb hs
      rw [← hb, ← hs]
      exact ⟨fun _ => rfl, fun _ => rfl⟩
    · have hcase : IsBlockOutside (g.currentBlock.Move 1 0) = true
          ∨ BlockFits g.grid (g.currentBlock.Move 1 0) = false := by
        by_cases ho : IsBlockOutside (g.currentBlock.Move 1 0) = true
        · exact Or.inl ho
        · right
          by_cases hb : BlockFits g.grid (g.currentBlock.Move 1 0) = true
          · exact absurd ⟨by simpa using ho, hb⟩ hfit
          · simpa using hb
      rw [hlock hg hcase] at h
      cases hl : LockBlock R g with
      | none => rw [hl] at h; simp at h
      | some g2 =>
        rw [hl] at h
        simp only [Option.map_some'] at h
        injection h with h
        injection h with hb hs
        rw [← hb, ← hs]
        have hch := LockBlock_changes R g g2 hl
        refine ⟨fun hft => absurd hft (by decide), fun heq => ?_⟩
        rcases hch with hch | hch
        · rw [heq] at hch
          exact absurd (hg.symm.trans hch) (by decide)
        · rw [heq] at hch
          exact absurd rfl hch

/-- C9 (amended) at `sampleOver` and at `sampleLock`, whose piece rests on the floor. -/
theorem MoveBlockDown_spec_witness :
    (sampleOver.gameOver = true ∧ MoveBlockDown sampleRng sampleOver = some (false, sampleOver))
    ∧ (sampleLock.gameOver = false
        ∧ IsBlockOutside (sampleLock.currentBlock.Move 1 0) = true
        ∧ MoveBlockDown sampleRng sampleLock
            = (LockBlock sampleRng sampleLock).map (fun g1 => (false, g1))) :=
  ⟨⟨rfl, (MoveBlockDown_spec sampleRng sampleOver).2.2.2.2 rfl⟩,
    ⟨rfl, by decide, (MoveBlockDown_spec sampleRng sampleLock).2.2.2.1 rfl (Or.inl (by decide))⟩⟩

/-! ## Determinism (C1) -/

/-- C1 as stated fails, in two ways.  (1) The seed `4294967295` is the `int` `-1`, which
`Reset` takes as the request to seed from the clock: two instances that reset with it
at clock readings 1000 and 1001 and then make the same tick hold different pieces.
(2) After `Reset(42)` on both instances and the same 111 ticks, both are in the same
game-over state; the same input record with the reset request, read at clock readings
1000 and 1001, leaves them with different pieces. -/
theorem determinism_counterexample :
    toInt32 4294967295 = -1
    ∧ (trace sampleRng (some (Reset sampleRng sampleOver (toInt32 4294967295) 1000))
          [(Call.tick, 0)]).map (fun s => s.map (fun g => g.currentBlock.id)) = [some 7]
    ∧ (trace sampleRng (some (Reset sampleRng sampleOver (toInt32 4294967295) 1001))
          [(Call.tick, 0)]).map (fun s => s.map (fun g => g.currentBlock.id)) = [some 3]
    ∧ ((trace sampleRng (some (Reset sampleRng sampleOver (toInt32 42) 0))
          (List.replicate 111 (Call.tick, 0) ++ [(Call.applyInput resetInput, 1000)])).drop 110).map
        (fun s => s.map (fun g => (g.gameOver, g.currentBlock.id)))
        = [some (true, 4), some (false, 7)]
    ∧ ((trace sampleRng (some (Reset sampleRng sampleOver (toInt32 42) 0))
          (List.replicate 111 (Call.tick, 0) ++ [(Call.applyInput resetInput, 1001)])).drop 110).map
        (fun s => s.map (fun g => (g.gameOver, g.currentBlock.id)))
        = [some (true, 4), some (false, 3)] := by
  decide

/-- C1 (amended).  For every 32-bit seed `s` other than `4294967295` and every finite
sequence of `HandleInput` and `MoveBlockDown` calls: two instances, whatever their
earlier states and whatever their clocks show at the reset, that call `Reset(s)` and
then make that sequence of calls go through the same states: every call returns, and
after every call the two states (grid, pieces, bag, generator, score, level, line count
and flag) are identical, provided every input record that carries the reset request is
applied at the same clock reading on both. -/
theorem determinism (R : Rng σ) (s : Nat) (hs : s < 4294967296) (hne : s ≠ 4294967295)
    (g1 g2 : Game σ) (h1 : g1.grid.WF) (h2 : g2.grid.WF) (t1 t2 : Int)
    (calls1 calls2 : List (Call × Int)) (hcalls : List.Forall₂ sameCall calls1 calls2) :
    ∃ states : List (Game σ),
      states.length = calls1.length
      ∧ trace R (some (Reset R g1 (toInt32 s) t1)) calls1 = states.map some
      ∧ trace R (some (Reset R g2 (toInt32 s) t2)) calls2 = states.map some := by
  obtain ⟨states, e, hl, -⟩ := trace_defined R calls1 _ (Inv_Reset R g1 (toInt32 s) t1 h1)
  refine ⟨states, hl, e, ?_⟩
  rw [← Reset_forgets R g1 g2 h1 h2 (toInt32 s) t1 t2 (toInt32_ne_sentinel s hs hne),
    ← trace_sameCall R calls1 calls2 hcalls, e]

/-- C1 (amended) at seed 42 from the states `sampleOver` and `sampleLock`, with a tick
and an idle input record read at different clock readings. -/
theorem determinism_witness :
    (42 < 4294967296 ∧ 42 ≠ 4294967295 ∧ sampleOver.grid.WF ∧ sampleLock.grid.WF
      ∧ List.Forall₂ sameCall [(Call.tick, 7), (Call.applyInput idleInput, 8)]
          [(Call.tick, 1), (Call.applyInput idleInput, 2)])
    ∧ ∃ states : List (Game Nat),
      states.length = 2
      ∧ trace sampleRng (some (Reset sampleRng sampleOver (toInt32 42) 1000))
          [(Call.tick, 7), (Call.applyInput idleInput, 8)] = states.map some
      ∧ trace sampleRng (some (Reset sampleRng sampleLock (toInt32 42) 2000))
          [(Call.tick, 1), (Call.applyInput idleInput, 2)] = states.map some :=
  have hc : List.Forall₂ sameCall [(Call.tick, 7), (Call.applyInput idleInput, 8)]
      [(Call.tick, 1), (Call.applyInput idleInput, 2)] :=
    List.Forall₂.cons ⟨rfl, Or.inr (fun _ h => by cases h)⟩
      (List.Forall₂.cons ⟨rfl, Or.inr (fun _ h => by cases h; rfl)⟩ List.Forall₂.nil)
  ⟨⟨by decide, by decide, by decide, by decide, hc⟩,
    determinism sampleRng 42 (by decide) (by decide) sampleOver sampleLock (by decide)
      (by decide) 1000 2000 _ _ hc⟩

/-! ## Moves and rotation (C11, C12, C13) -/

theorem IsCellEmpty_inside (grid : Grid) (row column : Int)
    (h : 0 ≤ row ∧ row < numRows ∧ 0 ≤ column ∧ column < numColums) :
    IsCellEmpty grid row column = decide (cellAt grid row.toNat column.toNat = 0) := by
  obtain ⟨h1, h2, h3, h4⟩ := h
  unfold IsCellEmpty
  rw [if_neg (by omega), if_neg (by omega), if_neg (by omega)]
  by_cases hz : cellAt grid row.toNat column.toNat = 0 <;> simp [hz]

/-- The test `IsBlockOutside(b) || !BlockFits(b)` fails exactly when every cell of `b`
is inside the grid on a cell holding 0. -/
theorem cellsFree_iff (grid : Grid) (b : Block) :
    cellsFree grid b ↔ (IsBlockOutside b || !BlockFits grid b) = false := by
  rw [Bool.or_eq_false_iff]
  constructor
  · intro h
    constructor
    · unfold IsBlockOutside
      rw [List.any_eq_false]
      intro t ht
      obtain ⟨h1, h2, h3, h4, -⟩ := h t ht
      simp [IsCellOutside, h1, h2, h3, h4]
    · simp only [Bool.not_eq_false']
      unfold BlockFits
      rw [List.all_eq_true]
      intro t ht
      obtain ⟨h1, h2, h3, h4, h5⟩ := h t ht
      rw [IsCellEmpty_inside grid _ _ ⟨h1, h2, h3, h4⟩]
      simpa using h5
  · rintro ⟨hout, hfit⟩ t ht
    have hin := IsBlockOutside_false b hout t ht
    simp only [Bool.not_eq_false'] at hfit
    unfold BlockFits at hfit
    rw [List.all_eq_true] at hfit
    have := hfit t ht
    rw [IsCellEmpty_inside grid _ _ hin] at this
    exact ⟨hin.1, hin.2.1, hin.2.2.1, hin.2.2.2, by simpa using this⟩

theorem MoveBlockLeft_eq (g : Game σ) (h : g.gameOver = false) :
    MoveBlockLeft g
      = if cellsFree g.grid (g.currentBlock.Move 0 (-1)) then
          { g with currentBlock := g.currentBlock.Move 0 (-1) }
        else g := by
  have hback := Move_tiles_undo g.currentBlock 0 (-1)
  simp only [neg_zero, neg_neg] at hback
  by_cases hc : cellsFree g.grid (g.currentBlock.Move 0 (-1))
  · rw [if_pos hc]
    have := (cellsFree_iff _ _).mp hc
    simp [MoveBlockLeft, h, this]
  · rw [if_neg hc]
    have : (IsBlockOutside (g.currentBlock.Move 0 (-1))
        || !BlockFits g.grid (g.currentBlock.Move 0 (-1))) = true := by
      rw [← Bool.not_eq_false]; exact fun hf => hc ((cellsFree_iff _ _).mpr hf)
    simp only [MoveBlockLeft, h, Bool.not_false, if_true, this, hback]
    cases g; simp_all

theorem MoveBlockRight_eq (g : Game σ) (h : g.gameOver = false) :
    MoveBlockRight g
      = if cellsFree g.grid (g.currentBlock.Move 0 1) then
          { g with currentBlock := g.currentBlock.Move 0 1 }
        else g := by
  have hback := Move_tiles_undo g.currentBlock 0 1
  simp only [neg_zero] at hback
  by_cases hc : cellsFree g.grid (g.currentBlock.Move 0 1)
  · rw [if_pos hc]
    have := (cellsFree_iff _ _).mp hc
    simp [MoveBlockRight, h, this]
  · rw [if_neg hc]
    have : (IsBlockOutside (g.currentBlock.Move 0 1)
        || !BlockFits g.grid (g.currentBlock.Move 0 1)) = true := by
      rw [← Bool.not_eq_false]; exact fun hf => hc ((cellsFree_iff _ _).mpr hf)
    simp only [MoveBlockRight, h, Bool.not_false, if_true, this, hback]
    cases g; simp_all

theorem Move_cells (b : Block) (r c : Int) :
    (b.Move r c).GetCellPositions
      = b.GetCellPositions.map (fun t => Position.mk (t.row + r) (t.column + c)) := by
  simp only [Block.GetCellPositions, Block.Move, Block.tilesAt, List.map_map]
  apply List.map_congr_left
  intro t _
  simp only [Function.comp]
  congr 1 <;> omega

theorem HandleInput_left (R : Rng σ) (g : Game σ) (input : InputState) (now : Int)
    (h : g.gameOver = false) (hl : input.left = true) (hr : input.right = false)
    (hro : input.rotate = false) (hd : input.down = false) :
    HandleInput R g input now = some (MoveBlockLeft g) := by
  simp [HandleInput, h, hl, hr, hro, hd]

theorem HandleInput_right (R : Rng σ) (g : Game σ) (input : InputState) (now : Int)
    (h : g.gameOver = false) (hl : input.left = false) (hr : input.right = true)
    (hro : input.rotate = false) (hd : input.down = false) :
    HandleInput R g input now = some (MoveBlockRight g) := by
  simp [HandleInput, h, hl, hr, hro, hd]

/-- C11 (lateral move).  For every state that is not game-over: `MoveBlockLeft`
(`MoveBlockRight`) leaves the state with the active piece moved by -1 (+1) column when
all cells of the moved piece are inside the grid on cells holding 0, and otherwise leaves
the state as it was; so the column offset changes by -1 (+1) exactly in the first case,
and grid, score, level, line count, next piece and bag are unchanged in both.  The cells
of the moved piece are the old cells with the column changed by -1 (+1), and an input
record with only move-left (move-right) set does exactly `MoveBlockLeft`
(`MoveBlockRight`). -/
theorem lateral_move (R : Rng σ) (g : Game σ) (h : g.gameOver = false) :
    (MoveBlockLeft g
      = if cellsFree g.grid (g.currentBlock.Move 0 (-1)) then
          { g with currentBlock := g.currentBlock.Move 0 (-1) }
        else g)
    ∧ (MoveBlockRight g
      = if cellsFree g.grid (g.currentBlock.Move 0 1) then
          { g with currentBlock := g.currentBlock.Move 0 1 }
        else g)
    ∧ ((MoveBlockLeft g).currentBlock.columnOffset = g.currentBlock.columnOffset - 1
        ↔ cellsFree g.grid (g.currentBlock.Move 0 (-1)))
    ∧ ((MoveBlockRight g).currentBlock.columnOffset = g.currentBlock.columnOffset + 1
        ↔ cellsFree g.grid (g.currentBlock.Move 0 1))
    ∧ (g.currentBlock.Move 0 (-1)).GetCellPositions
        = g.currentBlock.GetCellPositions.map (fun t => Position.mk (t.row + 0) (t.column + -1))
    ∧ (g.currentBlock.Move 0 1).GetCellPositions
        = g.currentBlock.GetCellPositions.map (fun t => Position.mk (t.row + 0) (t.column + 1))
    ∧ (∀ (input : InputState) (now : Int), input.left = true → input.right = false →
        input.rotate = false → input.down = false →
        HandleInput R g input now = some (MoveBlockLeft g))
    ∧ (∀ (input : InputState) (now : Int), input.left = false → input.right = true →
        input.rotate = false → input.down = false →
        HandleInput R g input now = some (MoveBlockRight g)) := by
  refine ⟨MoveBlockLeft_eq g h, MoveBlockRight_eq g h, ?_, ?_, Move_cells _ _ _,
    Move_cells _ _ _, fun input now => HandleInput_left R g input now h,
    fun input now => HandleInput_right R g input now h⟩
  · rw [MoveBlockLeft_eq g h]
    by_cases hc : cellsFree g.grid (g.currentBlock.Move 0 (-1))
    · rw [if_pos hc]
      refine ⟨fun _ => hc, fun _ => ?_⟩
      show g.currentBlock.columnOffset + -1 = g.currentBlock.columnOffset - 1
      omega
    · rw [if_neg hc]
      exact ⟨fun he => absurd he (by omega), fun hc1 => absurd hc1 hc⟩
  · rw [MoveBlockRight_eq g h]
    by_cases hc : cellsFree g.grid (g.currentBlock.Move 0 1)
    · rw [if_pos hc]
      exact ⟨fun _ => hc, fun _ => rfl⟩
    · rw [if_neg hc]
      exact ⟨fun he => absurd he (by omega), fun hc1 => absurd hc1 hc⟩

/-- C11 at `samplePlay`: the T block at its spawn position moves left. -/
theorem lateral_move_witness :
    samplePlay.gameOver = false
    ∧ cellsFree samplePlay.grid (samplePlay.currentBlock.Move 0 (-1))
    ∧ HandleInput sampleRng samplePlay leftInput 0
        = some { samplePlay with currentBlock := samplePlay.currentBlock.Move 0 (-1) } :=
  have h := lateral_move sampleRng samplePlay rfl
  ⟨rfl, by decide,
    (h.2.2.2.2.2.2.1 leftInput 0 rfl rfl rfl rfl).trans
      (congrArg some (h.1.trans (if_pos (by decide))))⟩

theorem Rotate_eq (b : Block) (hlen : b.cells.length = 4) (h0 : 0 ≤ b.rotationState)
    (h3 : b.rotationState < 4) :
    b.Rotate = { b with rotationState := (b.rotationState + 1) % 4 } := by
  obtain ⟨id, cells, rot, ro, co⟩ := b
  simp only at hlen h0 h3
  simp only [Block.Rotate, hlen]
  congr 1
  split <;> omega

theorem RotateBlock_eq (g : Game σ) (h : g.gameOver = false)
    (h0 : 0 ≤ g.currentBlock.rotationState) :
    RotateBlock g
      = if cellsFree g.grid g.currentBlock.Rotate then
          { g with currentBlock := g.currentBlock.Rotate }
        else g := by
  have hback := Rotate_undo g.currentBlock h0
  by_cases hc : cellsFree g.grid g.currentBlock.Rotate
  · rw [if_pos hc]
    have := (cellsFree_iff _ _).mp hc
    simp [RotateBlock, h, this]
  · rw [if_neg hc]
    have : (IsBlockOutside g.currentBlock.Rotate
        || !BlockFits g.grid g.currentBlock.Rotate) = true := by
      rw [← Bool.not_eq_false]; exact fun hf => hc ((cellsFree_iff _ _).mpr hf)
    simp only [RotateBlock, h, Bool.not_false, if_true, this, hback]
    cases g; simp_all

/-- C12 (rotation without wall-kick).  For every state that is not game-over, whose
active piece has its four rotations and a rotation index `r` in 0..3: `Rotate` sets the
index to `(r + 1) mod 4` and changes nothing else of the piece, and `UndoRotation` after
it gives the piece back; `RotateBlock` leaves the state with the rotated piece when all
cells of that rotation at the unchanged offset are inside the grid on cells holding 0,
and otherwise leaves the state as it was.  So the index becomes `(r + 1) mod 4` exactly
in the first case, and the offset is the old one in both: no other offset is tried. -/
theorem rotation_no_kick (g : Game σ) (h : g.gameOver = false)
    (hlen : g.currentBlock.cells.length = 4) (h0 : 0 ≤ g.currentBlock.rotationState)
    (h3 : g.currentBlock.rotationState < 4) :
    g.currentBlock.Rotate
      = { g.currentBlock with rotationState := (g.currentBlock.rotationState + 1) % 4 }
    ∧ g.currentBlock.Rotate.UndoRotation = g.currentBlock
    ∧ (RotateBlock g
        = if cellsFree g.grid g.currentBlock.Rotate then
            { g with currentBlock := g.currentBlock.Rotate }
          else g)
    ∧ ((RotateBlock g).currentBlock.rotationState = (g.currentBlock.rotationState + 1) % 4
        ↔ cellsFree g.grid g.currentBlock.Rotate)
    ∧ (RotateBlock g).currentBlock.rowOffset = g.currentBlock.rowOffset
    ∧ (RotateBlock g).currentBlock.columnOffset = g.currentBlock.columnOffset := by
  have hrot := Rotate_eq g.currentBlock hlen h0 h3
  have hblock := RotateBlock_eq g h h0
  refine ⟨hrot, Rotate_undo _ h0, hblock, ?_, ?_, ?_⟩
  · rw [hblock]
    by_cases hc : cellsFree g.grid g.currentBlock.Rotate
    · rw [if_pos hc]
      refine ⟨fun _ => hc, fun _ => ?_⟩
      show g.currentBlock.Rotate.rotationState = _
      rw [hrot]
    · rw [if_neg hc]
      exact ⟨fun he => absurd he (by omega), fun hc1 => absurd hc1 hc⟩
  · rw [hblock]
    split
    · show g.currentBlock.Rotate.rowOffset = _; rw [hrot]
    · rfl
  · rw [hblock]
    split
    · show g.currentBlock.Rotate.columnOffset = _; rw [hrot]
    · rfl

/-- C12 at `samplePlay`, where the T block turns, and at `sampleWall`, where it cannot. -/
theorem rotation_no_kick_witness :
    (samplePlay.gameOver = false ∧ samplePlay.currentBlock.cells.length = 4
      ∧ 0 ≤ samplePlay.currentBlock.rotationState ∧ samplePlay.currentBlock.rotationState < 4
      ∧ (RotateBlock samplePlay).currentBlock.rotationState = 1)
    ∧ (sampleWall.gameOver = false ∧ ¬ cellsFree sampleWall.grid sampleWall.currentBlock.Rotate
      ∧ RotateBlock sampleWall = sampleWall) :=
  ⟨⟨rfl, rfl, by decide, by decide,
      ((rotation_no_kick samplePlay rfl rfl (by decide) (by decide)).2.2.2.1).mpr (by decide)⟩,
    ⟨rfl, by decide,
      ((rotation_no_kick sampleWall rfl rfl (by decide) (by decide)).2.2.1).trans
        (if_neg (by decide))⟩⟩

theorem HandleInput_down (R : Rng σ) (g : Game σ) (input : InputState) (now : Int)
    (h : g.gameOver = false) (hl : input.left = false) (hr : input.right = false)
    (hro : input.rotate = false) (hd : input.down = true) :
    HandleInput R g input now
      = (MoveBlockDown R g).map (fun p => if p.1 then UpdateScore p.2 0 1 else p.2) := by
  simp only [HandleInput, h, hl, hr, hro, hd, Bool.false_eq_true, if_false, if_true]
  cases MoveBlockDown R g <;> rfl

/-- What a soft drop does, by the two cases of `MoveBlockDown`. -/
theorem soft_drop_cases (R : Rng σ) (g : Game σ) (input : InputState) (now : Int)
    (h : g.gameOver = false) (hl : input.left = false) (hr : input.right = false)
    (hro : input.rotate = false) (hd : input.down = true) :
    (cellsFree g.grid (g.currentBlock.Move 1 0) →
      HandleInput R g input now
        = some (UpdateScore { g with currentBlock := g.currentBlock.Move 1 0 } 0 1))
    ∧ (¬ cellsFree g.grid (g.currentBlock.Move 1 0) →
      HandleInput R g input now = LockBlock R g) := by
  rw [HandleInput_down R g input now h hl hr hro hd]
  constructor
  · intro hc
    have hcond := (cellsFree_iff _ _).mp hc
    rw [Bool.or_eq_false_iff] at hcond
    rw [MoveBlockDown_moved R g h hcond.1 (by simpa using hcond.2)]
    rfl
  · intro hc
    have hcond : IsBlockOutside (g.currentBlock.Move 1 0) = true
        ∨ BlockFits g.grid (g.currentBlock.Move 1 0) = false := by
      by_cases ho : IsBlockOutside (g.currentBlock.Move 1 0) = true
      · exact Or.inl ho
      · right
        by_cases hb : BlockFits g.grid (g.currentBlock.Move 1 0) = false
        · exact hb
        · exfalso
          apply hc
          rw [cellsFree_iff, Bool.or_eq_false_iff]
          exact ⟨by simpa using ho, by simpa using hb⟩
    rw [MoveBlockDown_locks R g h hcond]
    cases LockBlock R g <;> rfl

/-- C13 as stated fails where the score is the largest `int`.  The state is `samplePlay`
with the score 2147483647, a value a peer can report; the soft drop moves the piece down
one row, and the score afterwards is -2147483648. -/
theorem soft_drop_overflow_counterexample :
    (({ samplePlay with score := 2147483647 } : Game Nat).gameOver,
      ({ samplePlay with score := 2147483647 } : Game Nat).currentBlock.rowOffset) = (false, 0)
    ∧ (HandleInput sampleRng { samplePlay with score := 2147483647 } downInput 0).map
        (fun g => (g.currentBlock.rowOffset, g.score)) = some (1, -2147483648) := by
  decide

/-- C13 (amended).  For every state that is not game-over and every input record with
only soft-drop set: when the piece one row lower is inside the grid on cells holding 0,
the call leaves the piece one row lower and the score exactly 1 higher, provided the new
score is a value of `int`, with grid, line count, next piece and bag unchanged; otherwise
the call is exactly `LockBlock`, without a soft-drop point: when the piece is inside a
20 x 10 grid, the rows cleared being `n`, the score grows by the line-clear table entry
for `n` at the level before the lock and by nothing else, provided the new score is a
value of `int`. -/
theorem soft_drop (R : Rng σ) (g : Game σ) (input : InputState) (now : Int)
    (h : g.gameOver = false) (hl : input.left = false) (hr : input.right = false)
    (hro : input.rotate = false) (hd : input.down = true) :
    (cellsFree g.grid (g.currentBlock.Move 1 0) →
      ∃ g1, HandleInput R g input now = some g1
        ∧ (IsInt32 (g.score + 1) → g1.score = g.score + 1)
        ∧ g1.currentBlock = g.currentBlock.Move 1 0
        ∧ g1.grid = g.grid ∧ g1.totalLinesCleared = g.totalLinesCleared
        ∧ g1.nextBlock = g.nextBlock ∧ g1.blocks = g.blocks ∧ g1.gameOver = false)
    ∧ (¬ cellsFree g.grid (g.currentBlock.Move 1 0) →
      HandleInput R g input now = LockBlock R g)
    ∧ (¬ cellsFree g.grid (g.currentBlock.Move 1 0) → g.grid.WF →
      IsBlockOutside g.currentBlock = false →
      ∃ (n : Nat) (grid1 : Grid) (g1 : Game σ),
        lockTiles g.currentBlock.id g.currentBlock.GetCellPositions g.grid g.gameOver
          = some (grid1, false)
        ∧ ClearFullRows grid1 = some (n, g1.grid)
        ∧ HandleInput R g input now = some g1
        ∧ (IsInt32 (g.score + lineScore n g.level) →
            g1.score = g.score + lineScore n g.level)
        ∧ g1.totalLinesCleared = g.totalLinesCleared + n) := by
  obtain ⟨hmove, hlock⟩ := soft_drop_cases R g input now h hl hr hro hd
  refine ⟨?_, hlock, ?_⟩
  · intro hc
    refine ⟨_, hmove hc, ?_, rfl, rfl, ?_, rfl, rfl, h⟩
    · intro hin
      rw [UpdateScore_drop]
      exact wrapInt32_of_IsInt32 _ hin
    · simp [UpdateScore]
  · intro hc hwf hin
    have hinside := IsBlockOutside_false _ hin
    obtain ⟨grid1, e1, wf1, -⟩ := lockTiles_spec g.currentBlock.id
      g.currentBlock.GetCellPositions g.grid g.gameOver hwf (fun t ht _ => (hinside t ht).2)
    have hany : g.currentBlock.GetCellPositions.any (fun t => decide (t.row < 0)) = false := by
      rw [List.any_eq_false]
      intro t ht
      have := (hinside t ht).1
      simpa using this
    have hov : (g.gameOver || g.currentBlock.GetCellPositions.any (fun t => decide (t.row < 0)))
        = false := by rw [h, hany]; rfl
    rw [hov] at e1
    have hclear := ClearFullRows_eq grid1 wf1
    refine ⟨_, grid1, _, e1, hclear, (hlock hc).trans (LockBlock_promote R g grid1 _ _ e1 hclear),
      ?_, rfl⟩
    intro hrange
    rw [UpdateScore_score]
    exact wrapInt32_of_IsInt32 _ hrange

/-- C13 (amended) at `samplePlay`, where the piece moves down, and at `sampleLock`, where
the piece rests on the floor and the lock clears one row. -/
theorem soft_drop_witness :
    (samplePlay.gameOver = false ∧ cellsFree samplePlay.grid (samplePlay.currentBlock.Move 1 0)
      ∧ IsInt32 (samplePlay.score + 1)
      ∧ ∃ g1, HandleInput sampleRng samplePlay downInput 0 = some g1
          ∧ g1.score = samplePlay.score + 1)
    ∧ (sampleLock.gameOver = false
      ∧ ¬ cellsFree sampleLock.grid (sampleLock.currentBlock.Move 1 0)
      ∧ sampleLock.grid.WF ∧ IsBlockOutside sampleLock.currentBlock = false
      ∧ HandleInput sampleRng sampleLock downInput 0 = LockBlock sampleRng sampleLock) :=
  have h1 := soft_drop sampleRng samplePlay downInput 0 rfl rfl rfl rfl rfl
  have h2 := soft_drop sampleRng sampleLock downInput 0 rfl rfl rfl rfl rfl
  have hin : IsInt32 (samplePlay.score + 1) := by decide
  ⟨⟨rfl, by decide, hin, (h1.1 (by decide)).elim fun g1 hg => ⟨g1, hg.1, hg.2.1 hin⟩⟩,
    ⟨rfl, by decide, by decide, by decide, h2.2.1 (by decide)⟩⟩

/-! ## Fall interval and validity predicates (C15, C16) -/

theorem bitLength_zero (fuel : Nat) : bitLength fuel 0 = 0 := by
  cases fuel <;> simp [bitLength]

theorem bitLength_spec :
    ∀ (fuel n : Nat), n ≤ fuel →
      n < 2 ^ bitLength fuel n ∧ (n ≠ 0 → 2 ^ (bitLength fuel n - 1) ≤ n) := by
  intro fuel
  induction fuel with
  | zero =>
    intro n h
    have : n = 0 := by omega
    subst this
    simp [bitLength]
  | succ fuel ih =>
    intro n h
    by_cases h0 : n = 0
    · subst h0
      simp [bitLength]
    · simp only [bitLength, h0, if_false]
      obtain ⟨h1, h2⟩ := ih (n / 2) (by omega)
      constructor
      · rw [Nat.pow_succ]
        omega
      · intro _
        rw [Nat.add_sub_cancel]
        by_cases h3 : n / 2 = 0
        · rw [h3, bitLength_zero]
          simp
          omega
        · have h4 := h2 h3
          have hb : bitLength fuel (n / 2) ≠ 0 := by
            intro hb
            rw [hb] at h1
            simp at h1
            exact h3 h1
          have e : bitLength fuel (n / 2) = (bitLength fuel (n / 2) - 1) + 1 := by omega
          rw [e, Nat.pow_succ]
          omega

theorem round53_nonpos (N : Int) (h : N ≤ 0) : round53 N ≤ 0 := by
  unfold round53
  simp only
  split
  · exact h
  · split
    · rename_i hk h0
      have : N = 0 := by omega
      subst this
      exact absurd (by decide) hk
    · omega

theorem round53_small (N : Int) (h : N.natAbs < 2 ^ 53) : round53 N = N := by
  unfold round53
  simp only
  rw [if_pos]
  by_cases h0 : N.natAbs = 0
  · rw [h0]; decide
  · have h2 := (bitLength_spec N.natAbs N.natAbs (Nat.le_refl _)).2 h0
    by_contra hk
    have h3 : 2 ^ 53 ≤ 2 ^ (bitLength N.natAbs N.natAbs - 1) :=
      Nat.pow_le_pow_right (by decide) (by omega)
    omega

theorem round53_lower (N : Int) (h : 0 ≤ N) :
    N * (2 ^ 52 - 1) ≤ round53 N * 2 ^ 52 := by
  unfold round53
  simp only
  split
  · omega
  · rename_i hk
    have ha0 : N.natAbs ≠ 0 := by
      intro h0
      rw [h0] at hk
      exact hk (by decide)
    have hN : (N.natAbs : Int) = N := Int.natAbs_of_nonneg h
    have hspec := (bitLength_spec N.natAbs N.natAbs (Nat.le_refl _)).2 ha0
    generalize hs : bitLength N.natAbs N.natAbs - 53 = s at *
    have hpow : 2 ^ s * 2 ^ 52 ≤ N.natAbs := by
      have h2 : bitLength N.natAbs N.natAbs - 1 = s + 52 := by omega
      rw [h2, Nat.pow_add] at hspec
      exact hspec
    have hdiv := Nat.div_add_mod' N.natAbs (2 ^ s)
    have hmod : N.natAbs % 2 ^ s < 2 ^ s := Nat.mod_lt _ (Nat.two_pow_pos s)
    have hm : N.natAbs / 2 ^ s ≤ (if 2 * (N.natAbs % 2 ^ s) < 2 ^ s then N.natAbs / 2 ^ s
        else if 2 ^ s < 2 * (N.natAbs % 2 ^ s) then N.natAbs / 2 ^ s + 1
        else if N.natAbs / 2 ^ s % 2 = 0 then N.natAbs / 2 ^ s else N.natAbs / 2 ^ s + 1) := by
      split
      · exact Nat.le_refl _
      · split
        · omega
        · split <;> omega
    have hmul := Nat.mul_le_mul_right (2 ^ s) hm
    have key : N.natAbs * (2 ^ 52 - 1) ≤ (if 2 * (N.natAbs % 2 ^ s) < 2 ^ s then N.natAbs / 2 ^ s
        else if 2 ^ s < 2 * (N.natAbs % 2 ^ s) then N.natAbs / 2 ^ s + 1
        else if N.natAbs / 2 ^ s % 2 = 0 then N.natAbs / 2 ^ s else N.natAbs / 2 ^ s + 1)
          * 2 ^ s * 2 ^ 52 := by
      generalize (if 2 * (N.natAbs % 2 ^ s) < 2 ^ s then N.natAbs / 2 ^ s
        else if 2 ^ s < 2 * (N.natAbs % 2 ^ s) then N.natAbs / 2 ^ s + 1
        else if N.natAbs / 2 ^ s % 2 = 0 then N.natAbs / 2 ^ s else N.natAbs / 2 ^ s + 1) * 2 ^ s
        = X at hmul ⊢
      generalize N.natAbs / 2 ^ s * 2 ^ s = QP at hdiv hmul
      generalize N.natAbs % 2 ^ s = r at hdiv hmod
      generalize (2 : Nat) ^ s = P at hpow hmod
      omega
    have key2 : ((N.natAbs * (2 ^ 52 - 1) : Nat) : Int) ≤ ((_ * 2 ^ 52 : Nat) : Int) :=
      Int.ofNat_le.mpr key
    have e1 : ((N.natAbs * (2 ^ 52 - 1) : Nat) : Int) = N * (2 ^ 52 - 1) := by
      rw [Int.natCast_mul, hN]
      rfl
    rw [e1, Int.natCast_mul] at key2
    exact key2

/-- From level 12 on the interval is the literal 0.05. -/
theorem speedUnits_floor (fused : Bool) (level : Int) (h : 12 ≤ level) :
    speedUnits fused level = lit005 := by
  unfold speedUnits
  apply max_eq_left
  cases fused
  · simp only [Bool.false_eq_true, if_false]
    have hlow := round53_lower ((level - 1) * lit007) (by unfold lit007; omega)
    by_cases hx : lit08 - round53 ((level - 1) * lit007) ≤ 0
    · exact le_trans (round53_nonpos _ hx) (by decide)
    · have hsmall : (lit08 - round53 ((level - 1) * lit007)).natAbs < 2 ^ 53 := by
        unfold lit08 lit007 at *
        omega
      rw [round53_small _ hsmall]
      unfold lit08 lit007 lit005 at *
      omega
  · simp only [if_true]
    by_cases hx : lit08 - (level - 1) * lit007 ≤ 0
    · exact le_trans (round53_nonpos _ hx) (by decide)
    · have hsmall : (lit08 - (level - 1) * lit007).natAbs < 2 ^ 53 := by
        unfold lit08 lit007 at *
        omega
      rw [round53_small _ hsmall]
      unfold lit08 lit007 lit005 at *
      omega

theorem speedUnits_low (fused : Bool) (level : Int) (h1 : 1 ≤ level) (h2 : level < 12) :
    ∃ n : Nat, n < 11 ∧ level = (n : Int) + 1
      ∧ speedUnits fused level = (speedTable fused).getD n 0 := by
  refine ⟨(level - 1).toNat, by omega, by omega, ?_⟩
  cases fused <;> interval_cases level <;> decide

theorem speedTable_sorted (fused : Bool) (m n : Nat) (hmn : m ≤ n) (hn : n < 11) :
    (speedTable fused).getD n 0 ≤ (speedTable fused).getD m 0 := by
  cases fused <;> interval_cases n <;> interval_cases m <;> decide

theorem speedUnits_antitone (fused : Bool) (a b : Int) (h1 : 1 ≤ a) (h : a ≤ b) :
    speedUnits fused b ≤ speedUnits fused a := by
  by_cases hb : 12 ≤ b
  · rw [speedUnits_floor fused b hb]
    exact le_max_left _ _
  · obtain ⟨m, -, em, vm⟩ := speedUnits_low fused a h1 (by omega)
    obtain ⟨n, hn, en, vn⟩ := speedUnits_low fused b (by omega) (by omega)
    rw [vm, vn]
    exact speedTable_sorted fused m n (by omega) hn

theorem speedTable_near (fused : Bool) (n : Nat) (hn : n < 11) :
    |((speedTable fused).getD n 0 : ℚ) / 2 ^ 56 - max (1 / 20) (4 / 5 - 7 * (n : ℚ) / 100)|
      ≤ 1 / 2 ^ 53 := by
  cases fused <;> interval_cases n <;>
    (simp only [speedTable, List.getD_cons_zero, List.getD_cons_succ, Bool.false_eq_true,
      if_false, if_true]
     rw [abs_le]; constructor <;> norm_num)

theorem GetSpeed_near (fused : Bool) (g : Game σ) (h1 : 1 ≤ g.level) :
    |GetSpeed fused g - max (1 / 20) (4 / 5 - 7 * ((g.level : ℚ) - 1) / 100)|
      ≤ 1 / 2 ^ 53 := by
  unfold GetSpeed
  by_cases hb : 12 ≤ g.level
  · rw [speedUnits_floor _ _ hb]
    have : (12 : ℚ) ≤ (g.level : ℚ) := by exact_mod_cast hb
    rw [max_eq_left (by linarith)]
    rw [abs_le]
    unfold lit005
    constructor <;> norm_num
  · obtain ⟨n, hn, en, vn⟩ := speedUnits_low fused g.level h1 (by omega)
    have e : (g.level : ℚ) - 1 = (n : ℚ) := by rw [en]; push_cast; ring
    rw [vn, e]
    exact speedTable_near fused n hn

/-- The three literals of `GetSpeed` are numbers of 53 bits and lie within less than half
a unit of the last place of the decimals they are written as. -/
theorem double_literals :
    round53 lit005 = lit005 ∧ round53 lit007 = lit007 ∧ round53 lit08 = lit08
    ∧ |(lit005 : ℚ) / 2 ^ 56 - 1 / 20| < 1 / 2 ^ 58
    ∧ |(lit007 : ℚ) / 2 ^ 56 - 7 / 100| < 1 / 2 ^ 57
    ∧ |(lit08 : ℚ) / 2 ^ 56 - 4 / 5| < 1 / 2 ^ 54 := by
  refine ⟨by decide, by decide, by decide, ?_, ?_, ?_⟩ <;>
  (simp only [lit005, lit007, lit08]; rw [abs_lt]; constructor <;> norm_num)

/-- C15 as stated fails at level 11: there `GetSpeed`, with either way of rounding,
returns the `double` `900719925474099 / 2^53` (printed 0.09999999999999998), which is
neither the rational `max(1/20, 4/5 - 7 * 10 / 100) = 1/10` nor the `double` nearest to
it, `3602879701896397 / 2^55`. -/
theorem fall_interval_counterexample :
    ({ samplePlay with level := 11 } : Game Nat).level = 11
    ∧ GetSpeed false { samplePlay with level := 11 } = 900719925474099 / 9007199254740992
    ∧ GetSpeed true { samplePlay with level := 11 } = 900719925474099 / 9007199254740992
    ∧ max (1 / 20) (4 / 5 - 7 * ((11 : ℚ) - 1) / 100) = 1 / 10
    ∧ (900719925474099 / 9007199254740992 : ℚ) ≠ 1 / 10
    ∧ (900719925474099 / 9007199254740992 : ℚ) ≠ 3602879701896397 / 36028797018963968 := by
  have e : ∀ fused : Bool, GetSpeed fused { samplePlay with level := 11 }
      = 900719925474099 / 9007199254740992 := by
    intro fused
    unfold GetSpeed
    rw [show speedUnits fused ({ samplePlay with level := 11 } : Game Nat).level
      = 7205759403792792 by cases fused <;> decide]
    norm_num
  refine ⟨rfl, e false, e true, ?_, ?_, ?_⟩ <;> norm_num

/-- C15 (amended).  For every level `>= 1` and either way of rounding, `GetSpeed` returns
a `double` within `2^-53` of `max(1/20, 4/5 - 7 * (level - 1) / 100)`; it depends on the
level only, equals the `double` `0.8` (`3602879701896397 / 2^52`) at level 1, does not
increase when the level grows, and equals the `double` `0.05`
(`3602879701896397 / 2^56`) for every level `>= 12`. -/
theorem fall_interval (fused : Bool) (g : Game σ) (h1 : 1 ≤ g.level) :
    |GetSpeed fused g - max (1 / 20) (4 / 5 - 7 * ((g.level : ℚ) - 1) / 100)| ≤ 1 / 2 ^ 53
    ∧ (∀ g2 : Game σ, g2.level = g.level → GetSpeed fused g2 = GetSpeed fused g)
    ∧ (g.level = 1 → GetSpeed fused g = 3602879701896397 / 4503599627370496)
    ∧ (∀ g2 : Game σ, g.level ≤ g2.level → GetSpeed fused g2 ≤ GetSpeed fused g)
    ∧ (12 ≤ g.level → GetSpeed fused g = 3602879701896397 / 72057594037927936) := by
  refine ⟨GetSpeed_near fused g h1, ?_, ?_, ?_, ?_⟩
  · intro g2 h
    unfold GetSpeed
    rw [h]
  · intro h
    unfold GetSpeed
    rw [h, show speedUnits fused 1 = 57646075230342352 by cases fused <;> decide]
    norm_num
  · intro g2 h
    unfold GetSpeed
    have := speedUnits_antitone fused g.level g2.level h1 h
    have h3 : (speedUnits fused g2.level : ℚ) ≤ (speedUnits fused g.level : ℚ) := by
      exact_mod_cast this
    exact div_le_div_of_nonneg_right h3 (by norm_num)
  · intro h
    unfold GetSpeed
    rw [speedUnits_floor _ _ h]
    unfold lit005
    norm_num

/-- C15 (amended) at `sampleOver` (level 3) and at a copy of it at level 12. -/
theorem fall_interval_witness :
    (1 ≤ sampleOver.level
      ∧ |GetSpeed false sampleOver
            - max (1 / 20) (4 / 5 - 7 * ((sampleOver.level : ℚ) - 1) / 100)| ≤ 1 / 2 ^ 53)
    ∧ GetSpeed true { sampleOver with level := 12 } = 3602879701896397 / 72057594037927936 :=
  ⟨⟨by decide, (fall_interval false sampleOver (by decide)).1⟩,
    (fall_interval true { sampleOver with level := 12 } (by decide)).2.2.2.2 (by decide)⟩

theorem IsCellOutside_iff (row column : Int) :
    IsCellOutside row column = false
      ↔ 0 ≤ row ∧ row < 20 ∧ 0 ≤ column ∧ column < 10 := by
  unfold IsCellOutside numRows numColums
  constructor
  · intro h
    split at h
    · rename_i hc; exact ⟨hc.1, by exact_mod_cast hc.2.1, hc.2.2.1, by exact_mod_cast hc.2.2.2⟩
    · cases h
  · intro h
    rw [if_pos ⟨h.1, by exact_mod_cast h.2.1, h.2.2.1, by exact_mod_cast h.2.2.2⟩]

theorem IsCellEmpty_iff (g : Grid) (row column : Int) :
    IsCellEmpty g row column = true
      ↔ 0 ≤ column ∧ column < 10 ∧ row < 20
          ∧ (row < 0 ∨ cellAt g row.toNat column.toNat = 0) := by
  unfold IsCellEmpty numRows numColums
  simp only [Nat.cast_ofNat]
  split
  · rename_i hc; constructor
    · intro h; cases h
    · intro h; omega
  · split
    · constructor
      · intro h; cases h
      · intro h; omega
    · split
      · rename_i h1 h2 h3
        constructor
        · intro _; exact ⟨by omega, by omega, by omega, Or.inl h3⟩
        · intro _; rfl
      · rename_i h1 h2 h3
        constructor
        · intro h; exact ⟨by omega, by omega, by omega, Or.inr (by simpa using h)⟩
        · intro h
          rcases h.2.2.2 with h4 | h4
          · omega
          · simpa using h4

theorem IsCellEmptyChecked_eq (g : Grid) (row column : Int) :
    IsCellEmptyChecked g row column = some (IsCellEmpty g row column) := by
  unfold IsCellEmptyChecked IsCellEmpty
  split
  · rfl
  · split
    · rfl
    · split
      · rfl
      · rw [if_pos (by omega)]

theorem IsCellEmpty_frame (g g2 : Grid) (row column : Int)
    (h : ∀ r c : Nat, r < numRows → c < numColums → cellAt g r c = cellAt g2 r c) :
    IsCellEmpty g row column = IsCellEmpty g2 row column := by
  unfold IsCellEmpty
  split
  · rfl
  · split
    · rfl
    · split
      · rfl
      · rw [h _ _ (by omega) (by omega)]

/-- C16 (validity predicates).  For all integers `row`, `column` and every grid:
`IsCellOutside` is false iff `0 <= row < 20` and `0 <= column < 10`; `IsCellEmpty` is
true iff `0 <= column < 10`, `row < 20` and (`row < 0` or the cell holds 0).  Neither
reads the grid outside its bounds: `IsCellOutside` takes no grid, the version of
`IsCellEmpty` with its read checked never fails and returns the same value, and that
value is the same on two grids that agree on the 20 x 10 cells. -/
theorem validity_predicates (g : Grid) (row column : Int) :
    (IsCellOutside row column = false
      ↔ 0 ≤ row ∧ row < 20 ∧ 0 ≤ column ∧ column < 10)
    ∧ (IsCellEmpty g row column = true
      ↔ 0 ≤ column ∧ column < 10 ∧ row < 20
          ∧ (row < 0 ∨ cellAt g row.toNat column.toNat = 0))
    ∧ IsCellEmptyChecked g row column = some (IsCellEmpty g row column)
    ∧ (∀ g2 : Grid,
        (∀ r c : Nat, r < numRows → c < numColums → cellAt g r c = cellAt g2 r c) →
        IsCellEmpty g row column = IsCellEmpty g2 row column) :=
  ⟨IsCellOutside_iff row column, IsCellEmpty_iff g row column,
    IsCellEmptyChecked_eq g row column, fun g2 h => IsCellEmpty_frame g g2 row column h⟩

/-- C16 at the cell (19, 4) of the grid of `sampleLock`, which holds 7, and at the cell
(-1, 4) above the grid. -/
theorem validity_predicates_witness :
    IsCellOutside 19 4 = false ∧ IsCellEmpty sampleLock.grid 19 4 = false
    ∧ IsCellOutside (-1) 4 = true ∧ IsCellEmpty sampleLock.grid (-1) 4 = true
    ∧ IsCellEmptyChecked sampleLock.grid 19 4 = some false :=
  ⟨(validity_predicates sampleLock.grid 19 4).1.mpr (by decide), by decide, by decide,
    (validity_predicates sampleLock.grid (-1) 4).2.1.mpr (by decide),
    (validity_predicates sampleLock.grid 19 4).2.2.1.trans (by decide)⟩

/-! ## The level law (C14) -/

theorem LevelLaw_of_fields (g g1 : Game σ) (h : LevelLaw g)
    (h1 : g1.totalLinesCleared = g.totalLinesCleared) (h2 : g1.level = g.level) :
    LevelLaw g1 := by
  unfold LevelLaw at *
  rw [h1, h2]; exact h

theorem LevelLaw_Reset (R : Rng σ) (g : Game σ) (seed now : Int) :
    LevelLaw (Reset R g seed now) :=
  ⟨le_refl _, rfl⟩

theorem LevelLaw_UpdateScore (g : Game σ) (n : Nat) (p : Int)
    (h : 0 ≤ g.totalLinesCleared) : LevelLaw (UpdateScore g n p) := by
  refine ⟨?_, rfl⟩
  show 0 ≤ g.totalLinesCleared + (n : Int)
  omega

theorem LevelLaw_MoveBlockLeft (g : Game σ) (h : LevelLaw g) : LevelLaw (MoveBlockLeft g) := by
  apply LevelLaw_of_fields g _ h <;>
    (unfold MoveBlockLeft; split <;> [skip; rfl]; simp only; split <;> rfl)

theorem LevelLaw_MoveBlockRight (g : Game σ) (h : LevelLaw g) :
    LevelLaw (MoveBlockRight g) := by
  apply LevelLaw_of_fields g _ h <;>
    (unfold MoveBlockRight; split <;> [skip; rfl]; simp only; split <;> rfl)

theorem LevelLaw_RotateBlock (g : Game σ) (h : LevelLaw g) : LevelLaw (RotateBlock g) := by
  apply LevelLaw_of_fields g _ h <;>
    (unfold RotateBlock; split <;> [skip; rfl]; simp only; split <;> rfl)

theorem LevelLaw_LockBlock (R : Rng σ) (g g1 : Game σ) (h : LevelLaw g)
    (e : LockBlock R g = some g1) : LevelLaw g1 := by
  cases h1 : lockTiles g.currentBlock.id g.currentBlock.GetCellPositions g.grid g.gameOver with
  | none => simp [LockBlock, h1] at e
  | some p =>
    obtain ⟨grid1, over1⟩ := p
    cases over1 with
    | true =>
      rw [LockBlock_overflow R g grid1 h1] at e
      injection e with e
      rw [← e]; exact h
    | false =>
      cases h2 : ClearFullRows grid1 with
      | none =>
        simp only [LockBlock, h1, Option.some_bind, Option.bind_eq_bind, Bool.not_false,
          if_true] at e
        cases hf : BlockFits grid1 g.nextBlock <;> simp [GetRandomBlock, hf, h2] at e
      | some q =>
        obtain ⟨k, grid2⟩ := q
        rw [LockBlock_promote R g grid1 grid2 k h1 h2] at e
        injection e with e
        rw [← e]
        exact LevelLaw_UpdateScore _ k 0 h.1

theorem LevelLaw_MoveBlockDown (R : Rng σ) (g g1 : Game σ) (b : Bool) (h : LevelLaw g)
    (e : MoveBlockDown R g = some (b, g1)) :
    LevelLaw g1 ∧ (b = true → g1.totalLinesCleared = g.totalLinesCleared) := by
  rcases Bool.eq_false_or_eq_true g.gameOver with hg | hg
  · rw [MoveBlockDown_over R g hg] at e
    injection e with e
    injection e with eb eg
    rw [← eg, ← eb]
    exact ⟨h, fun hb => absurd hb (by decide)⟩
  · by_cases hc : cellsFree g.grid (g.currentBlock.Move 1 0)
    · have hcond := (cellsFree_iff _ _).mp hc
      rw [Bool.or_eq_false_iff] at hcond
      rw [MoveBlockDown_moved R g hg hcond.1 (by simpa using hcond.2)] at e
      injection e with e
      injection e with eb eg
      rw [← eg]
      exact ⟨h, fun _ => rfl⟩
    · have hcond : IsBlockOutside (g.currentBlock.Move 1 0) = true
          ∨ BlockFits g.grid (g.currentBlock.Move 1 0) = false := by
        by_cases ho : IsBlockOutside (g.currentBlock.Move 1 0) = true
        · exact Or.inl ho
        · right
          by_cases hb : BlockFits g.grid (g.currentBlock.Move 1 0) = false
          · exact hb
          · exfalso
            apply hc
            rw [cellsFree_iff, Bool.or_eq_false_iff]
            exact ⟨by simpa using ho, by simpa using hb⟩
      rw [MoveBlockDown_locks R g hg hcond] at e
      cases hl : LockBlock R g with
      | none => rw [hl] at e; simp at e
      | some g2 =>
        rw [hl] at e
        simp only [Option.map_some'] at e
        injection e with e
        injection e with eb eg
        rw [← eg, ← eb]
        exact ⟨LevelLaw_LockBlock R g g2 h hl, fun hb => absurd hb (by decide)⟩

theorem LevelLaw_HandleInput (R : Rng σ) (g g1 : Game σ) (input : InputState) (now : Int)
    (h : LevelLaw g) (e : HandleInput R g input now = some g1) : LevelLaw g1 := by
  rcases Bool.eq_false_or_eq_true g.gameOver with hg | hg
  · obtain ⟨hno, hre⟩ := HandleInput_over R g input now hg
    rcases Bool.eq_false_or_eq_true input.reset with hr | hr
    · rw [hre hr] at e
      injection e with e
      rw [← e]; exact LevelLaw_Reset R g (-1) now
    · rw [hno hr] at e
      injection e with e
      rw [← e]; exact h
  · have h1 : LevelLaw (if input.left then MoveBlockLeft g else g) := by
      split
      · exact LevelLaw_MoveBlockLeft g h
      · exact h
    have h2 : LevelLaw (if input.right then
        MoveBlockRight (if input.left then MoveBlockLeft g else g)
        else (if input.left then MoveBlockLeft g else g)) := by
      split
      · exact LevelLaw_MoveBlockRight _ h1
      · exact h1
    have h3 : LevelLaw (if input.rotate then RotateBlock
          (if input.right then MoveBlockRight (if input.left then MoveBlockLeft g else g)
            else (if input.left then MoveBlockLeft g else g))
        else (if input.right then MoveBlockRight (if input.left then MoveBlockLeft g else g)
            else (if input.left then MoveBlockLeft g else g))) := by
      split
      · exact LevelLaw_RotateBlock _ h2
      · exact h2
    rcases Bool.eq_false_or_eq_true input.down with hd | hd
    · simp only [HandleInput, hg, hd, if_true, Bool.false_eq_true, if_false] at e
      cases hm : MoveBlockDown R (if input.rotate then RotateBlock
          (if input.right then MoveBlockRight (if input.left then MoveBlockLeft g else g)
            else (if input.left then MoveBlockLeft g else g))
        else (if input.right then MoveBlockRight (if input.left then MoveBlockLeft g else g)
            else (if input.left then MoveBlockLeft g else g))) with
      | none => rw [hm] at e; simp at e
      | some p =>
        obtain ⟨b, g2⟩ := p
        rw [hm] at e
        simp only [Option.some_bind, Option.bind_eq_bind, Option.pure_def] at e
        injection e with e
        have hl := LevelLaw_MoveBlockDown R _ g2 b h3 hm
        rw [← e]
        split
        · exact LevelLaw_UpdateScore g2 0 1 hl.1.1
        · exact hl.1
    · simp only [HandleInput, hg, hd, Bool.false_eq_true, if_false, Option.pure_def] at e
      injection e with e
      rw [← e]; exact h3

theorem LevelLaw_recvInput (R : Rng σ) (g g1 : Game σ) (d : InputState) (now : Int)
    (h : LevelLaw g) (e : recvInput R g d now = some g1) : LevelLaw g1 := by
  unfold recvInput at e
  cases hh : HandleInput R g d now with
  | none => rw [hh] at e; simp at e
  | some g2 =>
    rw [hh] at e
    simp only [Option.some_bind, Option.bind_eq_bind, Option.pure_def] at e
    injection e with e
    rw [← e]
    exact ⟨(LevelLaw_HandleInput R g g2 d now h hh).1, rfl⟩

theorem LevelLaw_Reachable (R : Rng σ) (g : Game σ) (h : Reachable R g) : LevelLaw g := by
  induction h with
  | reset g seed now _ => exact LevelLaw_Reset R g seed now
  | input g g1 input now _ e ih => exact LevelLaw_HandleInput R g g1 input now ih e
  | tick g g1 b _ e ih => exact (LevelLaw_MoveBlockDown R g g1 b ih e).1
  | remoteInput g g1 d now _ e ih => exact LevelLaw_recvInput R g g1 d now ih e

/-- C14 (level law).  In every state reachable from `Reset` by `HandleInput`,
`MoveBlockDown` and the coordinator's handling of inbound Input messages, the line count
is not negative and `level = 1 + floor(totalLinesCleared / 10)`. -/
theorem level_law (R : Rng σ) (g : Game σ) (h : Reachable R g) :
    0 ≤ g.totalLinesCleared
    ∧ g.level = 1 + g.totalLinesCleared / 10
    ∧ g.level = 1 + ⌊(g.totalLinesCleared : ℚ) / 10⌋ := by
  obtain ⟨h0, hl⟩ := LevelLaw_Reachable R g h
  have e : g.level = 1 + g.totalLinesCleared / 10 := by
    rw [hl, Int.tdiv_eq_ediv h0 (by decide)]
  refine ⟨h0, e, ?_⟩
  have := Rat.floor_intCast_div_natCast g.totalLinesCleared 10
  rw [e]
  simp only [Nat.cast_ofNat] at this
  rw [this]

/-- C14 at two reachable states: right after `Reset(42)`, and after the coordinator has
then applied an inbound soft-drop record carrying the score 77. -/
theorem level_law_witness :
    (Reachable sampleRng (Reset sampleRng sampleOver 42 0)
      ∧ (Reset sampleRng sampleOver 42 0).level
          = 1 + (Reset sampleRng sampleOver 42 0).totalLinesCleared / 10)
    ∧ ∃ g1, recvInput sampleRng (Reset sampleRng sampleOver 42 0)
              { downInput with currentScore := 77 } 0 = some g1
        ∧ Reachable sampleRng g1 ∧ g1.score = 77
        ∧ g1.level = 1 + g1.totalLinesCleared / 10 :=
  have h0 : Reachable sampleRng (Reset sampleRng sampleOver 42 0) :=
    Reachable.reset sampleOver 42 0 (by decide)
  have hsome : (recvInput sampleRng (Reset sampleRng sampleOver 42 0)
      { downInput with currentScore := 77 } 0).isSome = true := by decide
  ⟨⟨h0, (level_law sampleRng _ h0).2.1⟩,
    match hr : recvInput sampleRng (Reset sampleRng sampleOver 42 0)
        { downInput with currentScore := 77 } 0, hsome with
    | some g1, _ =>
      have h1 : Reachable sampleRng g1 := Reachable.remoteInput _ g1 _ 0 h0 hr
      ⟨g1, rfl, h1, by
        have hs : (recvInput sampleRng (Reset sampleRng sampleOver 42 0)
            { downInput with currentScore := 77 } 0).map (fun g => g.score) = some 77 := by
          decide
        rw [hr] at hs
        exact Option.some.inj hs, (level_law sampleRng g1 h1).2.1⟩⟩

/-! ## The coordinator: disconnect and requests (C17, C18) -/

theorem handleEvent_disconnect (R : Rng σ) (u : Bool) (s : Session σ) (env : Env) :
    handleEvent R u s Event.disconnect env
      = some { s with net := { s.net with
                isConnected := false, peer := false,
                opponentQuit := s.net.opponentQuit || decide (s.net.role = NetworkRole.SERVER) } } := by
  simp only [handleEvent]
  by_cases hr : s.net.role = NetworkRole.SERVER
  · simp [hr]
  · simp [hr]

theorem handlePacket_quit (R : Rng σ) (u : Bool) (s : Session σ) (p : Packet) (env : Env)
    (hp : p.type = PacketType.PACKET_QUIT) :
    handlePacket R u s p env = some { s with net := { s.net with opponentQuit := true } } := by
  simp only [handlePacket, hp]

/-- C17 as stated fails.  The client `sampleNet` has its restart-pending and its
pause-received flag set; after `Update` has processed a disconnect event both flags are
still set (and `isConnected` is false). -/
theorem disconnect_flags_counterexample :
    (sampleSession.net.restartRequestPending, sampleSession.net.pauseRequestReceived)
      = (true, true)
    ∧ (Update sampleRng true sampleSession [(Event.disconnect, sampleEnv)]).map
        (fun s => (s.net.restartRequestPending, s.net.pauseRequestReceived, s.net.isConnected))
      = some (true, true, false) := by
  decide

/-- C17 (amended).  For every coordinator state, processing a disconnect event leaves
`isConnected = false` and no peer, sets `opponentQuit` when the role is the server, and
changes nothing else: the six handshake flags keep their values, and so do both kernels,
the pause flag and the countdown.  An inbound Quit message only sets `opponentQuit`.
The six flags are cleared, with `isConnected`, by `Stop`. -/
theorem disconnect_effect (R : Rng σ) (u : Bool) (s : Session σ) (env : Env) :
    handleEvent R u s Event.disconnect env
      = some { s with net := { s.net with
                isConnected := false, peer := false,
                opponentQuit := s.net.opponentQuit || decide (s.net.role = NetworkRole.SERVER) } }
    ∧ (∀ p : Packet, p.type = PacketType.PACKET_QUIT →
        handleEvent R u s (Event.receive p) env
          = some { s with net := { s.net with opponentQuit := true } })
    ∧ s.net.Stop.restartRequestReceived = false ∧ s.net.Stop.restartRequestPending = false
    ∧ s.net.Stop.pauseRequestReceived = false ∧ s.net.Stop.pauseRequestPending = false
    ∧ s.net.Stop.resumeRequestReceived = false ∧ s.net.Stop.resumeRequestPending = false
    ∧ s.net.Stop.isConnected = false :=
  ⟨handleEvent_disconnect R u s env, fun p hp => handlePacket_quit R u s p env hp,
    rfl, rfl, rfl, rfl, rfl, rfl, rfl⟩

/-- C17 (amended) at `sampleSession`: a Quit message leaves the flags as they were. -/
theorem disconnect_effect_witness :
    (Packet.bare PacketType.PACKET_QUIT).type = PacketType.PACKET_QUIT
    ∧ handleEvent sampleRng true sampleSession
        (Event.receive (Packet.bare PacketType.PACKET_QUIT)) sampleEnv
      = some { sampleSession with net := { sampleSession.net with opponentQuit := true } } :=
  ⟨rfl, (disconnect_effect sampleRng true sampleSession sampleEnv).2.1 _ rfl⟩

theorem SendRequest_peer (n : NetworkManager) (h : n.peer = true) :
    n.SendRequest PacketType.PACKET_RESTART_REQ
        = { n with sent := n.sent ++ [Packet.bare PacketType.PACKET_RESTART_REQ],
                   restartRequestPending := true }
    ∧ n.SendRequest PacketType.PACKET_PAUSE_REQ
        = { n with sent := n.sent ++ [Packet.bare PacketType.PACKET_PAUSE_REQ],
                   pauseRequestPending := true }
    ∧ n.SendRequest PacketType.PACKET_RESUME_REQ
        = { n with sent := n.sent ++ [Packet.bare PacketType.PACKET_RESUME_REQ],
                   resumeRequestPending := true } := by
  refine ⟨?_, ?_, ?_⟩ <;> simp [NetworkManager.SendRequest, NetworkManager.send, h]

theorem SendRequest_alone (n : NetworkManager) (h : n.peer = false) (type : PacketType) :
    n.SendRequest type = n := by
  simp [NetworkManager.SendRequest, h]

/-- C18 as stated fails.  The coordinator `sampleNetAlone` has no peer;
`SendRequest(PACKET_RESTART_REQ)` returns at once and the restart-pending flag stays
false. -/
theorem request_without_peer_counterexample :
    sampleNetAlone.peer = false
    ∧ (sampleNetAlone.SendRequest PacketType.PACKET_RESTART_REQ).restartRequestPending = false
    ∧ sampleNetAlone.SendRequest PacketType.PACKET_RESTART_REQ = sampleNetAlone := by
  decide

/-- C18 (amended).  For every coordinator state with a peer and every request kind in
{restart, pause, resume}, `SendRequest(kind)` sends the request, sets the matching
pending flag to true and changes nothing else, so no other flag; in a state without a
peer it changes nothing. -/
theorem SendRequest_effect (n : NetworkManager) :
    (n.peer = true →
      n.SendRequest PacketType.PACKET_RESTART_REQ
          = { n with sent := n.sent ++ [Packet.bare PacketType.PACKET_RESTART_REQ],
                     restartRequestPending := true }
      ∧ n.SendRequest PacketType.PACKET_PAUSE_REQ
          = { n with sent := n.sent ++ [Packet.bare PacketType.PACKET_PAUSE_REQ],
                     pauseRequestPending := true }
      ∧ n.SendRequest PacketType.PACKET_RESUME_REQ
          = { n with sent := n.sent ++ [Packet.bare PacketType.PACKET_RESUME_REQ],
                     resumeRequestPending := true })
    ∧ (n.peer = false → ∀ type : PacketType, n.SendRequest type = n) :=
  ⟨SendRequest_peer n, SendRequest_alone n⟩

/-- C18 (amended) at `sampleNet`, which has a peer, and at `sampleNetAlone`. -/
theorem SendRequest_effect_witness :
    (sampleNet.peer = true
      ∧ (sampleNet.SendRequest PacketType.PACKET_PAUSE_REQ).pauseRequestPending = true)
    ∧ (sampleNetAlone.peer = false
      ∧ sampleNetAlone.SendRequest PacketType.PACKET_PAUSE_REQ = sampleNetAlone) :=
  ⟨⟨rfl, by rw [((SendRequest_effect sampleNet).1 rfl).2.1]⟩,
    ⟨rfl, (SendRequest_effect sampleNetAlone).2 rfl _⟩⟩

/-! ## The coordinator: the handshake (C19, C20) -/

theorem handleEvent_receive (R : Rng σ) (u : Bool) (s : Session σ) (p : Packet) (env : Env) :
    handleEvent R u s (Event.receive p) env = handlePacket R u s p env := rfl

theorem handlePacket_restart_res (R : Rng σ) (u : Bool) (s : Session σ) (a : Bool)
    (env : Env) :
    handlePacket R u s (Packet.response PacketType.PACKET_RESTART_RES a) env
      = some (if a then
          ResetSyncState
            (if s.net.role = NetworkRole.SERVER then
              serverSeeds R u { s with net := { s.net with restartRequestPending := false } } env
            else
              { s with net := { s.net with restartRequestPending := false },
                       localGame := Reset R s.localGame (-1) (env.time 1),
                       remoteGame := Reset R s.remoteGame (-1) (env.time 2) }) env
        else { s with net := { s.net with restartRequestPending := false } }) := by
  cases a <;> simp [handlePacket, Packet.type]

theorem handlePacket_pause_res (R : Rng σ) (u : Bool) (s : Session σ) (a : Bool)
    (env : Env) :
    handlePacket R u s (Packet.response PacketType.PACKET_PAUSE_RES a) env
      = some (if a then
          { s with net := { s.net with pauseRequestPending := false }, isPausedGame := true }
        else { s with net := { s.net with pauseRequestPending := false } }) := by
  cases a <;> simp [handlePacket, Packet.type]

theorem handlePacket_resume_res (R : Rng σ) (u : Bool) (s : Session σ) (a : Bool)
    (env : Env) :
    handlePacket R u s (Packet.response PacketType.PACKET_RESUME_RES a) env
      = some (if a then
          ResetSyncState { s with net := { s.net with resumeRequestPending := false } } env
        else { s with net := { s.net with resumeRequestPending := false } }) := by
  cases a <;> simp [handlePacket, Packet.type]

/-- C19 (handshake response).  For every session, of either role: a Restart, Pause or
Resume Response, accepted or rejected, is processed and leaves that kind's pending flag
cleared; a rejected one clears the flag and changes nothing else.  An accepted
RestartResponse on the server clears the pending flag, draws `s1` from the clock and
`s2 = s1`, or `s1 + 9999` (as `unsigned int`) when the pieces are independent, sends the
pair, calls `Reset(s1)` on the local kernel and `Reset(s2)` on the mirror kernel,
unpauses and sets the countdown to 3.5.  An accepted RestartResponse on a coordinator
that is not the server clears the pending flag, sends nothing, calls `Reset()` on both
kernels (each seeded from its clock), unpauses and sets the countdown to 3.5.  An
accepted PauseResponse clears the pending flag and sets the pause flag; an accepted
ResumeResponse clears the pending flag, unpauses and sets the countdown to 3.5. -/
theorem handshake_response (R : Rng σ) (u : Bool) (s : Session σ) (env : Env) :
    (∀ a : Bool,
      (∃ s1, handleEvent R u s (Event.receive (Packet.response PacketType.PACKET_RESTART_RES a))
          env = some s1 ∧ s1.net.restartRequestPending = false)
      ∧ (∃ s1, handleEvent R u s (Event.receive (Packet.response PacketType.PACKET_PAUSE_RES a))
          env = some s1 ∧ s1.net.pauseRequestPending = false)
      ∧ (∃ s1, handleEvent R u s (Event.receive (Packet.response PacketType.PACKET_RESUME_RES a))
          env = some s1 ∧ s1.net.resumeRequestPending = false))
    ∧ (handleEvent R u s (Event.receive (Packet.response PacketType.PACKET_RESTART_RES false)) env
        = some { s with net := { s.net with restartRequestPending := false } }
      ∧ handleEvent R u s (Event.receive (Packet.response PacketType.PACKET_PAUSE_RES false)) env
        = some { s with net := { s.net with pauseRequestPending := false } }
      ∧ handleEvent R u s (Event.receive (Packet.response PacketType.PACKET_RESUME_RES false)) env
        = some { s with net := { s.net with resumeRequestPending := false } })
    ∧ (s.net.role = NetworkRole.SERVER →
        handleEvent R u s (Event.receive (Packet.response PacketType.PACKET_RESTART_RES true)) env
          = some
            { net := { s.net with
                restartRequestPending := false,
                sent := if s.net.peer then
                    s.net.sent ++ [Packet.seed PacketType.PACKET_SEED (toUInt32 (env.time 0))
                      (if u then toUInt32 (env.time 0)
                       else (toUInt32 (env.time 0) + 9999) % 4294967296)]
                  else s.net.sent },
              localGame := Reset R s.localGame (toInt32 (toUInt32 (env.time 0))) (env.time 1),
              remoteGame := Reset R s.remoteGame
                (toInt32 (if u then toUInt32 (env.time 0)
                          else (toUInt32 (env.time 0) + 9999) % 4294967296)) (env.time 2),
              isPausedGame := false,
              countdownTimer := 35 / 10,
              lastUpdateTime := env.getTime })
    ∧ (s.net.role ≠ NetworkRole.SERVER →
        handleEvent R u s (Event.receive (Packet.response PacketType.PACKET_RESTART_RES true)) env
          = some
            { net := { s.net with restartRequestPending := false },
              localGame := Reset R s.localGame (-1) (env.time 1),
              remoteGame := Reset R s.remoteGame (-1) (env.time 2),
              isPausedGame := false,
              countdownTimer := 35 / 10,
              lastUpdateTime := env.getTime })
    ∧ handleEvent R u s (Event.receive (Packet.response PacketType.PACKET_PAUSE_RES true)) env
        = some { s with net := { s.net with pauseRequestPending := false },
                        isPausedGame := true }
    ∧ handleEvent R u s (Event.receive (Packet.response PacketType.PACKET_RESUME_RES true)) env
        = some { s with net := { s.net with resumeRequestPending := false },
                        isPausedGame := false, countdownTimer := 35 / 10,
                        lastUpdateTime := env.getTime } := by
  refine ⟨?_, ⟨?_, ?_, ?_⟩, ?_, ?_, ?_, ?_⟩
  · intro a
    refine ⟨⟨_, handlePacket_restart_res R u s a env, ?_⟩,
      ⟨_, handlePacket_pause_res R u s a env, ?_⟩,
      ⟨_, handlePacket_resume_res R u s a env, ?_⟩⟩
    · cases a
      · rfl
      · by_cases hrole : s.net.role = NetworkRole.SERVER
        · simp only [if_true, hrole, ResetSyncState, serverSeeds, NetworkManager.SendSeed,
            NetworkManager.send]
          cases hp : s.net.peer <;> simp
        · simp only [if_true, hrole, if_false, ResetSyncState]
    · cases a <;> rfl
    · cases a <;> rfl
  · exact handlePacket_restart_res R u s false env
  · exact handlePacket_pause_res R u s false env
  · exact handlePacket_resume_res R u s false env
  · intro hrole
    rw [handleEvent_receive, handlePacket_restart_res]
    simp only [if_true, hrole, ResetSyncState, serverSeeds, NetworkManager.SendSeed,
      NetworkManager.send]
    cases hp : s.net.peer <;> simp
  · intro hrole
    rw [handleEvent_receive, handlePacket_restart_res]
    simp only [if_true, hrole, if_false, ResetSyncState]
  · exact handlePacket_pause_res R u s true env
  · exact handlePacket_resume_res R u s true env

/-- C19 at `sampleServer` and at the client `sampleSession`: an accepted RestartResponse
clears the pending flag, unpauses and resets both kernels; the server sends the seeds,
the client sends nothing. -/
theorem handshake_response_witness :
    (sampleServer.net.role = NetworkRole.SERVER
    ∧ (sampleServer.net.restartRequestPending, sampleServer.isPausedGame) = (true, true)
    ∧ (handleEvent sampleRng true sampleServer
          (Event.receive (Packet.response PacketType.PACKET_RESTART_RES true)) sampleEnv).map
        (fun s => (s.net.restartRequestPending, s.isPausedGame, s.localGame.score,
          s.net.sent)) = some (false, false, 0, [Packet.seed PacketType.PACKET_SEED 1000 1000]))
    ∧ (sampleSession.net.role ≠ NetworkRole.SERVER
    ∧ (sampleSession.net.restartRequestPending, sampleSession.isPausedGame) = (true, true)
    ∧ (handleEvent sampleRng true sampleSession
          (Event.receive (Packet.response PacketType.PACKET_RESTART_RES true)) sampleEnv).map
        (fun s => (s.net.restartRequestPending, s.isPausedGame, s.localGame.score,
          s.net.sent)) = some (false, false, 0, [])) :=
  ⟨⟨rfl, rfl,
    (congrArg (Option.map (fun s => (s.net.restartRequestPending, s.isPausedGame,
        s.localGame.score, s.net.sent)))
      ((handshake_response sampleRng true sampleServer sampleEnv).2.2.1 rfl)).trans (by decide)⟩,
   ⟨by decide, rfl,
    (congrArg (Option.map (fun s => (s.net.restartRequestPending, s.isPausedGame,
        s.localGame.score, s.net.sent)))
      ((handshake_response sampleRng true sampleSession sampleEnv).2.2.2.1
        (by decide))).trans (by decide)⟩⟩

theorem handlePacket_requests (R : Rng σ) (u : Bool) (s : Session σ) (p : Packet) (env : Env) :
    (p.type = PacketType.PACKET_RESTART_REQ →
      handlePacket R u s p env
        = some { s with net := { s.net with restartRequestReceived := true } })
    ∧ (p.type = PacketType.PACKET_PAUSE_REQ →
      handlePacket R u s p env
        = some { s with net := { s.net with pauseRequestReceived := true } })
    ∧ (p.type = PacketType.PACKET_RESUME_REQ →
      handlePacket R u s p env
        = some { s with net := { s.net with resumeRequestReceived := true } }) := by
  refine ⟨?_, ?_, ?_⟩ <;> intro hp <;> simp only [handlePacket, hp]

theorem SendResponse_eq (n : NetworkManager) (type : PacketType) (accepted : Bool) :
    n.SendResponse type accepted
      = if n.peer then { n with sent := n.sent ++ [Packet.response type accepted] } else n := by
  cases hp : n.peer <;> simp [NetworkManager.SendResponse, NetworkManager.send, hp]

/-- C20 as stated fails.  The coordinator `sampleNet` has received a pause request;
after `SendResponse(PACKET_PAUSE_RES, true)`, and likewise after
`SendResponse(PACKET_PAUSE_RES, false)`, the pause-received flag is still set. -/
theorem response_keeps_flag_counterexample :
    sampleNet.pauseRequestReceived = true
    ∧ (sampleNet.SendResponse PacketType.PACKET_PAUSE_RES true).pauseRequestReceived = true
    ∧ (sampleNet.SendResponse PacketType.PACKET_PAUSE_RES false).pauseRequestReceived = true
    ∧ (sampleNet.SendResponse PacketType.PACKET_PAUSE_RES true).sent
        = [Packet.response PacketType.PACKET_PAUSE_RES true] := by
  decide

/-- C20 (amended).  An inbound Restart, Pause or Resume Request sets exactly the
matching received flag.  A later call `SendResponse(kind, accepted)` sends the Response
when there is a peer and changes no flag, for `accepted = true` and `accepted = false`.
That side returns to Idle in the caller: the statements `main` runs on YES and on NO
call `SendResponse` and then leave all three received flags false. -/
theorem request_received (R : Rng σ) (u : Bool) (s : Session σ) (env : Env) :
    (∀ p : Packet,
      (p.type = PacketType.PACKET_RESTART_REQ →
        handleEvent R u s (Event.receive p) env
          = some { s with net := { s.net with restartRequestReceived := true } })
      ∧ (p.type = PacketType.PACKET_PAUSE_REQ →
        handleEvent R u s (Event.receive p) env
          = some { s with net := { s.net with pauseRequestReceived := true } })
      ∧ (p.type = PacketType.PACKET_RESUME_REQ →
        handleEvent R u s (Event.receive p) env
          = some { s with net := { s.net with resumeRequestReceived := true } }))
    ∧ (∀ (type : PacketType) (accepted : Bool),
        s.net.SendResponse type accepted
          = if s.net.peer then
              { s.net with sent := s.net.sent ++ [Packet.response type accepted] }
            else s.net)
    ∧ ((confirmYes R u s env).net.restartRequestReceived = false
      ∧ (confirmYes R u s env).net.pauseRequestReceived = false
      ∧ (confirmYes R u s env).net.resumeRequestReceived = false)
    ∧ ((confirmNo s).net.restartRequestReceived = false
      ∧ (confirmNo s).net.pauseRequestReceived = false
      ∧ (confirmNo s).net.resumeRequestReceived = false) :=
  ⟨fun p => handlePacket_requests R u s p env, SendResponse_eq s.net,
    ⟨rfl, rfl, rfl⟩, ⟨rfl, rfl, rfl⟩⟩

/-- C20 (amended) at `sampleSession`: an inbound Resume Request sets the resume-received
flag and leaves the pause-received flag set. -/
theorem request_received_witness :
    (Packet.bare PacketType.PACKET_RESUME_REQ).type = PacketType.PACKET_RESUME_REQ
    ∧ (handleEvent sampleRng true sampleSession
          (Event.receive (Packet.bare PacketType.PACKET_RESUME_REQ)) sampleEnv).map
        (fun s => (s.net.restartRequestReceived, s.net.pauseRequestReceived,
          s.net.resumeRequestReceived)) = some (false, true, true) :=
  ⟨rfl,
    (congrArg (Option.map (fun s => (s.net.restartRequestReceived, s.net.pauseRequestReceived,
        s.net.resumeRequestReceived)))
      (((request_received sampleRng true sampleSession sampleEnv).1
        (Packet.bare PacketType.PACKET_RESUME_REQ)).2.2 rfl)).trans
      (by decide)⟩

/-! ## Reachable states keep every call defined -/

theorem Inv_recvInput (R : Rng σ) (g : Game σ) (d : InputState) (now : Int) (h : Inv g) :
    ∃ g1, HandleInput R g d now = some g1 ∧ Inv g1
      ∧ recvInput R g d now
          = some { g1 with score := d.currentScore,
                           level := 1 + Int.tdiv g1.totalLinesCleared 10 } := by
  obtain ⟨g1, e, hinv⟩ := Inv_HandleInput R g d now h
  exact ⟨g1, e, hinv, by simp [recvInput, e]⟩

theorem Inv_Reachable (R : Rng σ) (g : Game σ) (h : Reachable R g) : Inv g := by
  induction h with
  | reset g seed now hwf => exact Inv_Reset R g seed now hwf
  | input g g1 input now _ e ih =>
    obtain ⟨g2, e2, hinv⟩ := Inv_HandleInput R g input now ih
    rw [e] at e2
    injection e2 with e2
    rw [e2]; exact hinv
  | tick g g1 b _ e ih =>
    obtain ⟨b2, g2, e2, hinv⟩ := Inv_MoveBlockDown R g ih
    rw [e] at e2
    injection e2 with e2
    injection e2 with _ e3
    rw [e3]; exact hinv
  | remoteInput g g1 d now _ e ih =>
    obtain ⟨g2, -, hinv, e2⟩ := Inv_recvInput R g d now ih
    rw [e] at e2
    injection e2 with e2
    rw [e2]; exact hinv

/-! ## The coordinator: seeds, ticks and inputs (C21, C22, C23, C24) -/

theorem handlePacket_seed (R : Rng σ) (u : Bool) (s : Session σ) (s1 s2 : Nat) (env : Env) :
    handlePacket R u s (Packet.seed PacketType.PACKET_SEED s1 s2) env
      = some { s with localGame := Reset R s.localGame (toInt32 s2) (env.time 1),
                      remoteGame := Reset R s.remoteGame (toInt32 s1) (env.time 2),
                      isPausedGame := false, countdownTimer := 35 / 10,
                      lastUpdateTime := env.getTime } := rfl

theorem handleEvent_connect_server (R : Rng σ) (u : Bool) (s : Session σ) (env : Env)
    (h : s.net.role = NetworkRole.SERVER) :
    handleEvent R u s Event.connect env
      = some
        { net := { s.net with
            peer := true, isConnected := true, opponentQuit := false,
            sent := s.net.sent ++ [Packet.seed PacketType.PACKET_SEED (toUInt32 (env.time 0))
              (if u then toUInt32 (env.time 0)
               else (toUInt32 (env.time 0) + 9999) % 4294967296)] },
          localGame := Reset R s.localGame (toInt32 (toUInt32 (env.time 0))) (env.time 1),
          remoteGame := Reset R s.remoteGame
            (toInt32 (if u then toUInt32 (env.time 0)
                      else (toUInt32 (env.time 0) + 9999) % 4294967296)) (env.time 2),
          isPausedGame := false,
          countdownTimer := 35 / 10,
          lastUpdateTime := env.getTime } := by
  simp [handleEvent, h, ResetSyncState, serverSeeds, NetworkManager.SendSeed,
    NetworkManager.send]

theorem handlePacket_tick (R : Rng σ) (u : Bool) (s : Session σ) (p : Packet) (env : Env)
    (hp : p.type = PacketType.PACKET_TICK) :
    handlePacket R u s p env
      = if s.net.role = NetworkRole.CLIENT ∧ s.countdownTimer ≤ 0 then
          (MoveBlockDown R s.localGame).bind (fun r1 =>
            (MoveBlockDown R s.remoteGame).bind (fun r2 =>
              some { s with localGame := r1.2, remoteGame := r2.2 }))
        else some s := by
  unfold handlePacket
  rw [hp]
  rfl

theorem handlePacket_input (R : Rng σ) (u : Bool) (s : Session σ) (d : InputState) (env : Env) :
    handlePacket R u s (Packet.input PacketType.PACKET_INPUT d) env
      = (recvInput R s.remoteGame d (env.time 1)).bind
          (fun g1 => some { s with remoteGame := g1 }) := rfl


/-- C21 (seed pairing), where the code breaks it.  A server whose clock call for the seed
returns `-1` (the error value of `time`, and the clock reading `4294967295` as an
`unsigned int`) sends the pair `(4294967295, 4294967295)`; as an `int` this seed is `-1`,
which `Reset` takes as the request to seed from the clock, so each `Reset` seeds from the
clock of its own side instead of using the seed provided.  With the server's clock at
1000 and the follower's at 1001 the server's local kernel holds the pieces 7 and 6, the
follower's mirror kernel the pieces 3 and 6. -/
theorem seed_sentinel_counterexample :
    (handleEvent sampleRng true sampleServer Event.connect
        { time := fun k => if k = 0 then -1 else 1000, getTime := 12 }).map
      (fun a => (a.net.sent, a.localGame.currentBlock.id, a.localGame.nextBlock.id))
      = some ([Packet.seed PacketType.PACKET_SEED 4294967295 4294967295], 7, 6)
    ∧ (handleEvent sampleRng true sampleSession
        (Event.receive (Packet.seed PacketType.PACKET_SEED 4294967295 4294967295))
        { time := fun _ => 1001, getTime := 12 }).map
      (fun f => (f.remoteGame.currentBlock.id, f.remoteGame.nextBlock.id))
      = some (3, 6) := by
  decide

/-- The seed pairing for the seeds that `Reset` uses as given.  For every pair of 32-bit
seeds `(s1, s2)` neither of which is `4294967295`, every follower session and every pair of kernels on the authority's side,
whatever the clocks show: the follower that processes the Seed message `(s1, s2)` is
left with its local kernel in the state `Reset(s2)` gives the authority's mirror kernel
and its mirror kernel in the state `Reset(s1)` gives the authority's local kernel,
unpaused and with the countdown 3.5.  And a server that handles a connection sends the
pair `s1 = (unsigned) time`, `s2 = s1` or `s1 + 9999`, resets its local kernel with
`s1` and its mirror kernel with `s2`, and is unpaused with the countdown 3.5. -/
theorem seed_pairing (R : Rng σ) (u : Bool) (a f : Session σ) (ea ef : Env) (s1 s2 : Nat)
    (h1 : s1 < 4294967296) (h2 : s2 < 4294967296)
    (n1 : s1 ≠ 4294967295) (n2 : s2 ≠ 4294967295)
    (hwf : a.localGame.grid.WF ∧ a.remoteGame.grid.WF
      ∧ f.localGame.grid.WF ∧ f.remoteGame.grid.WF) :
    (∃ f1 : Session σ,
      handleEvent R u f (Event.receive (Packet.seed PacketType.PACKET_SEED s1 s2)) ef = some f1
      ∧ f1.remoteGame = Reset R a.localGame (toInt32 s1) (ea.time 1)
      ∧ f1.localGame = Reset R a.remoteGame (toInt32 s2) (ea.time 2)
      ∧ f1.isPausedGame = false ∧ f1.countdownTimer = 35 / 10)
    ∧ (a.net.role = NetworkRole.SERVER →
        s1 = toUInt32 (ea.time 0) →
        s2 = (if u then s1 else (s1 + 9999) % 4294967296) →
        ∃ a1 : Session σ,
          handleEvent R u a Event.connect ea = some a1
          ∧ a1.net.sent = a.net.sent ++ [Packet.seed PacketType.PACKET_SEED s1 s2]
          ∧ a1.localGame = Reset R a.localGame (toInt32 s1) (ea.time 1)
          ∧ a1.remoteGame = Reset R a.remoteGame (toInt32 s2) (ea.time 2)
          ∧ a1.isPausedGame = false ∧ a1.countdownTimer = 35 / 10) := by
  obtain ⟨w1, w2, w3, w4⟩ := hwf
  constructor
  · refine ⟨_, handlePacket_seed R u f s1 s2 ef, ?_, ?_, rfl, rfl⟩
    · exact Reset_forgets R _ _ w4 w1 _ _ _ (toInt32_ne_sentinel s1 h1 n1)
    · exact Reset_forgets R _ _ w3 w2 _ _ _ (toInt32_ne_sentinel s2 h2 n2)
  · intro hrole e1 e2
    refine ⟨_, handleEvent_connect_server R u a ea hrole, ?_, ?_, ?_, rfl, rfl⟩
    · rw [e2, e1]
    · rw [e1]
    · rw [e2, e1]

/-- The theorem `seed_pairing` at the seeds the server `sampleServer` draws at clock 1000
with independent pieces, `(1000, 10999)`, and the follower `sampleSession`. -/
theorem seed_pairing_witness :
    (sampleServer.localGame.grid.WF ∧ sampleServer.remoteGame.grid.WF
      ∧ sampleSession.localGame.grid.WF ∧ sampleSession.remoteGame.grid.WF)
    ∧ (∃ f1 : Session Nat,
      handleEvent sampleRng false sampleSession
        (Event.receive (Packet.seed PacketType.PACKET_SEED 1000 10999))
        { time := fun _ => 2000, getTime := 3 } = some f1
      ∧ f1.remoteGame = Reset sampleRng sampleServer.localGame (toInt32 1000) (sampleEnv.time 1)
      ∧ f1.localGame = Reset sampleRng sampleServer.remoteGame (toInt32 10999) (sampleEnv.time 2)
      ∧ f1.isPausedGame = false ∧ f1.countdownTimer = 35 / 10)
    ∧ ∃ a1 : Session Nat,
        handleEvent sampleRng false sampleServer Event.connect sampleEnv = some a1
        ∧ a1.net.sent = sampleServer.net.sent ++ [Packet.seed PacketType.PACKET_SEED 1000 10999]
        ∧ a1.localGame = Reset sampleRng sampleServer.localGame (toInt32 1000) (sampleEnv.time 1)
        ∧ a1.remoteGame = Reset sampleRng sampleServer.remoteGame (toInt32 10999) (sampleEnv.time 2)
        ∧ a1.isPausedGame = false ∧ a1.countdownTimer = 35 / 10 :=
  have hwf : sampleServer.localGame.grid.WF ∧ sampleServer.remoteGame.grid.WF
      ∧ sampleSession.localGame.grid.WF ∧ sampleSession.remoteGame.grid.WF := by decide
  have h := seed_pairing sampleRng false sampleServer sampleSession sampleEnv
    { time := fun _ => 2000, getTime := 3 } 1000 10999 (by decide) (by decide) (by decide)
    (by decide) hwf
  ⟨hwf, h.1, h.2 rfl (by decide) (by decide)⟩

/-- C22 (inbound GravityTick).  For every session whose two kernels satisfy the
invariant `Inv`, and every packet with the tag `PACKET_TICK`: if the role is `CLIENT`
and the countdown is `<= 0`, both calls of `MoveBlockDown` return and the session after
the packet is the old one with the local kernel and the mirror kernel each replaced by
the state its `MoveBlockDown` leaves; otherwise (another role, or a countdown `> 0`) the
session after the packet is the old one, kernels and flags included. -/
theorem inbound_tick (R : Rng σ) (u : Bool) (s : Session σ) (p : Packet) (env : Env)
    (hp : p.type = PacketType.PACKET_TICK) (hl : Inv s.localGame) (hr : Inv s.remoteGame) :
    (s.net.role = NetworkRole.CLIENT → s.countdownTimer ≤ 0 →
      ∃ (bl br : Bool) (l r : Game σ),
        MoveBlockDown R s.localGame = some (bl, l)
        ∧ MoveBlockDown R s.remoteGame = some (br, r)
        ∧ handleEvent R u s (Event.receive p) env
            = some { s with localGame := l, remoteGame := r })
    ∧ ((s.net.role ≠ NetworkRole.CLIENT ∨ 0 < s.countdownTimer) →
        handleEvent R u s (Event.receive p) env = some s) := by
  constructor
  · intro hrole hc
    obtain ⟨bl, l, el, -⟩ := Inv_MoveBlockDown R s.localGame hl
    obtain ⟨br, r, er, -⟩ := Inv_MoveBlockDown R s.remoteGame hr
    refine ⟨bl, br, l, r, el, er, ?_⟩
    rw [handleEvent_receive, handlePacket_tick R u s p env hp, if_pos ⟨hrole, hc⟩, el, er]
    rfl
  · intro h
    rw [handleEvent_receive, handlePacket_tick R u s p env hp, if_neg]
    rintro ⟨h1, h2⟩
    rcases h with h | h
    · exact h h1
    · exact absurd h2 (not_le.mpr h)

/-- C22 at the client `sampleSession` (countdown 0): the tick moves the T block of each
kernel from row offset 0 to row offset 1; at the server `sampleServer` nothing changes. -/
theorem inbound_tick_witness :
    ((Packet.bare PacketType.PACKET_TICK).type = PacketType.PACKET_TICK
      ∧ Inv sampleSession.localGame ∧ Inv sampleSession.remoteGame
      ∧ sampleSession.net.role = NetworkRole.CLIENT ∧ sampleSession.countdownTimer ≤ 0)
    ∧ (∃ (bl br : Bool) (l r : Game Nat),
        MoveBlockDown sampleRng sampleSession.localGame = some (bl, l)
        ∧ MoveBlockDown sampleRng sampleSession.remoteGame = some (br, r)
        ∧ handleEvent sampleRng true sampleSession
            (Event.receive (Packet.bare PacketType.PACKET_TICK)) sampleEnv
            = some { sampleSession with localGame := l, remoteGame := r })
    ∧ handleEvent sampleRng true sampleServer
        (Event.receive (Packet.bare PacketType.PACKET_TICK)) sampleEnv = some sampleServer :=
  have hl : Inv sampleSession.localGame :=
    ⟨by decide, by decide, by decide, by decide, by decide⟩
  ⟨⟨rfl, hl, hl, rfl, by decide⟩,
    (inbound_tick sampleRng true sampleSession (Packet.bare PacketType.PACKET_TICK) sampleEnv
      rfl hl hl).1 rfl (by decide),
    (inbound_tick sampleRng true sampleServer (Packet.bare PacketType.PACKET_TICK) sampleEnv
      rfl hl hl).2 (Or.inl (by decide))⟩

theorem NoTickSent_refl (s : Session σ) (h : s.net.role ≠ NetworkRole.SERVER) :
    NoTickSent s s := ⟨h, [], by simp, by simp⟩

theorem NoTickSent_of_eq (s s1 : Session σ) (h : s.net.role ≠ NetworkRole.SERVER)
    (hr : s1.net.role = s.net.role) (hs : s1.net.sent = s.net.sent) : NoTickSent s s1 :=
  ⟨hr ▸ h, [], by simp [hs], by simp⟩

theorem NoTickSent_trans (s s1 s2 : Session σ) (h1 : NoTickSent s s1) (h2 : NoTickSent s1 s2) :
    NoTickSent s s2 := by
  obtain ⟨_, a1, e1, n1⟩ := h1
  obtain ⟨r2, a2, e2, n2⟩ := h2
  refine ⟨r2, a1 ++ a2, by rw [e2, e1, List.append_assoc], ?_⟩
  intro p hp
  rcases List.mem_append.mp hp with h | h
  · exact n1 p h
  · exact n2 p h

theorem handlePacket_quiet (R : Rng σ) (u : Bool) (s s1 : Session σ) (p : Packet) (env : Env)
    (hrole : s.net.role ≠ NetworkRole.SERVER) (h : handlePacket R u s p env = some s1) :
    s1.net.role = s.net.role ∧ s1.net.sent = s.net.sent := by
  unfold handlePacket at h
  split at h
  · split at h
    · simp only [recvInput, Option.bind_eq_bind, Option.pure_def, Option.bind_eq_some] at h
      obtain ⟨g1, _, h⟩ := h
      cases h
      exact ⟨rfl, rfl⟩
    · cases h
  · split at h
    · cases h
      exact ⟨rfl, rfl⟩
    · cases h
  · split at h
    · simp only [Option.bind_eq_bind, Option.pure_def, Option.bind_eq_some] at h
      obtain ⟨r1, _, r2, _, h⟩ := h
      cases h
      exact ⟨rfl, rfl⟩
    · cases h
      exact ⟨rfl, rfl⟩
  · cases h; exact ⟨rfl, rfl⟩
  · cases h; exact ⟨rfl, rfl⟩
  · cases h; exact ⟨rfl, rfl⟩
  · cases h; exact ⟨rfl, rfl⟩
  · cases h; exact ⟨rfl, rfl⟩
  · split at h
    · simp only [hrole, if_false] at h
      split at h <;> cases h <;> exact ⟨rfl, rfl⟩
    · cases h
  · split at h
    · split at h <;> cases h <;> exact ⟨rfl, rfl⟩
    · cases h
  · split at h
    · split at h <;> cases h <;> exact ⟨rfl, rfl⟩
    · cases h

theorem handleEvent_quiet (R : Rng σ) (u : Bool) (s s1 : Session σ) (e : Event) (env : Env)
    (hrole : s.net.role ≠ NetworkRole.SERVER) (h : handleEvent R u s e env = some s1) :
    s1.net.role = s.net.role ∧ s1.net.sent = s.net.sent := by
  cases e with
  | connect =>
    simp only [handleEvent, hrole, if_false] at h
    cases h
    exact ⟨rfl, rfl⟩
  | receive p => exact handlePacket_quiet R u s s1 p env hrole h
  | disconnect =>
    simp only [handleEvent, hrole, if_false] at h
    cases h
    exact ⟨rfl, rfl⟩

theorem foldlM_quiet (R : Rng σ) (u : Bool) (events : List (Event × Env)) :
    ∀ (s s1 : Session σ), s.net.role ≠ NetworkRole.SERVER →
      events.foldlM (fun s1 e => handleEvent R u s1 e.1 e.2) s = some s1 →
      s1.net.role = s.net.role ∧ s1.net.sent = s.net.sent := by
  induction events with
  | nil =>
    intro s s1 _ h
    cases h
    exact ⟨rfl, rfl⟩
  | cons e es ih =>
    intro s s1 hrole h
    simp only [List.foldlM_cons, Option.bind_eq_bind, Option.bind_eq_some] at h
    obtain ⟨s2, h2, h3⟩ := h
    have q := handleEvent_quiet R u s s2 e.1 e.2 hrole h2
    have q2 := ih s2 s1 (q.1 ▸ hrole) h3
    exact ⟨q2.1.trans q.1, q2.2.trans q.2⟩

theorem SendRequest_sent (n : NetworkManager) (type : PacketType) :
    (n.SendRequest type).role = n.role
    ∧ ((n.SendRequest type).sent = n.sent
      ∨ (n.SendRequest type).sent = n.sent ++ [Packet.bare type]) := by
  unfold NetworkManager.SendRequest NetworkManager.send
  cases n.peer
  · exact ⟨rfl, Or.inl rfl⟩
  · simp only [Bool.not_true, Bool.false_eq_true, if_false]
    refine ⟨?_, Or.inr ?_⟩ <;> (split <;> split <;> split <;> rfl)

theorem NoTickSent_request (s : Session σ) (type : PacketType)
    (hrole : s.net.role ≠ NetworkRole.SERVER) (ht : type ≠ PacketType.PACKET_TICK) :
    NoTickSent s { s with net := s.net.SendRequest type } := by
  obtain ⟨hr, hs | hs⟩ := SendRequest_sent s.net type
  · exact NoTickSent_of_eq _ _ hrole hr hs
  · exact ⟨hr ▸ hrole, [Packet.bare type], hs, by simpa [Packet.type] using ht⟩

theorem SendResponse_sent (s : Session σ) (type : PacketType) (a : Bool)
    (ht : type ≠ PacketType.PACKET_TICK) :
    (s.net.SendResponse type a).role = s.net.role
    ∧ ∃ added : List Packet, (s.net.SendResponse type a).sent = s.net.sent ++ added
        ∧ ∀ p ∈ added, p.type ≠ PacketType.PACKET_TICK := by
  unfold NetworkManager.SendResponse NetworkManager.send
  cases s.net.peer
  · exact ⟨rfl, [], by simp, by simp⟩
  · exact ⟨rfl, [_], rfl, by simpa [Packet.type] using ht⟩

theorem runOnlineCall_NoTickSent (R : Rng σ) (u : Bool) (s s1 : Session σ) (c : OnlineCall σ)
    (hrole : s.net.role ≠ NetworkRole.SERVER) (h : runOnlineCall R u s c = some s1) :
    NoTickSent s s1 := by
  cases c with
  | update events =>
    simp only [runOnlineCall, Update] at h
    split at h
    · cases h
      exact NoTickSent_refl s hrole
    · have q := foldlM_quiet R u events s s1 hrole h
      exact NoTickSent_of_eq _ _ hrole q.1 q.2
  | reconnect hostOk peerOk =>
    simp only [runOnlineCall] at h
    split at h
    · cases h
      unfold NetworkManager.StartClient
      cases hostOk <;> cases peerOk <;>
        first
        | exact NoTickSent_of_eq _ _ hrole rfl rfl
        | exact ⟨by simp, [], by simp, by simp⟩
    · cases h
      exact NoTickSent_refl s hrole
  | pauseKey =>
    simp only [runOnlineCall] at h
    cases h
    split
    · exact NoTickSent_request s _ hrole (by decide)
    · exact NoTickSent_request s _ hrole (by decide)
  | restartKey =>
    cases h
    exact NoTickSent_request s _ hrole (by decide)
  | resumeButton =>
    cases h
    exact NoTickSent_request s _ hrole (by decide)
  | input left right down rotate now =>
    simp only [runOnlineCall, Option.bind_eq_bind, Option.pure_def, Option.bind_eq_some] at h
    obtain ⟨g1, _, h⟩ := h
    cases h
    unfold NetworkManager.SendInput NetworkManager.send
    cases s.net.peer
    · exact NoTickSent_of_eq _ _ hrole rfl rfl
    · exact ⟨hrole, [_], rfl, by simp [Packet.type]⟩
  | gravity anyReqActive triggered time =>
    have hb : (s.net.role == NetworkRole.SERVER) = false := by
      simpa using hrole
    simp only [runOnlineCall, hb, Bool.false_and, Bool.false_eq_true, if_false] at h
    cases h
    exact NoTickSent_refl s hrole
  | other localGame remoteGame isPaused countdownTimer lastUpdateTime =>
    cases h
    exact NoTickSent_of_eq _ _ hrole rfl rfl
  | yes env =>
    cases h
    unfold confirmYes
    simp only
    split
    · obtain ⟨hr, added, hs, hn⟩ := SendResponse_sent s PacketType.PACKET_RESTART_RES true
        (by decide)
      have hr2 : ¬ (s.net.SendResponse PacketType.PACKET_RESTART_RES true).role
          = NetworkRole.SERVER := hr ▸ hrole
      simp only [hr2, if_false]
      exact ⟨hr2, added, hs, hn⟩
    · obtain ⟨hr, added, hs, hn⟩ := SendResponse_sent s
        (if s.net.resumeRequestReceived then PacketType.PACKET_RESUME_RES
         else PacketType.PACKET_PAUSE_RES) true (by split <;> decide)
      exact ⟨hr ▸ hrole, added, hs, hn⟩
  | no =>
    cases h
    unfold confirmNo
    obtain ⟨hr, added, hs, hn⟩ := SendResponse_sent s
      (if s.net.restartRequestReceived then PacketType.PACKET_RESTART_RES
       else if s.net.resumeRequestReceived then PacketType.PACKET_RESUME_RES
       else PacketType.PACKET_PAUSE_RES) false (by split <;> [decide; (split <;> decide)])
    exact ⟨hr ▸ hrole, added, hs, hn⟩
  | joinNewGame env =>
    cases h
    exact NoTickSent_of_eq _ _ hrole rfl rfl
  | quit =>
    cases h
    unfold NetworkManager.SendQuit NetworkManager.send NetworkManager.Stop
    cases s.net.peer
    · exact ⟨by simp, [], by simp, by simp⟩
    · exact ⟨by simp, [_], rfl, by simp [Packet.type]⟩
  | stop =>
    cases h
    exact ⟨by simp [NetworkManager.Stop], [], by simp [NetworkManager.Stop], by simp⟩

theorem runOnlineCalls_NoTickSent (R : Rng σ) (u : Bool) (calls : List (OnlineCall σ)) :
    ∀ (s s1 : Session σ), s.net.role ≠ NetworkRole.SERVER →
      runOnlineCalls R u s calls = some s1 → NoTickSent s s1 := by
  induction calls with
  | nil =>
    intro s s1 hrole h
    cases h
    exact NoTickSent_refl s hrole
  | cons c cs ih =>
    intro s s1 hrole h
    simp only [runOnlineCalls, List.foldlM_cons, Option.bind_eq_bind, Option.bind_eq_some] at h
    obtain ⟨s2, h2, h3⟩ := h
    have q := runOnlineCall_NoTickSent R u s s2 c hrole h2
    exact NoTickSent_trans s s2 s1 q (ih s2 s1 q.1 h3)

/-- C23 (authority-only gravity origination).  In every coordinator state whose role is
not `SERVER`, `SendTick` returns the state unchanged: no packet is handed to the
transport and no member changes.  The same holds without a peer.  A server with a peer
sends exactly one packet, the bare tag `PACKET_TICK`, and changes nothing else.  And a
coordinator that is not the server never originates a tick: whatever statements of the
online loop run, in whatever order and with whatever events, keys and clock readings
(`OnlineCall`: `Update`, the reconnection, the three requests, `SendInput`, the gravity
timer, the answers YES and NO, joining a new game, leaving for the menu, and any
statement that leaves the coordinator alone), it stays a coordinator that is not the
server, and the packets it hands to the transport are those it had sent before followed
by packets none of which has the tag `PACKET_TICK`. -/
theorem SendTick_authority_only (R : Rng σ) (u : Bool) (s : Session σ) :
    (s.net.role ≠ NetworkRole.SERVER → s.net.SendTick = s.net)
    ∧ (s.net.peer = false → s.net.SendTick = s.net)
    ∧ (s.net.role = NetworkRole.SERVER → s.net.peer = true →
        s.net.SendTick
          = { s.net with sent := s.net.sent ++ [Packet.bare PacketType.PACKET_TICK] })
    ∧ (s.net.role ≠ NetworkRole.SERVER →
        ∀ (calls : List (OnlineCall σ)) (s1 : Session σ),
          runOnlineCalls R u s calls = some s1 →
          s1.net.role ≠ NetworkRole.SERVER
          ∧ ∃ added : List Packet, s1.net.sent = s.net.sent ++ added
              ∧ ∀ p ∈ added, p.type ≠ PacketType.PACKET_TICK) := by
  refine ⟨?_, ?_, ?_, ?_⟩
  · intro h; simp [NetworkManager.SendTick, h]
  · intro h; simp [NetworkManager.SendTick, h]
  · intro h1 h2; simp [NetworkManager.SendTick, NetworkManager.send, h1, h2]
  · intro hrole calls s1 h
    exact runOnlineCalls_NoTickSent R u calls s s1 hrole h

/-- C23 at the connected client `sampleNet` and at the server `sampleNetAlone`, which
has no peer: `SendTick` changes nothing; at `sampleNet` as a server it sends the tick;
and the client `sampleSession` run through `sampleCalls`, the gravity timer included,
sends a resume request, an input, a response and the quit message, and no tick. -/
theorem SendTick_authority_only_witness :
    (sampleNet.role ≠ NetworkRole.SERVER ∧ sampleNet.peer = true
      ∧ sampleNet.SendTick = sampleNet)
    ∧ (sampleNetAlone.peer = false ∧ sampleNetAlone.SendTick = sampleNetAlone)
    ∧ ({ sampleNet with role := NetworkRole.SERVER } : NetworkManager).SendTick
        = { sampleNet with role := NetworkRole.SERVER,
                           sent := [Packet.bare PacketType.PACKET_TICK] }
    ∧ ((runOnlineCalls sampleRng true sampleSession sampleCalls).map (fun s => s.net.sent)
        = some [Packet.bare PacketType.PACKET_RESUME_REQ,
            Packet.input PacketType.PACKET_INPUT
              { left := true, right := false, down := false, rotate := false, reset := false,
                currentScore := 10 },
            Packet.response PacketType.PACKET_PAUSE_RES true,
            Packet.bare PacketType.PACKET_QUIT]
      ∧ ∀ s1, runOnlineCalls sampleRng true sampleSession sampleCalls = some s1 →
          s1.net.role ≠ NetworkRole.SERVER
          ∧ ∃ added : List Packet, s1.net.sent = sampleSession.net.sent ++ added
              ∧ ∀ p ∈ added, p.type ≠ PacketType.PACKET_TICK) :=
  ⟨⟨by decide, rfl,
      (SendTick_authority_only sampleRng true sampleSession).1 (by decide)⟩,
    ⟨rfl, (SendTick_authority_only sampleRng true
      { sampleSession with net := sampleNetAlone }).2.1 rfl⟩,
    (SendTick_authority_only sampleRng true sampleServer).2.2.1 rfl rfl,
    by decide,
    (SendTick_authority_only sampleRng true sampleSession).2.2.2 (by decide) sampleCalls⟩

/-- C24 (inbound Input message).  For every session whose mirror kernel is in a
reachable state and every input record `i`: `HandleInput(i)` on the mirror kernel
returns a state `g1`, and the session after the packet is the old one with the mirror
kernel replaced by `g1` with its score set to `i.currentScore` and its level set to
`1 + floor(g1.totalLinesCleared / 10)`; grid, pieces, bag, generator, flag and line
count of the mirror kernel are those of `g1`, and nothing else in the session changes. -/
theorem inbound_input (R : Rng σ) (u : Bool) (s : Session σ) (i : InputState) (env : Env)
    (h : Reachable R s.remoteGame) :
    ∃ g1 : Game σ,
      HandleInput R s.remoteGame i (env.time 1) = some g1
      ∧ 0 ≤ g1.totalLinesCleared
      ∧ handleEvent R u s (Event.receive (Packet.input PacketType.PACKET_INPUT i)) env
          = some { s with remoteGame :=
              { g1 with score := i.currentScore,
                        level := 1 + g1.totalLinesCleared / 10 } }
      ∧ (1 + g1.totalLinesCleared / 10 : Int) = 1 + ⌊(g1.totalLinesCleared : ℚ) / 10⌋ := by
  obtain ⟨g1, e, -, er⟩ := Inv_recvInput R s.remoteGame i (env.time 1) (Inv_Reachable R _ h)
  have h0 := (LevelLaw_HandleInput R _ g1 i (env.time 1) (LevelLaw_Reachable R _ h) e).1
  refine ⟨g1, e, h0, ?_, ?_⟩
  · rw [handleEvent_receive, handlePacket_input, er, ← Int.tdiv_eq_ediv h0 (by decide)]
    rfl
  · have := Rat.floor_intCast_div_natCast g1.totalLinesCleared 10
    simp only [Nat.cast_ofNat] at this
    rw [this]

/-- C24 at a session whose mirror kernel was just reset with seed 42: a soft-drop record
carrying the score 77 moves the mirror's piece down, and the mirror's score is 77. -/
theorem inbound_input_witness :
    Reachable sampleRng (Reset sampleRng sampleOver 42 0)
    ∧ ∃ g1 : Game Nat,
      HandleInput sampleRng (Reset sampleRng sampleOver 42 0)
        { downInput with currentScore := 77 } (sampleEnv.time 1) = some g1
      ∧ 0 ≤ g1.totalLinesCleared
      ∧ handleEvent sampleRng true
          { sampleSession with remoteGame := Reset sampleRng sampleOver 42 0 }
          (Event.receive (Packet.input PacketType.PACKET_INPUT
            { downInput with currentScore := 77 })) sampleEnv
          = some { sampleSession with remoteGame :=
              { g1 with score := 77, level := 1 + g1.totalLinesCleared / 10 } }
      ∧ (1 + g1.totalLinesCleared / 10 : Int) = 1 + ⌊(g1.totalLinesCleared : ℚ) / 10⌋ :=
  have h0 : Reachable sampleRng (Reset sampleRng sampleOver 42 0) :=
    Reachable.reset sampleOver 42 0 (by decide)
  ⟨h0, inbound_input sampleRng true
    { sampleSession with remoteGame := Reset sampleRng sampleOver 42 0 }
    { downInput with currentScore := 77 } sampleEnv h0⟩

/-! ## The piece catalog (C27) -/

theorem Rotate_four (p : Block) (hlen : p.cells.length = 4) (h0 : 0 ≤ p.rotationState)
    (h4 : p.rotationState < 4) :
    p.Rotate.rotationState = (p.rotationState + 1) % 4
    ∧ p.Rotate.Rotate.Rotate.Rotate = p := by
  obtain ⟨id, cells, rot, ro, co⟩ := p
  simp only at hlen h0 h4
  have hr : rot = 0 ∨ rot = 1 ∨ rot = 2 ∨ rot = 3 := by omega
  rcases hr with hr | hr | hr | hr <;> subst hr <;> simp [Block.Rotate, hlen]

theorem catalog_turn :
    ∀ b ∈ GetAllBlocks, b.cells.length = 4 ∧ ∀ k : Nat, k < 4 →
      (b.cells.getD k []).length = 4 ∧ (b.cells.getD k []).Nodup
      ∧ ((b.cells.getD k []).map (turn (boxSize b.id))).Perm
          (b.cells.getD ((k + 1) % 4) []) := by
  decide

/-- C27 (piece catalog).  The catalog has seven kinds, with the ids 1..7.  For each of
them and each rotation index `k` in 0..3 it lists 4 pairwise distinct cells, and the
cells of rotation `(k + 1) mod 4` are, in some order, the images of the cells of
rotation `k` under the quarter turn `(r, c) -> (c, n - 1 - r)` of the kind's box
(`n = boxSize id`: 4 for I, 2 for O, 3 otherwise).  For a piece `p` of a catalog kind at
any offset with its rotation index in 0..3, `Rotate` advances the index by one modulo 4,
so the cells of `p.Rotate` before the offset is added are the turned cells of `p`, and
four `Rotate` calls give back `p`, hence its cells. -/
theorem piece_catalog :
    (GetAllBlocks.map Block.id).Perm [1, 2, 3, 4, 5, 6, 7]
    ∧ (∀ b ∈ GetAllBlocks, b.cells.length = 4 ∧ ∀ k : Nat, k < 4 →
        (b.cells.getD k []).length = 4 ∧ (b.cells.getD k []).Nodup
        ∧ ((b.cells.getD k []).map (turn (boxSize b.id))).Perm
            (b.cells.getD ((k + 1) % 4) []))
    ∧ ∀ (p b : Block), b ∈ GetAllBlocks → p.cells = b.cells → p.id = b.id →
        0 ≤ p.rotationState → p.rotationState < 4 →
        p.Rotate.rotationState = (p.rotationState + 1) % 4
        ∧ (p.tilesAt.map (turn (boxSize p.id))).Perm p.Rotate.tilesAt
        ∧ p.Rotate.Rotate.Rotate.Rotate = p
        ∧ p.Rotate.Rotate.Rotate.Rotate.GetCellPositions = p.GetCellPositions := by
  refine ⟨by decide, catalog_turn, ?_⟩
  intro p b hb hc hid h0 h4
  obtain ⟨hlen, hk⟩ := catalog_turn b hb
  have hlenp : p.cells.length = 4 := by rw [hc]; exact hlen
  obtain ⟨hr, hfour⟩ := Rotate_four p hlenp h0 h4
  refine ⟨hr, ?_, hfour, by rw [hfour]⟩
  have hkk := (hk p.rotationState.toNat (by omega)).2.2
  have hrot : 0 ≤ p.Rotate.rotationState := by rw [hr]; omega
  have hcells : p.Rotate.cells = p.cells := rfl
  have hnat : p.Rotate.rotationState.toNat = (p.rotationState.toNat + 1) % 4 := by
    rw [hr]; omega
  unfold Block.tilesAt
  rw [if_pos h0, if_pos hrot, hcells, hnat, hc, hid]
  exact hkk

/-- C27 at a T block standing at row offset 5, column offset 2, rotation 3: `Rotate`
brings the index to 0, and four `Rotate` calls give back the piece. -/
theorem piece_catalog_witness :
    (TBlock ∈ GetAllBlocks
      ∧ (0 : Int) ≤ ({ TBlock with rotationState := 3, rowOffset := 5, columnOffset := 2 }
            : Block).rotationState
      ∧ ({ TBlock with rotationState := 3, rowOffset := 5, columnOffset := 2 }
            : Block).rotationState < 4)
    ∧ ({ TBlock with rotationState := 3, rowOffset := 5, columnOffset := 2 }
          : Block).Rotate.rotationState = (3 + 1) % 4
    ∧ ({ TBlock with rotationState := 3, rowOffset := 5, columnOffset := 2 }
          : Block).Rotate.Rotate.Rotate.Rotate
        = { TBlock with rotationState := 3, rowOffset := 5, columnOffset := 2 } :=
  have h := piece_catalog.2.2
    { TBlock with rotationState := 3, rowOffset := 5, columnOffset := 2 } TBlock
    (by decide) rfl rfl (by decide) (by decide)
  ⟨⟨by decide, by decide, by decide⟩, h.1, h.2.2.1⟩

/-! ## The sequence of draws (C26) -/

theorem drawBlocks_length (R : Rng σ) :
    ∀ (n : Nat) (g : Game σ), (drawBlocks R n g).1.length = n := by
  intro n
  induction n with
  | zero => intro g; rfl
  | succ n ih => intro g; simp [drawBlocks, ih]

theorem drawBlocks_add (R : Rng σ) :
    ∀ (a b : Nat) (g : Game σ),
      (drawBlocks R (a + b) g).1
        = (drawBlocks R a g).1 ++ (drawBlocks R b (drawBlocks R a g).2).1 := by
  intro a
  induction a with
  | zero => intro b g; simp [drawBlocks]
  | succ a ih =>
    intro b g
    have h : a + 1 + b = (a + b) + 1 := by omega
    rw [h]
    simp only [drawBlocks, List.cons_append, ih]

theorem drawBlocks_congr (R : Rng σ) :
    ∀ (n : Nat) (g g2 : Game σ), g.blocks = g2.blocks → g.rng = g2.rng →
      (drawBlocks R n g).1 = (drawBlocks R n g2).1 := by
  intro n
  induction n with
  | zero => intro g g2 _ _; rfl
  | succ n ih =>
    intro g g2 hb hr
    have h1 : (GetRandomBlock R g).1 = (GetRandomBlock R g2).1 := by
      simp only [GetRandomBlock, hb, hr]
    have h2 : (GetRandomBlock R g).2.blocks = (GetRandomBlock R g2).2.blocks := by
      simp only [GetRandomBlock, hb, hr]
    have h3 : (GetRandomBlock R g).2.rng = (GetRandomBlock R g2).2.rng := by
      simp only [GetRandomBlock, hb, hr]
    simp only [drawBlocks, h1, ih _ _ h2 h3]

theorem bagOf_sublist (g : Game σ) (h : g.blocks.Sublist GetAllBlocks) :
    (bagOf g).Sublist GetAllBlocks := by
  unfold bagOf
  split
  · exact List.Sublist.refl _
  · exact h

theorem GetRandomBlock_sublist (R : Rng σ) (g : Game σ) (h : g.blocks.Sublist GetAllBlocks) :
    (GetRandomBlock R g).2.blocks.Sublist GetAllBlocks :=
  (List.eraseIdx_sublist (bagOf g) _).trans (bagOf_sublist g h)

theorem drawBlocks_sublist (R : Rng σ) :
    ∀ (n : Nat) (g : Game σ), g.blocks.Sublist GetAllBlocks →
      (drawBlocks R n g).2.blocks.Sublist GetAllBlocks := by
  intro n
  induction n with
  | zero => intro g h; exact h
  | succ n ih =>
    intro g h
    simp only [drawBlocks]
    exact ih _ (GetRandomBlock_sublist R g h)

/-- Thirteen consecutive draws, from any state of the bag, contain every block. -/
theorem drawBlocks_thirteen (R : Rng σ) (g : Game σ) (h : g.blocks.Sublist GetAllBlocks) :
    ∀ b ∈ GetAllBlocks, b ∈ (drawBlocks R 13 g).1 := by
  have hsub := bagOf_sublist g h
  have hle : (bagOf g).length ≤ 7 := hsub.length_le
  have hpos : 0 < (bagOf g).length := List.length_pos.mpr (bagOf_ne_nil g)
  obtain ⟨m, hm⟩ : ∃ m, (bagOf g).length = m + 1 := ⟨(bagOf g).length - 1, by omega⟩
  obtain ⟨hp, hnil⟩ := drawBlocks_perm R m g hm
  intro b hb
  by_cases h7 : m = 6
  · subst h7
    have heq : bagOf g = GetAllBlocks := hsub.eq_of_length (by rw [hm]; rfl)
    have hsplit := drawBlocks_add R 7 6 g
    have h13 : (7 : Nat) + 6 = 13 := rfl
    rw [h13] at hsplit
    rw [hsplit]
    exact List.mem_append_left _ (hp.mem_iff.mpr (by rw [heq]; exact hb))
  · have hbag : bagOf (drawBlocks R (m + 1) g).2 = GetAllBlocks := by
      rw [bagOf, hnil]; rfl
    obtain ⟨hp2, -⟩ := drawBlocks_perm R 6 (drawBlocks R (m + 1) g).2 (by rw [hbag]; rfl)
    have e : 13 = (m + 1) + (7 + (5 - m)) := by omega
    rw [e, drawBlocks_add R (m + 1) (7 + (5 - m)) g,
      drawBlocks_add R 7 (5 - m) (drawBlocks R (m + 1) g).2]
    apply List.mem_append_right
    apply List.mem_append_left
    exact hp2.mem_iff.mpr (by rw [hbag]; exact hb)

/-- A window of the draws is the list of draws from the state at its start. -/
theorem drawBlocks_window (R : Rng σ) (g : Game σ) (i k n : Nat) (h : i + k ≤ n) :
    ((drawBlocks R n g).1.drop i).take k = (drawBlocks R k (drawBlocks R i g).2).1 := by
  have e : n = i + (k + (n - i - k)) := by omega
  rw [e, drawBlocks_add R i _ g, drawBlocks_add R k _ (drawBlocks R i g).2]
  rw [List.drop_left' (drawBlocks_length R i g), List.take_left' (drawBlocks_length R k _)]

theorem drawBlocks_two (R : Rng σ) (g : Game σ) :
    drawBlocks R 2 g
      = ([(GetRandomBlock R g).1, (GetRandomBlock R (GetRandomBlock R g).2).1],
          (GetRandomBlock R (GetRandomBlock R g).2).2) := rfl

theorem piecesDrawn_eq (R : Rng σ) (g : Game σ) (seed now : Int) (n : Nat) :
    ∃ g0 : Game σ, g0.blocks = GetAllBlocks
      ∧ piecesDrawn R g seed now n = (drawBlocks R (n + 2) g0).1 :=
  ⟨{ g with grid := Initalize g.grid, blocks := GetAllBlocks,
            rng := if seed ≠ -1 then R.seed (toUInt32 seed) else R.seed (toUInt32 now) },
    rfl, by
      have e : n + 2 = 2 + n := by omega
      rw [e, drawBlocks_add R 2 n, drawBlocks_two]
      exact congrArg (fun l => _ :: _ :: l)
        (drawBlocks_congr R n (Reset R g seed now) _ rfl rfl)⟩

theorem getElem?_mem_window {α : Type} (S : List α) (i k : Nat) (x : α)
    (h : x ∈ (S.drop i).take k) : ∃ j, j < k ∧ S[i + j]? = some x := by
  obtain ⟨j, hj, e⟩ := List.mem_iff_getElem.mp h
  refine ⟨j, ?_, ?_⟩
  · have := List.length_take_le k (S.drop i); omega
  · rw [← e, List.getElem_take, List.getElem_drop]
    exact List.getElem?_eq_getElem _

theorem piecesDrawn_length (R : Rng σ) (g : Game σ) (seed now : Int) (n : Nat) :
    (piecesDrawn R g seed now n).length = n + 2 := by
  simp [piecesDrawn, drawBlocks_length]

theorem piecesDrawn_window (R : Rng σ) (g : Game σ) (seed now : Int) (n i : Nat)
    (h : i + 13 ≤ n + 2) :
    ∀ b ∈ GetAllBlocks, b ∈ ((piecesDrawn R g seed now n).drop i).take 13 := by
  obtain ⟨g0, hg0, e⟩ := piecesDrawn_eq R g seed now n
  rw [e, drawBlocks_window R g0 i 13 (n + 2) h]
  exact drawBlocks_thirteen R _
    (drawBlocks_sublist R i g0 (by rw [hg0]))

theorem piecesDrawn_mem (R : Rng σ) (g : Game σ) (seed now : Int) (n : Nat) :
    ∀ b ∈ piecesDrawn R g seed now n, b ∈ GetAllBlocks := by
  obtain ⟨g0, hg0, e⟩ := piecesDrawn_eq R g seed now n
  rw [e]
  have key : ∀ (m : Nat) (g1 : Game σ), (∀ b ∈ g1.blocks, b ∈ GetAllBlocks) →
      ∀ b ∈ (drawBlocks R m g1).1, b ∈ GetAllBlocks := by
    intro m
    induction m with
    | zero => intro g1 _ b hb; cases hb
    | succ m ih =>
      intro g1 h1 b hb
      simp only [drawBlocks, List.mem_cons] at hb
      rcases hb with hb | hb
      · rw [hb]; exact (GetRandomBlock_mem R g1 h1).1
      · exact ih _ (GetRandomBlock_mem R g1 h1).2 b hb
  exact key (n + 2) g0 (by rw [hg0]; exact fun b hb => hb)

/-- C26 (bounded piece-repeat interval).  Whatever the generator yields and whatever the
seed: in the sequence of the pieces drawn after a `Reset` (the two pieces `Reset`
draws, then the pieces of the following draws) every window of 13 consecutive draws
contains each of the seven blocks of the catalog, so each kind id 1..7; and after every
draw the same block is drawn again within the next 13 draws, that is with at most 12
pieces in between. -/
theorem bounded_repeat (R : Rng σ) (g : Game σ) (seed now : Int) (n i : Nat)
    (h : i + 13 ≤ n + 2) :
    (∀ b ∈ GetAllBlocks, b ∈ ((piecesDrawn R g seed now n).drop i).take 13)
    ∧ (∀ k : Int, 1 ≤ k → k ≤ 7 →
        ∃ b ∈ ((piecesDrawn R g seed now n).drop i).take 13, b.id = k)
    ∧ (0 < i → ∃ (b : Block) (j : Nat), j < 13
        ∧ (piecesDrawn R g seed now n)[i - 1]? = some b
        ∧ (piecesDrawn R g seed now n)[i + j]? = some b) := by
  have hw := piecesDrawn_window R g seed now n i h
  refine ⟨hw, ?_, ?_⟩
  · intro k h1 h7
    have hk : k = 1 ∨ k = 2 ∨ k = 3 ∨ k = 4 ∨ k = 5 ∨ k = 6 ∨ k = 7 := by omega
    rcases hk with hk | hk | hk | hk | hk | hk | hk <;> subst hk
    · exact ⟨LBlock, hw _ (by decide), rfl⟩
    · exact ⟨JBlock, hw _ (by decide), rfl⟩
    · exact ⟨IBlock, hw _ (by decide), rfl⟩
    · exact ⟨OBlock, hw _ (by decide), rfl⟩
    · exact ⟨SBlock, hw _ (by decide), rfl⟩
    · exact ⟨TBlock, hw _ (by decide), rfl⟩
    · exact ⟨ZBlock, hw _ (by decide), rfl⟩
  · intro hi
    have hlen := piecesDrawn_length R g seed now n
    have hlt : i - 1 < (piecesDrawn R g seed now n).length := by omega
    have hmem := piecesDrawn_mem R g seed now n _ (List.getElem_mem hlt)
    obtain ⟨j, hj, e⟩ := getElem?_mem_window _ i 13 _ (hw _ hmem)
    exact ⟨_, j, hj, List.getElem?_eq_getElem hlt, e⟩

/-- C26 at the pieces drawn after `Reset(42)` with the generator `sampleRng`: the
window of the draws 4 .. 16 contains every block, and the piece of draw 3 comes again
within it. -/
theorem bounded_repeat_witness :
    4 + 13 ≤ 20 + 2
    ∧ (∀ b ∈ GetAllBlocks, b ∈ ((piecesDrawn sampleRng sampleOver 42 0 20).drop 4).take 13)
    ∧ ∃ (b : Block) (j : Nat), j < 13
        ∧ (piecesDrawn sampleRng sampleOver 42 0 20)[4 - 1]? = some b
        ∧ (piecesDrawn sampleRng sampleOver 42 0 20)[4 + j]? = some b :=
  have h := bounded_repeat sampleRng sampleOver 42 0 20 4 (by decide)
  ⟨by decide, h.1, h.2.2 (by decide)⟩

/-! ## The steps of the kernel, case by case -/

theorem Frame_refl (g : Game σ) : Frame g g :=
  ⟨rfl, rfl, rfl, rfl, rfl, rfl, rfl, rfl, rfl, rfl⟩

theorem Frame_trans (g g1 g2 : Game σ) (h1 : Frame g g1) (h2 : Frame g1 g2) : Frame g g2 := by
  obtain ⟨a1, a2, a3, a4, a5, a6, a7, a8, a9, a10⟩ := h1
  obtain ⟨b1, b2, b3, b4, b5, b6, b7, b8, b9, b10⟩ := h2
  exact ⟨b1.trans a1, b2.trans a2, b3.trans a3, b4.trans a4, b5.trans a5, b6.trans a6,
    b7.trans a7, b8.trans a8, b9.trans a9, b10.trans a10⟩

/-- A move to the left: the piece one column to the left if that position is free, the
state as it was otherwise; a kept property is kept, and so is the freedom of the cells. -/
theorem MoveBlockLeft_step (R : Rng σ) (Q : Game σ → Prop) (hk : Kept R Q) (g : Game σ)
    (hinv : Inv g) (hq : Q g) :
    Inv (MoveBlockLeft g) ∧ Q (MoveBlockLeft g) ∧ Frame g (MoveBlockLeft g)
    ∧ (cellsFree g.grid g.currentBlock →
        cellsFree (MoveBlockLeft g).grid (MoveBlockLeft g).currentBlock) := by
  refine ⟨Inv_MoveBlockLeft g hinv, ?_⟩
  rcases Bool.eq_false_or_eq_true g.gameOver with hg | hg
  · have e : MoveBlockLeft g = g := by simp [MoveBlockLeft, hg]
    rw [e]; exact ⟨hq, Frame_refl g, fun h => h⟩
  · rw [MoveBlockLeft_eq g hg]
    split
    · rename_i hc
      exact ⟨hk.2.1 g _ hinv hq hg hc (Or.inl rfl),
        ⟨rfl, rfl, rfl, rfl, rfl, rfl, rfl, rfl, rfl, rfl⟩, fun _ => hc⟩
    · exact ⟨hq, Frame_refl g, fun h => h⟩

theorem MoveBlockRight_step (R : Rng σ) (Q : Game σ → Prop) (hk : Kept R Q) (g : Game σ)
    (hinv : Inv g) (hq : Q g) :
    Inv (MoveBlockRight g) ∧ Q (MoveBlockRight g) ∧ Frame g (MoveBlockRight g)
    ∧ (cellsFree g.grid g.currentBlock →
        cellsFree (MoveBlockRight g).grid (MoveBlockRight g).currentBlock) := by
  refine ⟨Inv_MoveBlockRight g hinv, ?_⟩
  rcases Bool.eq_false_or_eq_true g.gameOver with hg | hg
  · have e : MoveBlockRight g = g := by simp [MoveBlockRight, hg]
    rw [e]; exact ⟨hq, Frame_refl g, fun h => h⟩
  · rw [MoveBlockRight_eq g hg]
    split
    · rename_i hc
      exact ⟨hk.2.1 g _ hinv hq hg hc (Or.inr (Or.inl rfl)),
        ⟨rfl, rfl, rfl, rfl, rfl, rfl, rfl, rfl, rfl, rfl⟩, fun _ => hc⟩
    · exact ⟨hq, Frame_refl g, fun h => h⟩

theorem RotateBlock_step (R : Rng σ) (Q : Game σ → Prop) (hk : Kept R Q) (g : Game σ)
    (hinv : Inv g) (hq : Q g) :
    Inv (RotateBlock g) ∧ Q (RotateBlock g) ∧ Frame g (RotateBlock g)
    ∧ (cellsFree g.grid g.currentBlock →
        cellsFree (RotateBlock g).grid (RotateBlock g).currentBlock) := by
  refine ⟨Inv_RotateBlock g hinv, ?_⟩
  rcases Bool.eq_false_or_eq_true g.gameOver with hg | hg
  · have e : RotateBlock g = g := by simp [RotateBlock, hg]
    rw [e]; exact ⟨hq, Frame_refl g, fun h => h⟩
  · rw [RotateBlock_eq g hg hinv.2.2.2.1]
    split
    · rename_i hc
      exact ⟨hk.2.1 g _ hinv hq hg hc (Or.inr (Or.inr (Or.inr rfl))),
        ⟨rfl, rfl, rfl, rfl, rfl, rfl, rfl, rfl, rfl, rfl⟩, fun _ => hc⟩
    · exact ⟨hq, Frame_refl g, fun h => h⟩

theorem movesOf_eq (g : Game σ) (input : InputState) :
    movesOf g input
      = if input.rotate then
          RotateBlock (if input.right then
            MoveBlockRight (if input.left then MoveBlockLeft g else g)
            else (if input.left then MoveBlockLeft g else g))
        else (if input.right then
            MoveBlockRight (if input.left then MoveBlockLeft g else g)
            else (if input.left then MoveBlockLeft g else g)) := rfl

theorem movesOf_step (R : Rng σ) (Q : Game σ → Prop) (hk : Kept R Q) (g : Game σ)
    (input : InputState) (hinv : Inv g) (hq : Q g) :
    Inv (movesOf g input) ∧ Q (movesOf g input) ∧ Frame g (movesOf g input)
    ∧ (cellsFree g.grid g.currentBlock →
        cellsFree (movesOf g input).grid (movesOf g input).currentBlock) := by
  rw [movesOf_eq]
  have s1 : Inv (if input.left then MoveBlockLeft g else g)
      ∧ Q (if input.left then MoveBlockLeft g else g)
      ∧ Frame g (if input.left then MoveBlockLeft g else g)
      ∧ (cellsFree g.grid g.currentBlock →
          cellsFree (if input.left then MoveBlockLeft g else g).grid
            (if input.left then MoveBlockLeft g else g).currentBlock) := by
    split
    · exact MoveBlockLeft_step R Q hk g hinv hq
    · exact ⟨hinv, hq, Frame_refl g, fun h => h⟩
  obtain ⟨i1, q1, f1, c1⟩ := s1
  generalize (if input.left then MoveBlockLeft g else g) = g1 at i1 q1 f1 c1 ⊢
  have s2 : Inv (if input.right then MoveBlockRight g1 else g1)
      ∧ Q (if input.right then MoveBlockRight g1 else g1)
      ∧ Frame g1 (if input.right then MoveBlockRight g1 else g1)
      ∧ (cellsFree g1.grid g1.currentBlock →
          cellsFree (if input.right then MoveBlockRight g1 else g1).grid
            (if input.right then MoveBlockRight g1 else g1).currentBlock) := by
    split
    · exact MoveBlockRight_step R Q hk g1 i1 q1
    · exact ⟨i1, q1, Frame_refl g1, fun h => h⟩
  obtain ⟨i2, q2, f2, c2⟩ := s2
  generalize (if input.right then MoveBlockRight g1 else g1) = g2 at i2 q2 f2 c2 ⊢
  have s3 : Inv (if input.rotate then RotateBlock g2 else g2)
      ∧ Q (if input.rotate then RotateBlock g2 else g2)
      ∧ Frame g2 (if input.rotate then RotateBlock g2 else g2)
      ∧ (cellsFree g2.grid g2.currentBlock →
          cellsFree (if input.rotate then RotateBlock g2 else g2).grid
            (if input.rotate then RotateBlock g2 else g2).currentBlock) := by
    split
    · exact RotateBlock_step R Q hk g2 i2 q2
    · exact ⟨i2, q2, Frame_refl g2, fun h => h⟩
  obtain ⟨i3, q3, f3, c3⟩ := s3
  exact ⟨i3, q3, Frame_trans _ _ _ (Frame_trans _ _ _ f1 f2) f3, fun h => c3 (c2 (c1 h))⟩

theorem MoveBlockDown_eq (R : Rng σ) (g : Game σ) (h : g.gameOver = false) :
    MoveBlockDown R g
      = if cellsFree g.grid (g.currentBlock.Move 1 0) then
          some (true, { g with currentBlock := g.currentBlock.Move 1 0 })
        else (LockBlock R g).map (fun g1 => (false, g1)) := by
  split
  · rename_i hc
    have hcond := (cellsFree_iff _ _).mp hc
    rw [Bool.or_eq_false_iff] at hcond
    exact MoveBlockDown_moved R g h hcond.1 (by simpa using hcond.2)
  · rename_i hc
    apply MoveBlockDown_locks R g h
    by_cases ho : IsBlockOutside (g.currentBlock.Move 1 0) = true
    · exact Or.inl ho
    · right
      by_cases hb : BlockFits g.grid (g.currentBlock.Move 1 0) = false
      · exact hb
      · exfalso
        apply hc
        rw [cellsFree_iff, Bool.or_eq_false_iff]
        exact ⟨by simpa using ho, by simpa using hb⟩

theorem HandleInput_eq (R : Rng σ) (g : Game σ) (input : InputState) (now : Int)
    (h : g.gameOver = false) :
    HandleInput R g input now
      = if input.down then
          (MoveBlockDown R (movesOf g input)).map
            (fun p => if p.1 then UpdateScore p.2 0 1 else p.2)
        else some (movesOf g input) := by
  rw [movesOf_eq]
  simp only [HandleInput, h, Bool.false_eq_true, if_false]
  split
  · cases MoveBlockDown R _ <;> rfl
  · rfl

/-- A tick, case by case: nothing in a game that is over; the piece one row lower if
that position is free; a lock otherwise. -/
theorem MoveBlockDown_step (R : Rng σ) (Q : Game σ → Prop) (hk : Kept R Q) (g : Game σ)
    (hinv : Inv g) (hq : Q g) :
    ∃ (b : Bool) (g1 : Game σ), MoveBlockDown R g = some (b, g1) ∧ Inv g1 ∧ Q g1
      ∧ ((g.gameOver = true ∧ b = false ∧ g1 = g)
        ∨ (g.gameOver = false ∧ b = true ∧ cellsFree g.grid (g.currentBlock.Move 1 0)
            ∧ g1 = { g with currentBlock := g.currentBlock.Move 1 0 })
        ∨ (g.gameOver = false ∧ b = false ∧ ¬ cellsFree g.grid (g.currentBlock.Move 1 0)
            ∧ LockBlock R g = some g1)) := by
  rcases Bool.eq_false_or_eq_true g.gameOver with hg | hg
  · exact ⟨false, g, MoveBlockDown_over R g hg, hinv, hq, Or.inl ⟨hg, rfl, rfl⟩⟩
  · by_cases hc : cellsFree g.grid (g.currentBlock.Move 1 0)
    · refine ⟨true, _, by rw [MoveBlockDown_eq R g hg, if_pos hc], ?_,
        hk.2.1 g _ hinv hq hg hc (Or.inr (Or.inr (Or.inl rfl))),
        Or.inr (Or.inl ⟨hg, rfl, hc, rfl⟩)⟩
      have hcond := (cellsFree_iff _ _).mp hc
      rw [Bool.or_eq_false_iff] at hcond
      exact ⟨hinv.1, hinv.2.1, hinv.2.2.1, hinv.2.2.2.1, hcond.1⟩
    · obtain ⟨g1, e, hinv1⟩ := Inv_LockBlock R g hinv hg
      exact ⟨false, g1, by rw [MoveBlockDown_eq R g hg, if_neg hc, e]; rfl, hinv1,
        hk.2.2.1 g g1 hinv hq hg e, Or.inr (Or.inr ⟨hg, rfl, hc, e⟩)⟩

/-- A call of `HandleInput`, case by case. -/
theorem HandleInput_step (R : Rng σ) (Q : Game σ → Prop) (hk : Kept R Q) (g : Game σ)
    (input : InputState) (now : Int) (hinv : Inv g) (hq : Q g) :
    ∃ g1 : Game σ, HandleInput R g input now = some g1 ∧ Inv g1 ∧ Q g1
      ∧ ((g.gameOver = true ∧ input.reset = false ∧ g1 = g)
        ∨ (g.gameOver = true ∧ input.reset = true ∧ g1 = Reset R g (-1) now)
        ∨ (g.gameOver = false ∧ input.down = false ∧ g1 = movesOf g input)
        ∨ (g.gameOver = false ∧ input.down = true
            ∧ cellsFree (movesOf g input).grid ((movesOf g input).currentBlock.Move 1 0)
            ∧ g1 = UpdateScore { movesOf g input with
                    currentBlock := (movesOf g input).currentBlock.Move 1 0 } 0 1)
        ∨ (g.gameOver = false ∧ input.down = true
            ∧ ¬ cellsFree (movesOf g input).grid ((movesOf g input).currentBlock.Move 1 0)
            ∧ LockBlock R (movesOf g input) = some g1)) := by
  rcases Bool.eq_false_or_eq_true g.gameOver with hg | hg
  · obtain ⟨hno, hre⟩ := HandleInput_over R g input now hg
    rcases Bool.eq_false_or_eq_true input.reset with hr | hr
    · exact ⟨_, hre hr, Inv_Reset R g (-1) now hinv.1, hk.1 g (-1) now hinv.1,
        Or.inr (Or.inl ⟨hg, hr, rfl⟩)⟩
    · exact ⟨g, hno hr, hinv, hq, Or.inl ⟨hg, hr, rfl⟩⟩
  · obtain ⟨i3, q3, f3, -⟩ := movesOf_step R Q hk g input hinv hq
    have hg3 : (movesOf g input).gameOver = false := by rw [f3.2.2.2.2.1, hg]
    rw [HandleInput_eq R g input now hg]
    rcases Bool.eq_false_or_eq_true input.down with hd | hd
    · rw [if_pos hd]
      obtain ⟨b, g1, e, i1, q1, hcase⟩ := MoveBlockDown_step R Q hk _ i3 q3
      rw [e]
      rcases hcase with ⟨ho, -, -⟩ | ⟨-, hb, hc, e1⟩ | ⟨-, hb, hc, e1⟩
      · rw [hg3] at ho; cases ho
      · subst hb
        refine ⟨UpdateScore g1 0 1, rfl, ?_, ?_, ?_⟩
        · exact Inv_UpdateScore _ _ _ i1
        · rw [UpdateScore_drop]; exact hk.2.2.2 g1 _ _ q1
        · rw [e1]
          exact Or.inr (Or.inr (Or.inr (Or.inl ⟨hg, hd, hc, rfl⟩)))
      · subst hb
        exact ⟨g1, rfl, i1, q1, Or.inr (Or.inr (Or.inr (Or.inr ⟨hg, hd, hc, e1⟩)))⟩
    · rw [if_neg (by simp [hd])]
      exact ⟨_, rfl, i3, q3, Or.inr (Or.inr (Or.inl ⟨hg, hd, rfl⟩))⟩

/-- A kept property holds in every reachable state. -/
theorem Kept_Reachable (R : Rng σ) (Q : Game σ → Prop) (hk : Kept R Q) (g : Game σ)
    (h : Reachable R g) : Inv g ∧ Q g := by
  induction h with
  | reset g seed now hwf => exact ⟨Inv_Reset R g seed now hwf, hk.1 g seed now hwf⟩
  | input g g1 input now _ e ih =>
    obtain ⟨g2, e2, i2, q2, -⟩ := HandleInput_step R Q hk g input now ih.1 ih.2
    rw [e] at e2
    injection e2 with e2
    rw [e2]; exact ⟨i2, q2⟩
  | tick g g1 b _ e ih =>
    obtain ⟨b2, g2, e2, i2, q2, -⟩ := MoveBlockDown_step R Q hk g ih.1 ih.2
    rw [e] at e2
    injection e2 with e2
    injection e2 with _ e3
    rw [e3]; exact ⟨i2, q2⟩
  | remoteInput g g1 d now _ e ih =>
    obtain ⟨g2, e2, i2, q2, -⟩ := HandleInput_step R Q hk g d now ih.1 ih.2
    have e3 : recvInput R g d now
        = some { g2 with score := d.currentScore,
                         level := 1 + Int.tdiv g2.totalLinesCleared 10 } := by
      simp [recvInput, e2]
    rw [e] at e3
    injection e3 with e3
    rw [e3]
    exact ⟨i2, hk.2.2.2 g2 _ _ q2⟩

/-! ## Cells and rows -/

theorem cellAt_mem (g : Grid) (h : g.WF) (r c : Nat) (hr : r < numRows) (hc : c < numColums) :
    g.getD r [] ∈ g ∧ cellAt g r c ∈ g.getD r [] := by
  have hlt : r < g.length := by rw [h.1]; exact hr
  have hrow : g.getD r [] = g[r] := getD_eq_getElem_of_lt g r hlt
  have hmem : g[r] ∈ g := List.getElem_mem _
  have hlen : g[r].length = numColums := h.2 _ hmem
  refine ⟨by rw [hrow]; exact hmem, ?_⟩
  unfold cellAt
  rw [hrow]
  have hc2 : c < g[r].length := by rw [hlen]; exact hc
  have : g[r].getD c 0 = g[r][c] := by simp [List.getD_eq_getElem?_getD, hc2]
  rw [this]
  exact List.getElem_mem _

theorem mem_cellAt (g : Grid) (h : g.WF) (row : List Int) (v : Int) (hrow : row ∈ g)
    (hv : v ∈ row) :
    ∃ r c : Nat, r < numRows ∧ c < numColums ∧ g.getD r [] = row ∧ cellAt g r c = v := by
  obtain ⟨r, hr, e⟩ := List.mem_iff_getElem.mp hrow
  obtain ⟨c, hc, e2⟩ := List.mem_iff_getElem.mp hv
  have hlen : row.length = numColums := h.2 _ hrow
  have h1 : g.getD r [] = row := by rw [getD_eq_getElem_of_lt g r hr, e]
  refine ⟨r, c, by rw [← h.1]; exact hr, by rw [← hlen]; exact hc, h1, ?_⟩
  unfold cellAt
  rw [h1]
  simp [List.getD_eq_getElem?_getD, hc, e2]

theorem zeroRow_ok : (0 : Int) ∈ zeroRow ∧ ∀ v ∈ zeroRow, (0 : Int) ≤ v ∧ v ≤ 7 := by
  decide

theorem GridOk_zero (n : Nat) : GridOk (List.replicate n zeroRow) := by
  intro row hrow
  rw [(List.mem_replicate.mp hrow).2]
  exact zeroRow_ok

theorem catalog_facts :
    ∀ b ∈ GetAllBlocks, b.rotationState = 0 ∧ 1 ≤ b.id ∧ b.id ≤ 7 ∧ b.cells.length = 4 := by
  decide

theorem Catalogued_mem (b : Block) (h : b ∈ GetAllBlocks) : Catalogued b :=
  ⟨⟨b, h, rfl, rfl⟩, by rw [(catalog_facts b h).1]; decide⟩

theorem Catalogued_length (b : Block) (h : Catalogued b) : b.cells.length = 4 := by
  obtain ⟨⟨k, hk, -, hc⟩, -⟩ := h
  rw [hc]; exact (catalog_facts k hk).2.2.2

theorem Catalogued_id (b : Block) (h : Catalogued b) : 1 ≤ b.id ∧ b.id ≤ 7 := by
  obtain ⟨⟨k, hk, hid, -⟩, -⟩ := h
  rw [hid]; exact ⟨(catalog_facts k hk).2.1, (catalog_facts k hk).2.2.1⟩

/-- The cells of a piece of the catalog: four of them, pairwise distinct. -/
theorem Catalogued_cells (b : Block) (h : Catalogued b) (h0 : 0 ≤ b.rotationState) :
    b.GetCellPositions.length = 4 ∧ b.GetCellPositions.Nodup := by
  obtain ⟨⟨k, hk, -, hc⟩, h4⟩ := h
  obtain ⟨-, hturn⟩ := catalog_turn k hk
  obtain ⟨hlen, hnd, -⟩ := hturn b.rotationState.toNat (by omega)
  have ht : b.tilesAt = k.cells.getD b.rotationState.toNat [] := by
    unfold Block.tilesAt
    rw [if_pos h0, hc]
  unfold Block.GetCellPositions
  rw [ht]
  refine ⟨by rw [List.length_map, hlen], ?_⟩
  apply List.Nodup.map _ hnd
  intro p q hpq
  simp only [Position.mk.injEq] at hpq
  cases p; cases q
  simp only [Position.mk.injEq]
  simp only at hpq
  omega

theorem Catalogued_Move (b : Block) (r c : Int) (h : Catalogued b) : Catalogued (b.Move r c) :=
  h

theorem Catalogued_Rotate (b : Block) (h : Catalogued b) (h0 : 0 ≤ b.rotationState) :
    Catalogued b.Rotate := by
  refine ⟨h.1, ?_⟩
  rw [(Rotate_four b (Catalogued_length b h) h0 h.2).1]
  omega

theorem countP_le_of_index {α : Type} (p : α → Bool) :
    ∀ (l : List α) (off : Nat) (J : List Nat),
      (∀ (i : Nat) (hi : i < l.length), p (l.get ⟨i, hi⟩) = true → off + i ∈ J) →
      l.countP p ≤ J.length := by
  intro l
  induction l with
  | nil => intro off J _; simp
  | cons x l ih =>
    intro off J h
    by_cases hx : p x = true
    · have hoff : off ∈ J := by
        have := h 0 (by simp) (by simpa using hx)
        simpa using this
      have hrest : ∀ (i : Nat) (hi : i < l.length), p (l.get ⟨i, hi⟩) = true →
          (off + 1) + i ∈ J.erase off := by
        intro i hi hp
        have := h (i + 1) (by simp; omega) (by simpa using hp)
        have hne : off + 1 + i ≠ off := by omega
        rw [List.mem_erase_of_ne hne]
        have e : off + 1 + i = off + (i + 1) := by omega
        rw [e]; exact this
      have := ih (off + 1) (J.erase off) hrest
      rw [List.length_erase_of_mem hoff] at this
      have hpos : 0 < J.length := List.length_pos_of_mem hoff
      rw [List.countP_cons_of_pos _ _ hx]
      omega
    · have hrest : ∀ (i : Nat) (hi : i < l.length), p (l.get ⟨i, hi⟩) = true →
          (off + 1) + i ∈ J := by
        intro i hi hp
        have := h (i + 1) (by simp; omega) (by simpa using hp)
        have e : off + 1 + i = off + (i + 1) := by omega
        rw [e]; exact this
      rw [List.countP_cons_of_neg _ _ hx]
      exact ih (off + 1) J hrest

theorem row_zero_cell (g : Grid) (h : g.WF) (r : Nat) (hr : r < numRows)
    (hz : (0 : Int) ∈ g.getD r []) : ∃ c : Nat, c < numColums ∧ cellAt g r c = 0 := by
  obtain ⟨hrow, -⟩ := cellAt_mem g h r 0 hr (by decide)
  have hlen : (g.getD r []).length = numColums := h.2 _ hrow
  obtain ⟨c, hc, e⟩ := List.mem_iff_getElem.mp hz
  refine ⟨c, by rw [← hlen]; exact hc, ?_⟩
  unfold cellAt
  rw [← e]
  generalize g.getD r [] = row at hc
  simp [List.getD_eq_getElem?_getD, hc]

/-- Writing a piece into a grid without a full row fills at most as many rows as the
piece has cells. -/
theorem full_rows_le (grid grid1 : Grid) (tiles : List Position) (id : Int)
    (hwf : grid.WF) (hwf1 : grid1.WF) (hok : ∀ row ∈ grid, (0 : Int) ∈ row)
    (hcell : ∀ r c : Nat, r < numRows → c < numColums →
      cellAt grid1 r c
        = if ∃ t ∈ tiles, t.row = (r : Int) ∧ t.column = (c : Int) then id
          else cellAt grid r c) :
    grid1.countP (fun r => decide (0 ∉ r)) ≤ tiles.length := by
  have := countP_le_of_index (fun r : List Int => decide (0 ∉ r)) grid1 0
    (tiles.map (fun t => t.row.toNat)) ?_
  · simpa using this
  · intro i hi hp
    have hi20 : i < numRows := by rw [← hwf1.1]; exact hi
    have hfull : (0 : Int) ∉ grid1.getD i [] := by
      rw [getD_eq_getElem_of_lt grid1 i hi]
      simpa using hp
    obtain ⟨hrow, -⟩ := cellAt_mem grid hwf i 0 hi20 (by decide)
    obtain ⟨c, hc, e⟩ := row_zero_cell grid hwf i hi20 (hok _ hrow)
    have hc1 := hcell i c hi20 hc
    have hm := (cellAt_mem grid1 hwf1 i c hi20 hc).2
    by_cases hex : ∃ t ∈ tiles, t.row = (i : Int) ∧ t.column = (c : Int)
    · obtain ⟨t, ht, htr, -⟩ := hex
      rw [Nat.zero_add]
      exact List.mem_map.mpr ⟨t, ht, by omega⟩
    · rw [if_neg hex, e] at hc1
      rw [hc1] at hm
      exact absurd hm hfull

/-- The grid after a clear has no full row and keeps the range of the cell values. -/
theorem GridOk_compacted (grid1 : Grid) (h : ∀ row ∈ grid1, ∀ v ∈ row, (0 : Int) ≤ v ∧ v ≤ 7) :
    GridOk (List.replicate (grid1.countP (fun r => decide (0 ∉ r))) (List.replicate 10 0)
      ++ grid1.filter (fun r => decide (0 ∈ r))) := by
  intro row hrow
  rcases List.mem_append.mp hrow with hr | hr
  · rw [(List.mem_replicate.mp hr).2]
    exact zeroRow_ok
  · obtain ⟨h1, h2⟩ := List.mem_filter.mp hr
    exact ⟨by simpa using h2, h row h1⟩

theorem Sound_Reset (R : Rng σ) (g : Game σ) (seed now : Int) (h : g.grid.WF) :
    Sound (Reset R g seed now) := by
  obtain ⟨hp, -⟩ := Reset_perm R g seed now
  refine ⟨Catalogued_mem _ (hp.subset (List.mem_cons_self _ _)), ?_⟩
  rw [Reset_grid, Initalize_eq _ h]
  exact GridOk_zero _

theorem Sound_LockBlock (R : Rng σ) (g g1 : Game σ) (hinv : Inv g) (hs : Sound g)
    (hover : g.gameOver = false) (e : LockBlock R g = some g1) : Sound g1 := by
  obtain ⟨h1, h2, h3, h4, h5⟩ := hinv
  obtain ⟨grid1, g2, e2, wf1, hcell, hcur, -, -, -, -, -, hgrid, -, -, -⟩ :=
    LockBlock_inside R g h1 hover (IsBlockOutside_false _ h5)
  rw [e] at e2
  injection e2 with e2
  subst e2
  refine ⟨by rw [hcur]; exact Catalogued_mem _ h2, ?_⟩
  rw [hgrid]
  apply GridOk_compacted
  intro row hrow v hv
  obtain ⟨r, c, hr, hc, e1, e2⟩ := mem_cellAt grid1 wf1 row v hrow hv
  rw [← e2, hcell r c hr hc]
  split
  · have := Catalogued_id _ hs.1
    omega
  · obtain ⟨hm1, hm2⟩ := cellAt_mem g.grid h1 r c hr hc
    exact (hs.2 _ hm1).2 _ hm2

theorem Kept_Sound (R : Rng σ) : Kept R (Sound : Game σ → Prop) := by
  refine ⟨Sound_Reset R, ?_, Sound_LockBlock R, fun g s l h => h⟩
  intro g b hinv hs _ _ hb
  refine ⟨?_, hs.2⟩
  rcases hb with hb | hb | hb | hb <;> rw [hb]
  · exact Catalogued_Move _ _ _ hs.1
  · exact Catalogued_Move _ _ _ hs.1
  · exact Catalogued_Move _ _ _ hs.1
  · exact Catalogued_Rotate _ hs.1 hinv.2.2.2.1

theorem Sound_Reachable (R : Rng σ) (g : Game σ) (h : Reachable R g) : Inv g ∧ Sound g :=
  Kept_Reachable R Sound (Kept_Sound R) g h

theorem Kept_trivial (R : Rng σ) : Kept R (fun _ : Game σ => True) :=
  ⟨fun _ _ _ _ => trivial, fun _ _ _ _ _ _ _ => trivial, fun _ _ _ _ _ _ => trivial,
    fun _ _ _ _ => trivial⟩

theorem step_Reachable (R : Rng σ) (g g1 : Game σ) (c : Call) (now : Int)
    (h : Reachable R g) (e : step R g c now = some g1) : Reachable R g1 := by
  cases c with
  | applyInput input => exact Reachable.input g g1 input now h e
  | tick =>
    unfold step at e
    cases hm : MoveBlockDown R g with
    | none => rw [hm] at e; cases e
    | some p =>
      obtain ⟨b, g2⟩ := p
      rw [hm] at e
      injection e with e
      exact Reachable.tick g g1 b h (by rw [hm, ← e])

/-- Every state on the trace of a sequence of calls from a reachable state is reachable. -/
theorem trace_Reachable (R : Rng σ) :
    ∀ (calls : List (Call × Int)) (g : Game σ), Reachable R g →
      ∀ g1 : Game σ, some g1 ∈ trace R (some g) calls → Reachable R g1 := by
  intro calls
  induction calls with
  | nil => intro g _ g1 h; cases h
  | cons a rest ih =>
    intro g hg g1 h
    obtain ⟨c, now⟩ := a
    simp only [trace, Option.some_bind, Option.bind_eq_bind, List.mem_cons] at h
    cases hs : step R g c now with
    | none =>
      rw [hs] at h
      rcases h with h | h
      · cases h
      · exfalso
        have key : ∀ l : List (Call × Int), some g1 ∉ trace R none l := by
          intro l
          induction l with
          | nil => intro hm; cases hm
          | cons b l ihl =>
            intro hm
            simp only [trace, Option.none_bind, Option.bind_eq_bind, List.mem_cons] at hm
            rcases hm with hm | hm
            · cases hm
            · exact ihl hm
        exact key rest h
    | some g2 =>
      rw [hs] at h
      have hr2 := step_Reachable R g g2 c now hg hs
      rcases h with h | h
      · injection h with h
        rw [h]; exact hr2
      · exact ih g2 hr2 g1 h

theorem IsRowFull_getD (g : Grid) (h : g.WF) (r : Nat) (hr : r < numRows) :
    IsRowFull g r = decide ((0 : Int) ∉ g.getD r []) := by
  have hlt : r < g.length := by rw [h.1]; exact hr
  have hsplit : g.take r ++ g.getD r [] :: g.drop (r + 1) = g := by
    rw [getD_eq_getElem_of_lt g r hlt, ← List.drop_eq_getElem_cons hlt, List.take_append_drop]
  have key := IsRowFull_row (g.take r) (g.drop (r + 1)) (g.getD r [])
    (h.2 _ (cellAt_mem g h r 0 hr (by decide)).1)
  rw [hsplit, List.length_take, Nat.min_eq_left (Nat.le_of_lt hlt)] at key
  exact key

theorem filter_zero_eq (grid : Grid) (h : grid.countP (fun r => decide (0 ∉ r)) = 0) :
    grid.filter (fun r => decide (0 ∈ r)) = grid := by
  rw [List.countP_eq_zero] at h
  apply List.filter_eq_self.mpr
  intro row hrow
  have := h row hrow
  simpa using this

/-- A second `ClearFullRows` finds nothing to clear. -/
theorem ClearFullRows_idem (grid grid1 : Grid) (k : Nat) (h : grid.WF)
    (e : ClearFullRows grid = some (k, grid1)) :
    grid1.WF ∧ ClearFullRows grid1 = some (0, grid1) := by
  rw [ClearFullRows_eq grid h] at e
  injection e with e
  injection e with _ e2
  have hwf1 : grid1.WF := by rw [← e2]; exact compacted_WF grid h
  have hzero : grid1.countP (fun r => decide (0 ∉ r)) = 0 := by
    rw [List.countP_eq_zero]
    intro row hrow
    rw [← e2] at hrow
    rcases List.mem_append.mp hrow with hr | hr
    · rw [(List.mem_replicate.mp hr).2]; decide
    · have := (List.mem_filter.mp hr).2
      simpa using this
  refine ⟨hwf1, ?_⟩
  rw [ClearFullRows_eq grid1 hwf1, hzero, filter_zero_eq grid1 hzero]
  rfl

/-- A lock that clears no row and does not end the game leaves the promoted piece on
free cells. -/
theorem LockBlock_free (R : Rng σ) (g g1 : Game σ) (hinv : Inv g) (hover : g.gameOver = false)
    (e : LockBlock R g = some g1) (h1 : g1.gameOver = false)
    (h2 : g1.totalLinesCleared = g.totalLinesCleared) :
    cellsFree g1.grid g1.currentBlock := by
  obtain ⟨w1, w2, w3, w4, w5⟩ := hinv
  obtain ⟨grid1, g2, e2, wf1, -, hcur, -, -, -, hgo, -, hgrid, -, htot, -⟩ :=
    LockBlock_inside R g w1 hover (IsBlockOutside_false _ w5)
  rw [e] at e2
  injection e2 with e2
  subst e2
  have hk : grid1.countP (fun r => decide (0 ∉ r)) = 0 := by
    rw [h2] at htot
    omega
  rw [hgrid, hk, filter_zero_eq grid1 hk, hcur, cellsFree_iff, Bool.or_eq_false_iff]
  rw [hgo] at h1
  refine ⟨(spawn_inside _ w2).2, ?_⟩
  simpa using h1

theorem Reset_free (R : Rng σ) (g : Game σ) (seed now : Int) (h : g.grid.WF) :
    cellsFree (Reset R g seed now).grid (Reset R g seed now).currentBlock := by
  obtain ⟨hp, -⟩ := Reset_perm R g seed now
  have hin := IsBlockOutside_false _
    (spawn_inside _ (hp.subset (List.mem_cons_self _ _))).2
  intro t ht
  obtain ⟨a, b, c, d⟩ := hin t ht
  refine ⟨a, b, c, d, ?_⟩
  rw [Reset_grid, Initalize_eq _ h]
  have hz := GridOk_zero numRows
  have hwf : Grid.WF (List.replicate numRows zeroRow) := by decide
  obtain ⟨m1, m2⟩ := cellAt_mem _ hwf t.row.toNat t.column.toNat (by omega) (by omega)
  rw [(List.mem_replicate.mp m1).2] at m2
  exact (List.mem_replicate.mp m2).2

/-- A call that clears no row and leaves the game on keeps the active piece on free
cells. -/
theorem step_free (R : Rng σ) (g g1 : Game σ) (c : Call) (now : Int) (hinv : Inv g)
    (hf : cellsFree g.grid g.currentBlock) (e : step R g c now = some g1)
    (h1 : g1.gameOver = false) (h2 : g1.totalLinesCleared = g.totalLinesCleared) :
    cellsFree g1.grid g1.currentBlock := by
  have hk := Kept_trivial R
  cases c with
  | tick =>
    obtain ⟨b, g2, e2, -, -, hcase⟩ := MoveBlockDown_step R _ hk g hinv trivial
    simp only [step, e2, Option.map_some'] at e
    injection e with e
    subst e
    rcases hcase with ⟨ho, -, e3⟩ | ⟨-, -, hc, e3⟩ | ⟨ho, -, -, e3⟩
    · rw [e3, ho] at h1; cases h1
    · rw [e3]; exact hc
    · exact LockBlock_free R g g2 hinv ho e3 h1 h2
  | applyInput input =>
    obtain ⟨g2, e2, -, -, hcase⟩ := HandleInput_step R _ hk g input now hinv trivial
    simp only [step, e2] at e
    injection e with e
    subst e
    obtain ⟨i3, -, f3, c3⟩ := movesOf_step R _ hk g input hinv trivial
    rcases hcase with ⟨ho, -, e3⟩ | ⟨-, -, e3⟩ | ⟨-, -, e3⟩ | ⟨-, -, hc, e3⟩ | ⟨ho, -, -, e3⟩
    · rw [e3, ho] at h1; cases h1
    · rw [e3]; exact Reset_free R g (-1) now hinv.1
    · rw [e3]; exact c3 hf
    · rw [e3]; exact hc
    · exact LockBlock_free R _ g2 i3 (by rw [f3.2.2.2.2.1, ho]) e3 h1
        (by rw [h2, f3.2.2.2.2.2.2.2.1])

/-! ## The invariants of the reachable states (C25, C28, C29, C30) -/

/-- A lock that ends the game: the first loop writes the active piece into the grid with
the flag still off, and the promoted piece does not fit the grid as written: it stands
on an occupied cell. -/
theorem LockBlock_ends (R : Rng σ) (g g1 : Game σ) (hinv : Inv g) (hover : g.gameOver = false)
    (e : LockBlock R g = some g1) (h1 : g1.gameOver = true) :
    ∃ grid1 : Grid,
      lockTiles g.currentBlock.id g.currentBlock.GetCellPositions g.grid false
        = some (grid1, false)
      ∧ BlockFits grid1 g.nextBlock = false
      ∧ (∀ r c : Nat, r < numRows → c < numColums →
        cellAt grid1 r c
          = if ∃ t ∈ g.currentBlock.GetCellPositions, t.row = (r : Int) ∧ t.column = (c : Int)
            then g.currentBlock.id else cellAt g.grid r c)
      ∧ g1.currentBlock = g.nextBlock
      ∧ ∃ t ∈ g.nextBlock.GetCellPositions, cellAt grid1 t.row.toNat t.column.toNat ≠ 0 := by
  obtain ⟨w1, w2, w3, w4, w5⟩ := hinv
  have hin := IsBlockOutside_false _ w5
  obtain ⟨grid1, e1, wf1, hcell⟩ := lockTiles_spec g.currentBlock.id
    g.currentBlock.GetCellPositions g.grid false w1 (fun t ht _ => (hin t ht).2)
  have hany : g.currentBlock.GetCellPositions.any (fun t => decide (t.row < 0)) = false := by
    rw [List.any_eq_false]
    intro t ht
    have := (hin t ht).1
    simpa using this
  rw [hany, Bool.or_false] at e1
  have e0 : lockTiles g.currentBlock.id g.currentBlock.GetCellPositions g.grid g.gameOver
      = some (grid1, false) := by rw [hover]; exact e1
  have e2 := LockBlock_promote R g grid1 _ _ e0 (ClearFullRows_eq grid1 wf1)
  rw [e] at e2
  injection e2 with e2
  subst e2
  have hfit : BlockFits grid1 g.nextBlock = false := by simpa [UpdateScore] using h1
  refine ⟨grid1, e1, hfit, hcell, rfl, ?_⟩
  unfold BlockFits at hfit
  rw [List.all_eq_false] at hfit
  obtain ⟨t, ht, hne⟩ := hfit
  refine ⟨t, ht, ?_⟩
  have hin2 := IsBlockOutside_false _ (spawn_inside _ w2).2 t ht
  rw [IsCellEmpty_inside grid1 _ _ hin2] at hne
  simpa using hne

/-- A call that ends the game is a tick or a soft drop that locks the piece
`lockedPiece g c`, which cannot go down, after which the promoted piece, at its spawn
position, does not fit. -/
theorem step_ends (R : Rng σ) (g g1 : Game σ) (c : Call) (now : Int) (hinv : Inv g)
    (hover : g.gameOver = false) (e : step R g c now = some g1) (h1 : g1.gameOver = true) :
    (c = Call.tick ∨ ∃ input : InputState, c = Call.applyInput input ∧ input.down = true)
    ∧ ¬ cellsFree g.grid ((lockedPiece g c).Move 1 0)
    ∧ ∃ grid1 : Grid,
        lockTiles (lockedPiece g c).id (lockedPiece g c).GetCellPositions g.grid false
          = some (grid1, false)
        ∧ BlockFits grid1 g.nextBlock = false
        ∧ (∀ r c2 : Nat, r < numRows → c2 < numColums →
          cellAt grid1 r c2
            = if ∃ t ∈ (lockedPiece g c).GetCellPositions,
                  t.row = (r : Int) ∧ t.column = (c2 : Int)
              then (lockedPiece g c).id else cellAt g.grid r c2)
        ∧ g1.currentBlock = g.nextBlock ∧ g.nextBlock ∈ GetAllBlocks
        ∧ ∃ t ∈ g.nextBlock.GetCellPositions, cellAt grid1 t.row.toNat t.column.toNat ≠ 0 := by
  have hk := Kept_trivial R
  cases c with
  | tick =>
    obtain ⟨b, g2, e2, -, -, hcase⟩ := MoveBlockDown_step R _ hk g hinv trivial
    simp only [step, e2, Option.map_some'] at e
    injection e with e
    subst e
    rcases hcase with ⟨ho, -, -⟩ | ⟨-, -, -, e3⟩ | ⟨-, -, hc, e3⟩
    · rw [hover] at ho; cases ho
    · rw [e3] at h1; simp only at h1; rw [hover] at h1; cases h1
    · obtain ⟨grid1, a0, a1, a, b, c⟩ := LockBlock_ends R g g2 hinv hover e3 h1
      exact ⟨Or.inl rfl, hc, grid1, a0, a1, a, b, hinv.2.1, c⟩
  | applyInput input =>
    obtain ⟨g2, e2, -, -, hcase⟩ := HandleInput_step R _ hk g input now hinv trivial
    simp only [step, e2] at e
    injection e with e
    subst e
    obtain ⟨i3, -, f3, -⟩ := movesOf_step R _ hk g input hinv trivial
    obtain ⟨f1, -, fn, -, fo, -, -, -, fid, fcells⟩ := f3
    rcases hcase with ⟨ho, -, -⟩ | ⟨ho, -, -⟩ | ⟨-, -, e3⟩ | ⟨-, -, -, e3⟩ | ⟨-, hd, hc, e3⟩
    · rw [hover] at ho; cases ho
    · rw [hover] at ho; cases ho
    · rw [e3, fo, hover] at h1; cases h1
    · rw [e3] at h1
      have : (movesOf g input).gameOver = true := h1
      rw [fo, hover] at this; cases this
    · obtain ⟨grid1, a0, a1, a, b, c⟩ :=
        LockBlock_ends R _ g2 i3 (by rw [fo, hover]) e3 h1
      rw [f1] at a a0 hc
      rw [fn] at b c a1
      exact ⟨Or.inr ⟨input, rfl, hd⟩, hc, grid1, a0, a1, a, b, hinv.2.1, c⟩

/-- C25 (grid value invariant).  In every state reachable from `Reset` by `HandleInput`
and `MoveBlockDown` (and by the coordinator applying inbound Input messages) the grid is
20 x 10 and every one of its cells holds 0 or a kind id in 1..7. -/
theorem grid_values (R : Rng σ) (g : Game σ) (h : Reachable R g) :
    g.grid.WF
    ∧ ∀ r c : Nat, r < 20 → c < 10 →
        cellAt g.grid r c = 0 ∨ (1 ≤ cellAt g.grid r c ∧ cellAt g.grid r c ≤ 7) := by
  obtain ⟨hinv, -, hgrid⟩ := Sound_Reachable R g h
  refine ⟨hinv.1, ?_⟩
  intro r c hr hc
  obtain ⟨m1, m2⟩ := cellAt_mem g.grid hinv.1 r c hr hc
  have := (hgrid _ m1).2 _ m2
  omega

/-- C25 at the state that `Reset(35)` and the first 21 calls of `overlapPlay` lead to,
in which the I block has been locked in row 19: the cell (19, 4) holds its id 3. -/
theorem grid_values_witness :
    ∃ g : Game Nat,
      Reachable sampleRng g ∧ cellAt g.grid 19 4 = 3
      ∧ ∀ r c : Nat, r < 20 → c < 10 →
          cellAt g.grid r c = 0 ∨ (1 ≤ cellAt g.grid r c ∧ cellAt g.grid r c ≤ 7) :=
  have hlast : ((trace sampleRng (some (Reset sampleRng sampleOver (toInt32 35) 0))
      (overlapPlay.take 21)).getLast?).map (fun s => s.map (fun g => cellAt g.grid 19 4))
        = some (some 3) := by decide
  match hr : (trace sampleRng (some (Reset sampleRng sampleOver (toInt32 35) 0))
      (overlapPlay.take 21)).getLast?, hlast with
  | some (some g), hl =>
    have hreach : Reachable sampleRng g :=
      trace_Reachable sampleRng (overlapPlay.take 21) _
        (Reachable.reset sampleOver (toInt32 35) 0 (by decide)) g
        (List.mem_of_getLast?_eq_some hr)
    ⟨g, hreach, Option.some.inj (Option.some.inj hl),
      (grid_values sampleRng g hreach).2⟩

/-- C28 (active-piece validity), where the code breaks it.  After `Reset(35)` with the
generator `sampleRng` and the 273 calls of `overlapPlay` (moves, rotations and ticks) the
game is on, the active piece is the S block at its spawn position, with the cells
(0, 4), (0, 5), (1, 3), (1, 4), and the grid cell (1, 3) holds 2: the last lock completed
row 19, the promoted S block was tested against the grid before the rows were cleared,
and the clear then moved the J cell of (0, 3) down to (1, 3), under the piece. -/
theorem active_piece_overlap :
    ((trace sampleRng (some (Reset sampleRng sampleOver (toInt32 35) 0))
        overlapPlay).getLast?).map
      (fun s => s.map (fun g => (g.gameOver, g.currentBlock.id, g.currentBlock.GetCellPositions,
        cellAt g.grid 1 3, decide (cellsFree g.grid g.currentBlock))))
      = some (some (false, 5, [P 0 4, P 0 5, P 1 3, P 1 4], 2, false)) := by
  decide

/-- What the kernel does keep of the validity of the active piece.  After every `Reset`
the active piece is on cells holding 0.  In every reachable state, game-over or not, the
active piece has four cells, pairwise distinct and all inside the grid, and its rotation
index is in 0..3.  And every `HandleInput` or `MoveBlockDown` call from a reachable state
whose active piece is on cells holding 0 returns a state whose active piece is on cells
holding 0 again, provided the call leaves the game on and clears no row. -/
theorem active_piece_valid (R : Rng σ) :
    (∀ (g : Game σ) (seed now : Int), g.grid.WF →
      cellsFree (Reset R g seed now).grid (Reset R g seed now).currentBlock)
    ∧ ∀ g : Game σ, Reachable R g →
      (∀ t ∈ g.currentBlock.GetCellPositions,
        0 ≤ t.row ∧ t.row < 20 ∧ 0 ≤ t.column ∧ t.column < 10)
      ∧ g.currentBlock.GetCellPositions.length = 4
      ∧ g.currentBlock.GetCellPositions.Nodup
      ∧ 0 ≤ g.currentBlock.rotationState ∧ g.currentBlock.rotationState < 4
      ∧ ∀ (c : Call) (now : Int), cellsFree g.grid g.currentBlock →
          ∃ g1 : Game σ, step R g c now = some g1
            ∧ (g1.gameOver = false → g1.totalLinesCleared = g.totalLinesCleared →
                cellsFree g1.grid g1.currentBlock) := by
  refine ⟨Reset_free R, ?_⟩
  intro g h
  obtain ⟨hinv, hcat, -⟩ := Sound_Reachable R g h
  obtain ⟨hlen, hnd⟩ := Catalogued_cells _ hcat hinv.2.2.2.1
  refine ⟨IsBlockOutside_false _ hinv.2.2.2.2, hlen, hnd, hinv.2.2.2.1, hcat.2, ?_⟩
  intro c now hf
  obtain ⟨g1, e, -⟩ := Inv_step R g c now hinv
  exact ⟨g1, e, step_free R g g1 c now hinv hf e⟩

/-- The theorem `active_piece_valid` at the state right after `Reset(42)`: the piece is
on free cells, and after a tick it is on free cells again. -/
theorem active_piece_valid_witness :
    Reachable sampleRng (Reset sampleRng sampleOver 42 0)
    ∧ cellsFree (Reset sampleRng sampleOver 42 0).grid
        (Reset sampleRng sampleOver 42 0).currentBlock
    ∧ (Reset sampleRng sampleOver 42 0).currentBlock.GetCellPositions.length = 4
    ∧ ∃ g1 : Game Nat, step sampleRng (Reset sampleRng sampleOver 42 0) Call.tick 0 = some g1
        ∧ (g1.gameOver = false →
            g1.totalLinesCleared = (Reset sampleRng sampleOver 42 0).totalLinesCleared →
            cellsFree g1.grid g1.currentBlock) :=
  have h0 : Reachable sampleRng (Reset sampleRng sampleOver 42 0) :=
    Reachable.reset sampleOver 42 0 (by decide)
  have hf := (active_piece_valid sampleRng).1 sampleOver 42 0 (by decide)
  have h := (active_piece_valid sampleRng).2 _ h0
  ⟨h0, hf, h.2.1, h.2.2.2.2.2 Call.tick 0 hf⟩

/-- C29 (lock safety).  In every reachable state, game-over or not: every cell of the
active piece is inside the grid, so at a row `>= 0`; the first loop of `LockBlock`
returns, every write being inside the array, and leaves the game-over flag as it was,
the branch for a cell above the grid not being taken; and every call returns, and if it
takes the game from on to over, then the call is a tick or an input with soft drop, the
piece it handles (`lockedPiece`: the active piece, after the moves and the rotation of
the record) cannot go down, the first loop of `LockBlock` writes that piece into the grid
with the flag still off, and the promoted piece, the former next piece at its spawn
position, does not fit the grid as written: it stands on an occupied cell. -/
theorem lock_safety (R : Rng σ) (g : Game σ) (h : Reachable R g) :
    (∀ t ∈ g.currentBlock.GetCellPositions,
      0 ≤ t.row ∧ t.row < 20 ∧ 0 ≤ t.column ∧ t.column < 10)
    ∧ (∃ grid1 : Grid,
        lockTiles g.currentBlock.id g.currentBlock.GetCellPositions g.grid g.gameOver
          = some (grid1, g.gameOver))
    ∧ ∀ (c : Call) (now : Int), ∃ g1 : Game σ, step R g c now = some g1
        ∧ (g.gameOver = false → g1.gameOver = true →
          (c = Call.tick ∨ ∃ input : InputState, c = Call.applyInput input ∧ input.down = true)
          ∧ ¬ cellsFree g.grid ((lockedPiece g c).Move 1 0)
          ∧ ∃ grid1 : Grid,
              lockTiles (lockedPiece g c).id (lockedPiece g c).GetCellPositions g.grid false
                = some (grid1, false)
              ∧ BlockFits grid1 g.nextBlock = false
              ∧ (∀ r c2 : Nat, r < 20 → c2 < 10 →
                cellAt grid1 r c2
                  = if ∃ t ∈ (lockedPiece g c).GetCellPositions,
                        t.row = (r : Int) ∧ t.column = (c2 : Int)
                    then (lockedPiece g c).id else cellAt g.grid r c2)
              ∧ g1.currentBlock = g.nextBlock ∧ g.nextBlock ∈ GetAllBlocks
              ∧ ∃ t ∈ g.nextBlock.GetCellPositions,
                  cellAt grid1 t.row.toNat t.column.toNat ≠ 0) := by
  have hinv := Inv_Reachable R g h
  have hin := IsBlockOutside_false _ hinv.2.2.2.2
  refine ⟨hin, ?_, ?_⟩
  · obtain ⟨grid1, e, -, -⟩ := lockTiles_spec g.currentBlock.id
      g.currentBlock.GetCellPositions g.grid g.gameOver hinv.1 (fun t ht _ => (hin t ht).2)
    have hany : g.currentBlock.GetCellPositions.any (fun t => decide (t.row < 0)) = false := by
      rw [List.any_eq_false]
      intro t ht
      have := (hin t ht).1
      simpa using this
    rw [hany, Bool.or_false] at e
    exact ⟨grid1, e⟩
  · intro c now
    obtain ⟨g1, e, -⟩ := Inv_step R g c now hinv
    exact ⟨g1, e, fun hover h1 => step_ends R g g1 c now hinv hover e h1⟩

/-- C29 at the state `Reset(42)` and 110 ticks lead to, with the generator `sampleRng`:
the game is on, the lock loop returns with the flag unchanged, and the next tick ends
the game: the active piece cannot go down, it is locked, and the promoted piece does not
fit the grid as written. -/
theorem lock_safety_witness :
    ∃ g : Game Nat,
      Reachable sampleRng g ∧ g.gameOver = false
      ∧ (∃ grid1 : Grid,
          lockTiles g.currentBlock.id g.currentBlock.GetCellPositions g.grid g.gameOver
            = some (grid1, g.gameOver))
      ∧ ∃ g1 : Game Nat, step sampleRng g Call.tick 0 = some g1 ∧ g1.gameOver = true
        ∧ ¬ cellsFree g.grid (g.currentBlock.Move 1 0)
        ∧ ∃ grid1 : Grid,
            lockTiles g.currentBlock.id g.currentBlock.GetCellPositions g.grid false
              = some (grid1, false)
            ∧ BlockFits grid1 g.nextBlock = false
            ∧ g1.currentBlock = g.nextBlock ∧ g.nextBlock ∈ GetAllBlocks
            ∧ ∃ t ∈ g.nextBlock.GetCellPositions,
                cellAt grid1 t.row.toNat t.column.toNat ≠ 0 :=
  have hlast : ((trace sampleRng (some (Reset sampleRng sampleOver (toInt32 42) 0))
      (List.replicate 110 (Call.tick, 0))).getLast?).bind
        (fun s => s.bind (fun g => (step sampleRng g Call.tick 0).map
          (fun g1 => (g.gameOver, g1.gameOver)))) = some (false, true) := by decide
  match hr : (trace sampleRng (some (Reset sampleRng sampleOver (toInt32 42) 0))
      (List.replicate 110 (Call.tick, 0))).getLast?, hlast with
  | some (some g), hl =>
    have hreach : Reachable sampleRng g :=
      trace_Reachable sampleRng (List.replicate 110 (Call.tick, 0)) _
        (Reachable.reset sampleOver (toInt32 42) 0 (by decide)) g
        (List.mem_of_getLast?_eq_some hr)
    have h := lock_safety sampleRng g hreach
    match h.2.2 Call.tick 0 with
    | ⟨g1, e, himp⟩ =>
      have hl2 : (step sampleRng g Call.tick 0).map (fun g1 => (g.gameOver, g1.gameOver))
          = some (false, true) := hl
      have hboth : (g.gameOver, g1.gameOver) = (false, true) := by
        rw [e] at hl2
        exact Option.some.inj hl2
      have hover : g.gameOver = false := congrArg Prod.fst hboth
      have hend : g1.gameOver = true := congrArg Prod.snd hboth
      match himp hover hend with
      | ⟨_, hc, grid1, a0, a1, _, b, c, d⟩ =>
        ⟨g, hreach, hover, h.2.1, g1, e, hend, hc, grid1, a0, a1, b, c, d⟩

/-- C30 (no full row survives).  In every reachable state no row of the grid is full:
`IsRowFull` is false on each of the 20 rows, each of which holds a 0.  Every lock in a
reachable state whose game is on returns, and the number `k` of rows it clears is at
most 4; the line count grows by `k` and the score, in its 32-bit arithmetic, by the
entry of the score table for `k`.  And for every 20 x 10 grid, a `ClearFullRows` call
right after a `ClearFullRows` call returns 0 and the grid it was given. -/
theorem no_full_row (R : Rng σ) :
    (∀ g : Game σ, Reachable R g →
      (∀ r : Nat, r < 20 → IsRowFull g.grid r = false ∧ (0 : Int) ∈ g.grid.getD r [])
      ∧ (g.gameOver = false →
          ∃ (g1 : Game σ) (grid1 : Grid) (k : Nat),
            LockBlock R g = some g1 ∧ ClearFullRows grid1 = some (k, g1.grid) ∧ k ≤ 4
            ∧ g1.totalLinesCleared = g.totalLinesCleared + k
            ∧ g1.score = wrapInt32 (g.score + lineScore k g.level)))
    ∧ ∀ (grid grid1 : Grid) (k : Nat), grid.WF → ClearFullRows grid = some (k, grid1) →
        ClearFullRows grid1 = some (0, grid1) := by
  refine ⟨?_, fun grid grid1 k hwf e => (ClearFullRows_idem grid grid1 k hwf e).2⟩
  intro g h
  obtain ⟨hinv, hcat, hgrid⟩ := Sound_Reachable R g h
  constructor
  · intro r hr
    obtain ⟨m1, -⟩ := cellAt_mem g.grid hinv.1 r 0 hr (by decide)
    have hz := (hgrid _ m1).1
    refine ⟨?_, hz⟩
    rw [IsRowFull_getD g.grid hinv.1 r hr]
    simpa using hz
  · intro hover
    obtain ⟨grid1, g1, e, wf1, hcell, -, -, -, -, -, hclear, -, hscore, htot, -⟩ :=
      LockBlock_inside R g hinv.1 hover (IsBlockOutside_false _ hinv.2.2.2.2)
    have hle := full_rows_le g.grid grid1 g.currentBlock.GetCellPositions g.currentBlock.id
      hinv.1 wf1 (fun row hrow => (hgrid row hrow).1) hcell
    rw [(Catalogued_cells _ hcat hinv.2.2.2.1).1] at hle
    exact ⟨g1, grid1, _, e, hclear, hle, htot, by rw [hscore, UpdateScore_score]⟩

/-- C30 at the state `Reset(35)` and the first 272 calls of `overlapPlay` lead to, whose
L block is about to lock: no row is full, and the lock clears at most four rows; and at
the grid `sampleGrid`, which `ClearFullRows` turns into `sampleGridCleared`: a second
call returns 0 and `sampleGridCleared`. -/
theorem no_full_row_witness :
    (∃ g : Game Nat,
      Reachable sampleRng g ∧ g.gameOver = false
      ∧ (∀ r : Nat, r < 20 → IsRowFull g.grid r = false ∧ (0 : Int) ∈ g.grid.getD r [])
      ∧ ∃ (g1 : Game Nat) (grid1 : Grid) (k : Nat),
          LockBlock sampleRng g = some g1 ∧ ClearFullRows grid1 = some (k, g1.grid) ∧ k ≤ 4
          ∧ g1.totalLinesCleared = g.totalLinesCleared + k
          ∧ g1.score = wrapInt32 (g.score + lineScore k g.level))
    ∧ sampleGrid.WF ∧ ClearFullRows sampleGrid = some (2, sampleGridCleared)
    ∧ ClearFullRows sampleGridCleared = some (0, sampleGridCleared) :=
  have hlast : ((trace sampleRng (some (Reset sampleRng sampleOver (toInt32 35) 0))
      (overlapPlay.take 272)).getLast?).map (fun s => s.map (fun g => g.gameOver))
        = some (some false) := by decide
  have hwf : sampleGrid.WF := by decide
  have hc : ClearFullRows sampleGrid = some (2, sampleGridCleared) := by decide
  ⟨match hr : (trace sampleRng (some (Reset sampleRng sampleOver (toInt32 35) 0))
      (overlapPlay.take 272)).getLast?, hlast with
    | some (some g), hl =>
      have hreach : Reachable sampleRng g :=
        trace_Reachable sampleRng (overlapPlay.take 272) _
          (Reachable.reset sampleOver (toInt32 35) 0 (by decide)) g
          (List.mem_of_getLast?_eq_some hr)
      have hover : g.gameOver = false := Option.some.inj (Option.some.inj hl)
      have h := (no_full_row sampleRng).1 g hreach
      ⟨g, hreach, hover, h.1, h.2 hover⟩,
    hwf, hc, (no_full_row sampleRng).2 sampleGrid sampleGridCleared 2 hwf hc⟩

end TetrisNG
